import Mathlib

/-!
# FatFs-Particle: the SD/MMC SPI block driver (`firmware/FatFs-SD.h`)

A shallow embedding of `TimeoutChecker` and `SDSPIDriver<Pin>` and the
properties proved about them.

## Modelling conventions

* Machine integers are `Nat`; a `BYTE` is reduced `% 256`, a `DWORD`/`UINT`/
  `uint32_t` is reduced `% 2^32` wherever the C++ arithmetic can overflow.
* The hardware is an oracle `World`: the byte shifted in during the `i`-th bus
  byte, the `j`-th reading of `millis()`, the `k`-th `digitalRead`.  The driver
  cannot influence the oracle, so a statement quantified over every `World`
  covers every card, clock and sensor behaviour.
* `State` holds the fields of the driver object, the level of the chip-select
  line, the counters into the oracle and the trace of what the driver did to
  the hardware (`Ev`).
* Loops whose exit depends on the card or on the clock take a `fuel : Nat` and
  return `none` when the fuel is used up; loops with a counter of their own are
  structural.
* `LOG(...)` has no effect on driver state or bus and is left out; where a
  `LOG` is guarded by a clock reading (`if (timeout) LOG(...)`), the reading
  stays.
* The mutex of `lock()`/`unlock()` is the single-context case
  (`_mutex == nullptr`, the two-argument `begin`).
* `xmit_spi_multi` and `rcvr_spi_multi` follow the `PLATFORM_THREADING` build:
  one burst transfer, recorded as one `Ev.burst`.  The other build shifts the
  same bytes one `transfer` at a time; both consume the same bus positions.
-/

namespace FatFsSD

/-! ## Constants -/

/-- GO_IDLE_STATE -/
abbrev CMD0 : Nat := 0
/-- SEND_OP_COND (MMC) -/
abbrev CMD1 : Nat := 1
/-- SEND_OP_COND (SDC) -/
abbrev ACMD41 : Nat := 0x80 + 41
/-- SEND_IF_COND -/
abbrev CMD8 : Nat := 8
/-- SEND_CSD -/
abbrev CMD9 : Nat := 9
/-- SEND_CID -/
abbrev CMD10 : Nat := 10
/-- STOP_TRANSMISSION -/
abbrev CMD12 : Nat := 12
/-- SD_STATUS (SDC) -/
abbrev ACMD13 : Nat := 0x80 + 13
/-- SET_BLOCKLEN -/
abbrev CMD16 : Nat := 16
/-- READ_SINGLE_BLOCK -/
abbrev CMD17 : Nat := 17
/-- READ_MULTIPLE_BLOCK -/
abbrev CMD18 : Nat := 18
/-- SET_BLOCK_COUNT (MMC) -/
abbrev CMD23 : Nat := 23
/-- SET_WR_BLK_ERASE_COUNT (SDC) -/
abbrev ACMD23 : Nat := 0x80 + 23
/-- WRITE_BLOCK -/
abbrev CMD24 : Nat := 24
/-- WRITE_MULTIPLE_BLOCK -/
abbrev CMD25 : Nat := 25
/-- ERASE_ER_BLK_START -/
abbrev CMD32 : Nat := 32
/-- ERASE_ER_BLK_END -/
abbrev CMD33 : Nat := 33
/-- ERASE -/
abbrev CMD38 : Nat := 38
/-- APP_CMD -/
abbrev CMD55 : Nat := 55
/-- READ_OCR -/
abbrev CMD58 : Nat := 58

/-- Modelled from the spec: the header `FatFs/FatFs.h` that declares the
`DSTATUS` bits is not part of the sources.  The spec names the three flags of
the device-status bitset; the values are those of FatFs `diskio.h`.
NOT_INITIALIZED. -/
abbrev STA_NOINIT : Nat := 0x01
/-- Modelled from the spec: see `STA_NOINIT`.  NO_MEDIA. -/
abbrev STA_NODISK : Nat := 0x02
/-- Modelled from the spec: see `STA_NOINIT`.  WRITE_PROTECTED. -/
abbrev STA_PROTECT : Nat := 0x04

/-- Modelled from the spec: the header that declares the card-type flags is not
part of the sources.  The spec names the classification
{NONE, MMC, SD_V1, SD_V2} and the BLOCK_ADDRESSED flag; the values are those of
FatFs `diskio.h`.  MMC version 3. -/
abbrev CT_MMC : Nat := 0x01
/-- Modelled from the spec: see `CT_MMC`.  SD version 1. -/
abbrev CT_SD1 : Nat := 0x02
/-- Modelled from the spec: see `CT_MMC`.  SD version 2. -/
abbrev CT_SD2 : Nat := 0x04
/-- Modelled from the spec: see `CT_MMC`.  Any SD card. -/
abbrev CT_SDC : Nat := CT_SD1 ||| CT_SD2
/-- Modelled from the spec: see `CT_MMC`.  Block addressing. -/
abbrev CT_BLOCK : Nat := 0x08

/-- Modelled from the spec: the header that declares `DRESULT` is not part of
the sources.  The spec names the results {OK, ERROR, WRITE_PROTECTED,
NOT_READY} and the parameter error; the values are those of FatFs `diskio.h`. -/
abbrev RES_OK : Nat := 0
/-- Modelled from the spec: see `RES_OK`. -/
abbrev RES_ERROR : Nat := 1
/-- Modelled from the spec: see `RES_OK`. -/
abbrev RES_WRPRT : Nat := 2
/-- Modelled from the spec: see `RES_OK`. -/
abbrev RES_NOTRDY : Nat := 3
/-- Modelled from the spec: see `RES_OK`. -/
abbrev RES_PARERR : Nat := 4

/-- Modelled from the spec: the header that declares the `ioctl` opcodes is not
part of the sources.  The spec names SYNC, SECTOR_COUNT, ERASE_BLOCK_SIZE and
ERASE_SECTOR_RANGE; the values are those of FatFs `diskio.h`. -/
abbrev CTRL_SYNC : Nat := 0
/-- Modelled from the spec: see `CTRL_SYNC`. -/
abbrev GET_SECTOR_COUNT : Nat := 1
/-- Modelled from the spec: see `CTRL_SYNC`. -/
abbrev GET_SECTOR_SIZE : Nat := 2
/-- Modelled from the spec: see `CTRL_SYNC`. -/
abbrev GET_BLOCK_SIZE : Nat := 3
/-- Modelled from the spec: see `CTRL_SYNC`. -/
abbrev CTRL_ERASE_SECTOR : Nat := 4
/-- Modelled from the spec: see `CTRL_SYNC`. -/
abbrev MMC_GET_CSD : Nat := 11

/-- Two to the thirty-second: the modulus of `uint32_t`, `DWORD` and `UINT`. -/
abbrev U32 : Nat := 4294967296

/-! ## The hardware -/

/-- What the driver does to the hardware, in order. -/
inductive Ev where
  /-- `_spi->transfer(b)`: one byte shifted out. -/
  | xfer (b : Nat)
  /-- `_spi->transfer(tx, rx, n, callback)`: one burst of `n` bytes shifted out. -/
  | burst (tx : List Nat)
  /-- `digitalWrite(_cs, level)`; `true` is HIGH (deasserted). -/
  | cs (high : Bool)
  /-- `delay(ms)`. -/
  | delay (ms : Nat)
deriving DecidableEq, Repr

/-- The behaviour of card, clock and sensors, none of which the driver controls. -/
structure World where
  /-- The byte the card shifts in during the `i`-th byte on the bus. -/
  miso : Nat → Nat
  /-- The value returned by the `j`-th call of `millis()`. -/
  millis : Nat → Nat
  /-- The level returned by the `k`-th call of `digitalRead`, for the given pin. -/
  pin : Nat → Nat → Nat
  /-- The indeterminate initial contents of the local array `csd` of `ioctl`. -/
  junk : Nat → Nat

/-- The driver object together with the hardware state it acts on. -/
structure State where
  _cs : Nat
  _cd : Nat
  _cd_enabled : Bool
  _cd_active_state : Nat
  _wp : Nat
  _wp_enabled : Bool
  _wp_active_state : Nat
  _high_speed_clock : Nat
  _low_speed_clock : Nat
  _active_clock : Nat
  _status : Nat
  _cardType : Nat
  _busy : Bool
  _busy_check : Bool
  /-- Level of the chip-select line; `true` is HIGH (deasserted). -/
  csHigh : Bool
  /-- Clock rate last programmed into the bus by `setSPI`. -/
  spiClock : Nat
  /-- Number of bytes exchanged on the bus so far. -/
  nbus : Nat
  /-- Number of `millis()` calls so far. -/
  nclk : Nat
  /-- Number of `digitalRead` calls so far. -/
  npin : Nat
  /-- Everything done to the hardware so far, oldest first. -/
  trace : List Ev
deriving DecidableEq, Repr

/-- The byte received with bus byte number `i`. -/
def World.rx (W : World) (i : Nat) : Nat := W.miso i % 256

/-- `millis()`: the next reading of the 32-bit millisecond counter. -/
def millis (W : World) (s : State) : Nat × State :=
  (W.millis s.nclk % U32, { s with nclk := s.nclk + 1 })

/-- `digitalRead(pin)`. -/
def digitalRead (W : World) (p : Nat) (s : State) : Nat × State :=
  (W.pin s.npin p, { s with npin := s.npin + 1 })

/-- `delay(ms)`. -/
def delay (ms : Nat) (s : State) : State :=
  { s with trace := s.trace ++ [Ev.delay ms] }

/-! ## `TimeoutChecker` -/

/-- `class TimeoutChecker`. -/
structure TimeoutChecker where
  _start : Nat
  _duration : Nat
  _end : Nat
deriving DecidableEq, Repr

/-- The comparison of `operator int()` for a clock reading `now`:
`_start < _end ? now > _end : now > _end && now < _start`. -/
def TimeoutChecker.expiredAt (t : TimeoutChecker) (now : Nat) : Bool :=
  if t._start < t._end then decide (now > t._end)
  else decide (now > t._end) && decide (now < t._start)

/-- The assignments of `start()` for a clock reading `now`:
`_start = now; _end = _start + _duration`. -/
def TimeoutChecker.startAt (t : TimeoutChecker) (now : Nat) : TimeoutChecker :=
  { t with _start := now, _end := (now + t._duration) % U32 }

/-- `TimeoutChecker::start()`. -/
def TimeoutChecker.start (W : World) (t : TimeoutChecker) (s : State) :
    TimeoutChecker × State :=
  let (now, s) := millis W s
  (t.startAt now, s)

/-- `TimeoutChecker::TimeoutChecker(timeoutMillis)`. -/
def TimeoutChecker.new (W : World) (timeoutMillis : Nat) (s : State) :
    TimeoutChecker × State :=
  TimeoutChecker.start W { _start := 0, _duration := timeoutMillis % U32, _end := 0 } s

/-- `TimeoutChecker::operator int()`: reads the clock and compares. -/
def TimeoutChecker.expired (W : World) (t : TimeoutChecker) (s : State) :
    Bool × State :=
  let (now, s) := millis W s
  (t.expiredAt now, s)

/-! ## Bus primitives -/

/-- `assertCS()`. -/
def assertCS (s : State) : State :=
  { s with csHigh := false, trace := s.trace ++ [Ev.cs false] }

/-- `deassertCS()`. -/
def deassertCS (s : State) : State :=
  { s with csHigh := true, trace := s.trace ++ [Ev.cs true] }

/-- `activateLowSpeed()`. -/
def activateLowSpeed (s : State) : State :=
  { s with _active_clock := s._low_speed_clock }

/-- `activateHighSpeed()`. -/
def activateHighSpeed (s : State) : State :=
  { s with _active_clock := s._high_speed_clock }

/-- `setSPI()`: programs the bus with the active clock rate. -/
def setSPI (s : State) : State :=
  { s with spiClock := s._active_clock }

/-- `xmit_spi(b)`: shifts `b` out and returns the byte shifted in. -/
def xmit_spi (W : World) (b : Nat) (s : State) : Nat × State :=
  (W.rx s.nbus, { s with nbus := s.nbus + 1, trace := s.trace ++ [Ev.xfer b] })

/-- The bytes `buff[off .. off+n)` of a memory of bytes. -/
def bytesAt (buff : Nat → Nat) (off n : Nat) : List Nat :=
  (List.range n).map (fun i => buff (off + i) % 256)

/-- `xmit_spi_multi(buff, btx)`: one burst shifting out `btx` bytes; what the
card shifts in meanwhile is dropped. -/
def xmit_spi_multi (buff : Nat → Nat) (off btx : Nat) (s : State) : State :=
  { s with nbus := s.nbus + btx, trace := s.trace ++ [Ev.burst (bytesAt buff off btx)] }

/-- `rcvr_spi_multi(buff, btr)`: one burst shifting out `btr` bytes 0xFF; the
bytes shifted in, in order, are what `buff[0 .. btr)` holds afterwards. -/
def rcvr_spi_multi (W : World) (btr : Nat) (s : State) : List Nat × State :=
  ((List.range btr).map (fun i => W.rx (s.nbus + i)),
   { s with nbus := s.nbus + btr, trace := s.trace ++ [Ev.burst (List.replicate btr 0xFF)] })

/-- The loop of `wait_ready`:
`do { d = xmit_spi(0xFF); } while (d != 0xFF && !timeout);`. -/
def wait_ready_loop (W : World) (t : TimeoutChecker) : Nat → State → Option (Nat × State)
  | 0, _ => none
  | fuel + 1, s =>
    let (d, s) := xmit_spi W 0xFF s
    if d ≠ 0xFF then
      let (ex, s) := t.expired W s
      if !ex then wait_ready_loop W t fuel s else some (d, s)
    else some (d, s)

/-- `wait_ready(wt)`: 1 when the card reports ready, 0 on timeout. -/
def wait_ready (W : World) (fuel : Nat) (wt : Nat) (s : State) : Option (Nat × State) :=
  let (t, s) := TimeoutChecker.new W wt s
  match wait_ready_loop W t fuel s with
  | none => none
  | some (d, s) => some (if d = 0xFF then 1 else 0, s)

/-- `deselect()`. -/
def deselect (W : World) (s : State) : State :=
  (xmit_spi W 0xFF (deassertCS s)).2

/-- `select()`: 1 when the card went ready within 100 ms, 0 on timeout. -/
def select (W : World) (fuel : Nat) (s : State) : Option (Nat × State) :=
  let s := assertCS s
  let (_, s) := xmit_spi W 0xFF s
  match wait_ready W fuel 100 s with
  | none => none
  | some (r, s) => if r ≠ 0 then some (1, s) else some (0, deselect W s)

/-- The response loop of `send_cmd`, entered with `n` polls left (`n = 10`):
`do { res = xmit_spi(0xFF); } while ((res & 0x80) && --n);`. -/
def recv_resp : Nat → World → State → Nat × State
  | 0, W, s => xmit_spi W 0xFF s
  | n + 1, W, s =>
    let (res, s) := xmit_spi W 0xFF s
    if res &&& 0x80 ≠ 0 ∧ n ≠ 0 then recv_resp n W s else (res, s)

/-- The command packet of `send_cmd`: start bit and index, the argument most
significant byte first, the trailer. -/
def cmd_packet (cmd arg : Nat) : List Nat :=
  let n := 0x01
  let n := if cmd = CMD0 then 0x95 else n
  let n := if cmd = CMD8 then 0x87 else n
  [0x40 ||| cmd, (arg >>> 24) % 256, (arg >>> 16) % 256, (arg >>> 8) % 256, arg % 256, n]

/-- Shifts the bytes of a list out one `xmit_spi` at a time. -/
def xmit_list (W : World) : List Nat → State → State
  | [], s => s
  | b :: bs, s => xmit_list W bs (xmit_spi W b s).2

/-- Lines 202 to 229 of `send_cmd`, for a command index `cmd` whose tag bit
has been removed: reselect, command packet, response. -/
def send_cmd_tail (W : World) (fuel : Nat) (cmd arg : Nat) (s : State) :
    Option (Nat × State) :=
  let sel : Option (Nat × State) :=
    if cmd ≠ CMD12 then select W fuel (deselect W s) else some (1, s)
  match sel with
  | none => none
  | some (ok, s) =>
    if ok = 0 then some (0xFF, s)
    else
      let s := xmit_list W (cmd_packet cmd arg) s
      let s := if cmd = CMD12 then (xmit_spi W 0xFF s).2 else s
      some (recv_resp 10 W s)

/-- `send_cmd(cmd, arg)`; `depth` bounds the nesting of the recursive call,
which is made for APP_CMD only (`send_cmd` below starts it at 1). -/
def send_cmd_rec (W : World) (fuel : Nat) : Nat → Nat → Nat → State → Option (Nat × State)
  | depth, cmd, arg, s =>
    match wait_ready W fuel 10 s with
    | none => none
    | some (_, s) =>
      if cmd &&& 0x80 ≠ 0 then
        match depth with
        | 0 => none
        | d + 1 =>
          match send_cmd_rec W fuel d CMD55 0 s with
          | none => none
          | some (res, s) =>
            if res > 1 then some (res, s)
            else send_cmd_tail W fuel (cmd &&& 0x7F) arg s
      else send_cmd_tail W fuel cmd arg s

/-- `send_cmd(cmd, arg)`: the R1 response. -/
def send_cmd (W : World) (fuel : Nat) (cmd arg : Nat) (s : State) : Option (Nat × State) :=
  send_cmd_rec W fuel 1 cmd arg s

/-! ## Block transfer -/

/-- `xmit_datablock(buff, token)` for the 512 bytes at `buff + off`:
1 when the block was accepted, 0 otherwise. -/
def xmit_datablock (W : World) (fuel : Nat) (buff : Nat → Nat) (off : Nat) (token : Nat)
    (s : State) : Option (Nat × State) :=
  match wait_ready W fuel 100 s with
  | none => none
  | some (r, s) =>
    if r = 0 then some (0, s)
    else
      let (_, s) := xmit_spi W token s
      if token ≠ 0xFD then
        let s := xmit_spi_multi buff off 512 s
        let (_, s) := xmit_spi W 0xFF s
        let (_, s) := xmit_spi W 0xFF s
        let (resp, s) := xmit_spi W 0xFF s
        if resp &&& 0x1F ≠ 0x05 then some (0, s) else some (1, s)
      else some (1, s)

/-- The token loop of `rcvr_datablock`:
`do { token = xmit_spi(0xFF); } while ((token == 0xFF) && !timeout);`. -/
def rcvr_token (W : World) (t : TimeoutChecker) : Nat → State → Option (Nat × State)
  | 0, _ => none
  | fuel + 1, s =>
    let (token, s) := xmit_spi W 0xFF s
    if token = 0xFF then
      let (ex, s) := t.expired W s
      if !ex then rcvr_token W t fuel s else some (token, s)
    else some (token, s)

/-- `rcvr_datablock(buff, btr)`: the result (1 OK, 0 error) and the bytes
stored to `buff[0 .. btr)` (none on error). -/
def rcvr_datablock (W : World) (fuel : Nat) (btr : Nat) (s : State) :
    Option ((Nat × List Nat) × State) :=
  let (t, s) := TimeoutChecker.new W 200 s
  match rcvr_token W t fuel s with
  | none => none
  | some (token, s) =>
    if token ≠ 0xFE then some ((0, []), s)
    else
      let (data, s) := rcvr_spi_multi W btr s
      let (_, s) := xmit_spi W 0xFF s
      some ((1, data), s)

/-- The memory `buff` after `data` has been stored at offset `off`. -/
def store (buff : Nat → Nat) (off : Nat) (data : List Nat) : Nat → Nat :=
  fun a => if off ≤ a ∧ a < off + data.length then data.getD (a - off) 0 else buff a

/-! ## The driver object -/

/-- `lock()` with no mutex. -/
def lock (s : State) : State :=
  setSPI { s with _busy := true, _busy_check := true }

/-- `unlock()` with no mutex. -/
def unlock (s : State) : State :=
  { s with _busy := false }

/-- `SDSPIDriver()`: the freshly constructed driver (HIGH is 1, LOW is 0); the
chip-select line is not driven yet. -/
def SDSPIDriver : State :=
  { _cs := 0, _cd := 0, _cd_enabled := false, _cd_active_state := 1,
    _wp := 0, _wp_enabled := false, _wp_active_state := 0,
    _high_speed_clock := 15000000, _low_speed_clock := 400000, _active_clock := 400000,
    _status := STA_NOINIT, _cardType := 0, _busy := false, _busy_check := false,
    csHigh := false, spiClock := 0, nbus := 0, nclk := 0, npin := 0, trace := [] }

/-- `begin(spi, cs)`. -/
def begin (cs : Nat) (s : State) : State :=
  { s with _cs := cs, csHigh := true, trace := s.trace ++ [Ev.cs true] }

/-- `enableCardDetect(cdPin, activeState)`. -/
def enableCardDetect (cdPin : Nat) (activeState : Bool) (s : State) : State :=
  { s with _cd := cdPin, _cd_active_state := if activeState then 1 else 0, _cd_enabled := true }

/-- `enableWriteProtectDetect(wpPin, activeState)`. -/
def enableWriteProtectDetect (wpPin : Nat) (activeState : Bool) (s : State) : State :=
  { s with _wp := wpPin, _wp_active_state := if activeState then 1 else 0, _wp_enabled := true }

/-- `cardPresent()`: `!_cd_enabled || digitalRead(_cd) == _cd_active_state`. -/
def cardPresent (W : World) (s : State) : Bool × State :=
  if !s._cd_enabled then (true, s)
  else
    let (v, s) := digitalRead W s._cd s
    (decide (v = s._cd_active_state), s)

/-- `writeProtected()`: `_wp_enabled && digitalRead(_wp) == _wp_active_state`. -/
def writeProtected (W : World) (s : State) : Bool × State :=
  if s._wp_enabled then
    let (v, s) := digitalRead W s._wp s
    (decide (v = s._wp_active_state), s)
  else (false, s)

/-- `wasBusySinceLastCheck()`. -/
def wasBusySinceLastCheck (s : State) : Bool × State :=
  (s._busy_check, { s with _busy_check := s._busy })

/-- `x & ~m` on a byte. -/
def clearBits (x m : Nat) : Nat := x &&& (0xFF ^^^ m)

/-! ## `initialize` -/

/-- `for (n = 10; n; n--) xmit_spi(0xFF);` with `n` iterations left. -/
def idle_clocks (W : World) : Nat → State → State
  | 0, s => s
  | n + 1, s => idle_clocks W n (xmit_spi W 0xFF s).2

/-- `for (n = 0; n < 200; n++) { delay(1); send_cmd(CMD0, 0); }` with `n`
iterations left. -/
def settle (W : World) (fuel : Nat) : Nat → State → Option State
  | 0, s => some s
  | n + 1, s =>
    match send_cmd W fuel CMD0 0 (delay 1 s) with
    | none => none
    | some (_, s) => settle W fuel n s

/-- `while (!timeout && send_cmd(cmd, arg)) ;`. -/
def op_cond_wait (W : World) (fuel : Nat) (t : TimeoutChecker) (cmd arg : Nat) :
    Nat → State → Option State
  | 0, _ => none
  | k + 1, s =>
    let (ex, s) := t.expired W s
    if ex then some s
    else
      match send_cmd W fuel cmd arg s with
      | none => none
      | some (r, s) => if r ≠ 0 then op_cond_wait W fuel t cmd arg k s else some s

/-- `for (n = 0; n < 4; n++) ocr[n] = xmit_spi(0xFF);`. -/
def recv_ocr (W : World) (s : State) : List Nat × State :=
  let (o0, s) := xmit_spi W 0xFF s
  let (o1, s) := xmit_spi W 0xFF s
  let (o2, s) := xmit_spi W 0xFF s
  let (o3, s) := xmit_spi W 0xFF s
  ([o0, o1, o2, o3], s)

/-- Lines 416 to 436 of `initialize`, the branch taken when SEND_IF_COND is
accepted: the card type found. -/
def init_sdv2 (W : World) (fuel : Nat) (t : TimeoutChecker) (s : State) :
    Option (Nat × State) :=
  let (ocr, s) := recv_ocr W s
  if ocr.getD 2 0 = 0x01 ∧ ocr.getD 3 0 = 0xAA then
    match op_cond_wait W fuel t ACMD41 (1 <<< 30) fuel s with
    | none => none
    | some s =>
      let (ex, s) := t.expired W s
      let r58 : Option (Nat × State) := if !ex then send_cmd W fuel CMD58 0 s else some (0, s)
      match r58 with
      | none => none
      | some (r, s) =>
        if !ex ∧ r = 0 then
          let (ocr, s) := recv_ocr W s
          some (if ocr.getD 0 0 &&& 0x40 ≠ 0 then CT_SD2 ||| CT_BLOCK else CT_SD2, s)
        else
          let (_, s) := t.expired W s
          some (0, s)
  else some (0, s)

/-- Lines 438 to 450 of `initialize`, the branch taken when SEND_IF_COND is
rejected: the card type found. -/
def init_sdv1_mmc (W : World) (fuel : Nat) (t : TimeoutChecker) (s : State) :
    Option (Nat × State) :=
  match send_cmd W fuel ACMD41 0 s with
  | none => none
  | some (r, s) =>
    let (ty, cmd) := if r ≤ 1 then (CT_SD1, ACMD41) else (CT_MMC, CMD1)
    match op_cond_wait W fuel t cmd 0 fuel s with
    | none => none
    | some s =>
      let (ex, s) := t.expired W s
      if !ex then some (0, s)
      else
        match send_cmd W fuel CMD16 512 s with
        | none => none
        | some (r, s) => if r ≠ 0 then some (0, s) else some (ty, s)

/-- Lines 412 to 457 of `initialize`: the authoritative GO_IDLE_STATE and the
probing that follows it; the card type found. -/
def init_probe (W : World) (fuel : Nat) (t : TimeoutChecker) (s : State) :
    Option (Nat × State) :=
  match send_cmd W fuel CMD0 0 s with
  | none => none
  | some (r0, s) =>
    let found : Option (Nat × TimeoutChecker × State) :=
      if r0 = 1 then
        let (t, s) := t.start W s
        match send_cmd W fuel CMD8 0x1AA s with
        | none => none
        | some (r8, s) =>
          match (if r8 = 1 then init_sdv2 W fuel t s else init_sdv1_mmc W fuel t s) with
          | none => none
          | some (ty, s) => some (ty, t, s)
      else some (0, t, s)
    match found with
    | none => none
    | some (ty, t, s) =>
      let (_, s) := t.expired W s
      some (ty, s)

/-- Lines 459 to 477 of `initialize`: records the card type, deselects, sets
the status bits and the clock rate; the status returned. -/
def init_finish (W : World) (ty : Nat) (s : State) : Nat × State :=
  let s := { s with _cardType := ty % 256 }
  let s := deselect W s
  let s := if ty ≠ 0 then { s with _status := clearBits s._status STA_NOINIT }
           else { s with _status := STA_NOINIT }
  let (wp, s) := writeProtected W s
  let s := if !wp then { s with _status := s._status ||| STA_PROTECT }
           else { s with _status := clearBits s._status STA_PROTECT }
  let s := activateHighSpeed s
  (s._status, s)

/-- `initialize()`. -/
def initialize_card (W : World) (fuel : Nat) (s : State) : Option (Nat × State) :=
  let s := lock s
  let s := activateLowSpeed s
  let (present, s) := cardPresent W s
  if !present then some (STA_NODISK, unlock s)
  else
    let s := idle_clocks W 10 s
    let (t, s) := TimeoutChecker.new W 1000 s
    match settle W fuel 200 s with
    | none => none
    | some s =>
      match init_probe W fuel t s with
      | none => none
      | some (ty, s) =>
        let (st, s) := init_finish W ty s
        some (st, unlock s)

/-- `status()`. -/
def status (W : World) (s : State) : Nat × State :=
  let (present, s) := cardPresent W s
  if !present then (STA_NODISK, { s with _status := STA_NODISK })
  else
    let (wp, s) := writeProtected W s
    let s := if wp then { s with _status := s._status ||| STA_PROTECT }
             else { s with _status := clearBits s._status STA_PROTECT }
    (s._status, s)

/-! ## `read` and `write` -/

/-- The loop of `read`, `while (count != 0) { ... }`: the buffer and the count
left when it exits. -/
def read_loop (W : World) (fuel : Nat) (sector : Nat) :
    Nat → (Nat → Nat) → Nat → Nat → State → Option (((Nat → Nat) × Nat) × State)
  | 0, _, _, _, _ => none
  | k + 1, buff, count, read, s =>
    if count ≠ 0 then
      match send_cmd W fuel CMD17 sector s with
      | none => none
      | some (r, s) =>
        if r = 0 then
          match rcvr_datablock W fuel 512 s with
          | none => none
          | some ((ok, data), s) =>
            if ok ≠ 0 then
              read_loop W fuel sector k (store buff (512 * read % U32) data) (count - 1)
                ((read + 1) % U32) s
            else read_loop W fuel sector k buff count read s
        else read_loop W fuel sector k buff count read s
    else some ((buff, count), s)

/-- `read(buff, sector, count)`: the result and the buffer afterwards. -/
def read (W : World) (fuel : Nat) (buff : Nat → Nat) (sector count : Nat) (s : State) :
    Option ((Nat × (Nat → Nat)) × State) :=
  let s := lock s
  let (present, s) := cardPresent W s
  if !present ∨ s._status &&& STA_NOINIT ≠ 0 then some ((RES_NOTRDY, buff), unlock s)
  else
    let sector := if s._cardType &&& CT_BLOCK = 0 then sector * 512 % U32 else sector
    match read_loop W fuel sector fuel buff count 0 s with
    | none => none
    | some ((buff, count), s) =>
      let s := deselect W s
      some ((if count ≠ 0 then RES_ERROR else RES_OK, buff), unlock s)

/-- The block loop of `write`:
`do { if (!xmit_datablock(buff, 0xFC)) break; buff += 512; } while (--count);`
for the block at `buff + off`; the count left when it exits. -/
def write_loop (W : World) (fuel : Nat) (buff : Nat → Nat) :
    Nat → Nat → Nat → State → Option (Nat × State)
  | 0, _, _, _ => none
  | k + 1, off, count, s =>
    match xmit_datablock W fuel buff off 0xFC s with
    | none => none
    | some (ok, s) =>
      if ok = 0 then some (count, s)
      else
        let count := (count + U32 - 1) % U32
        if count ≠ 0 then write_loop W fuel buff k (off + 512) count s else some (count, s)

/-- Lines 538 to 555 of `write`: the single-sector or the multiple-sector
transfer; the count left. -/
def write_blocks (W : World) (fuel : Nat) (buff : Nat → Nat) (sector count : Nat)
    (s : State) : Option (Nat × State) :=
  if count = 1 then
    match send_cmd W fuel CMD24 sector s with
    | none => none
    | some (r, s) =>
      if r = 0 then
        match xmit_datablock W fuel buff 0 0xFE s with
        | none => none
        | some (ok, s) => some (if ok ≠ 0 then 0 else count, s)
      else some (count, s)
  else
    let pre : Option State :=
      if s._cardType &&& CT_SDC ≠ 0 then (send_cmd W fuel ACMD23 count s).map Prod.snd
      else some s
    match pre with
    | none => none
    | some s =>
      match send_cmd W fuel CMD25 sector s with
      | none => none
      | some (r, s) =>
        if r = 0 then
          match write_loop W fuel buff fuel 0 count s with
          | none => none
          | some (count, s) =>
            match xmit_datablock W fuel buff 0 0xFD s with
            | none => none
            | some (ok, s) => some (if ok = 0 then 1 else count, s)
        else some (count, s)

/-- `write(buff, sector, count)`. -/
def write (W : World) (fuel : Nat) (buff : Nat → Nat) (sector count : Nat) (s : State) :
    Option (Nat × State) :=
  let s := lock s
  let (present, s) := cardPresent W s
  if !present then some (RES_ERROR, unlock s)
  else
    let (wp, s) := writeProtected W s
    if wp then some (RES_WRPRT, unlock s)
    else if s._status &&& STA_NOINIT ≠ 0 then some (RES_NOTRDY, unlock s)
    else if s._status &&& STA_PROTECT ≠ 0 then some (RES_WRPRT, unlock s)
    else
      let sector := if s._cardType &&& CT_BLOCK = 0 then sector * 512 % U32 else sector
      match write_blocks W fuel buff sector count s with
      | none => none
      | some (count, s) =>
        let s := deselect W s
        some (if count ≠ 0 then RES_ERROR else RES_OK, unlock s)

/-! ## `ioctl` -/

/-- The four bytes of a `DWORD` in memory, least significant first. -/
def dwordBytes (v : Nat) : List Nat :=
  [v % 256, (v >>> 8) % 256, (v >>> 16) % 256, (v >>> 24) % 256]

/-- The sector count computed from a CSD by `case GET_SECTOR_COUNT`.  In the
version 1 layout the shift count `n - 9` is taken as 0 when `n < 9`, where C++
leaves the shift undefined. -/
def csd_sector_count (csd : Nat → Nat) : Nat :=
  if csd 0 >>> 6 = 1 then
    let csize := (csd 9 + (csd 8 <<< 8) + ((csd 7 &&& 63) <<< 16) + 1) % U32
    (csize <<< 10) % U32
  else
    let n := ((csd 5 &&& 15) + ((csd 10 &&& 128) >>> 7) + ((csd 9 &&& 3) <<< 1) + 2) % 256
    let csize := ((csd 8 >>> 6) + (csd 7 <<< 2) + ((csd 6 &&& 3) <<< 10) + 1) % U32
    (csize <<< (n - 9)) % U32

/-- `case GET_SECTOR_COUNT` of `ioctl`. -/
def ioctl_sector_count (W : World) (fuel : Nat) (s : State) :
    Option ((Nat × Option Nat) × State) :=
  match send_cmd W fuel CMD9 0 s with
  | none => none
  | some (r, s) =>
    if r = 0 then
      match rcvr_datablock W fuel 16 s with
      | none => none
      | some ((ok, data), s) =>
        if ok ≠ 0 then some ((RES_OK, some (csd_sector_count (store W.junk 0 data))), s)
        else some ((RES_ERROR, none), s)
    else some ((RES_ERROR, none), s)

/-- `case GET_BLOCK_SIZE` of `ioctl`.  For SD version 1 the shift count
`(csd[13] >> 6) - 1` is taken as 0 when `csd[13] >> 6` is 0, where C++ leaves
the shift undefined. -/
def ioctl_block_size (W : World) (fuel : Nat) (s : State) :
    Option ((Nat × Option Nat) × State) :=
  if s._cardType &&& CT_SD2 ≠ 0 then
    match send_cmd W fuel ACMD13 0 s with
    | none => none
    | some (r, s) =>
      if r = 0 then
        let (_, s) := xmit_spi W 0xFF s
        match rcvr_datablock W fuel 16 s with
        | none => none
        | some ((ok, data), s) =>
          if ok ≠ 0 then
            let s := idle_clocks W (64 - 16) s
            let csd := store W.junk 0 data
            some ((RES_OK, some ((16 <<< (csd 10 >>> 4)) % U32)), s)
          else some ((RES_ERROR, none), s)
      else some ((RES_ERROR, none), s)
  else
    match send_cmd W fuel CMD9 0 s with
    | none => none
    | some (r, s) =>
      if r = 0 then
        match rcvr_datablock W fuel 16 s with
        | none => none
        | some ((ok, data), s) =>
          if ok ≠ 0 then
            let csd := store W.junk 0 data
            let v :=
              if s._cardType &&& CT_SD1 ≠ 0 then
                ((((csd 10 &&& 63) <<< 1) + ((csd 11 &&& 128) >>> 7) + 1)
                  <<< ((csd 13 >>> 6) - 1)) % U32
              else
                ((((csd 10 &&& 124) >>> 2) + 1)
                  * (((csd 11 &&& 3) <<< 3) + ((csd 11 &&& 224) >>> 5) + 1)) % U32
            some ((RES_OK, some v), s)
          else some ((RES_ERROR, none), s)
      else some ((RES_ERROR, none), s)

/-- Lines 623 to 628 of `ioctl`, the erase commands of `case CTRL_ERASE_SECTOR`
for the sector pair `dp`. -/
def ioctl_erase_cmds (W : World) (fuel : Nat) (dp : Nat × Nat) (s : State) :
    Option (Nat × State) :=
  let st := dp.1 % U32
  let ed := dp.2 % U32
  let (st, ed) :=
    if s._cardType &&& CT_BLOCK = 0 then (st * 512 % U32, ed * 512 % U32) else (st, ed)
  match send_cmd W fuel CMD32 st s with
  | none => none
  | some (r, s) =>
    if r ≠ 0 then some (RES_ERROR, s)
    else
      match send_cmd W fuel CMD33 ed s with
      | none => none
      | some (r, s) =>
        if r ≠ 0 then some (RES_ERROR, s)
        else
          match send_cmd W fuel CMD38 0 s with
          | none => none
          | some (r, s) =>
            if r ≠ 0 then some (RES_ERROR, s)
            else
              match wait_ready W fuel 30000 s with
              | none => none
              | some (ok, s) => some (if ok ≠ 0 then RES_OK else RES_ERROR, s)

/-- The body of `ioctl(cmd, buff)`: the result and the `DWORD` stored through
`buff`, if any; `dp` is the sector pair `buff` points to for
CTRL_ERASE_SECTOR, and `self` stands for the recursive call
`ioctl(MMC_GET_CSD, csd)`. -/
def ioctl_with (W : World) (fuel : Nat)
    (self : Nat → Nat × Nat → State → Option ((Nat × Option Nat) × State))
    (cmd : Nat) (dp : Nat × Nat) (s : State) : Option ((Nat × Option Nat) × State) :=
  let s := lock s
  if s._status &&& STA_NOINIT ≠ 0 then some ((RES_NOTRDY, none), unlock s)
  else
    let (present, s) := cardPresent W s
    if !present then some ((RES_NOTRDY, none), unlock s)
    else
      let body : Option ((Nat × Option Nat) × State) :=
        if cmd = CTRL_SYNC then
          (select W fuel s).map (fun r => ((if r.1 ≠ 0 then RES_OK else RES_ERROR, none), r.2))
        else if cmd = GET_SECTOR_COUNT then ioctl_sector_count W fuel s
        else if cmd = GET_BLOCK_SIZE then ioctl_block_size W fuel s
        else if cmd = CTRL_ERASE_SECTOR then
          if s._cardType &&& CT_SDC = 0 then some ((RES_ERROR, none), s)
          else
            match self MMC_GET_CSD dp s with
            | none => none
            | some ((r, out), s) =>
              let csd := match out with
                | none => W.junk
                | some v => store W.junk 0 (dwordBytes v)
              if r ≠ 0 then some ((RES_ERROR, none), s)
              else if csd 0 % 256 >>> 6 = 0 ∧ csd 10 % 256 &&& 0x40 = 0 then
                some ((RES_ERROR, none), s)
              else (ioctl_erase_cmds W fuel dp s).map (fun r => ((r.1, none), r.2))
        else some ((RES_PARERR, none), s)
      match body with
      | none => none
      | some (res, s) => some (res, unlock (deselect W s))

/-- `ioctl(cmd, buff)` with the nesting of the recursive call bounded by
`depth` (`ioctl` below starts it at 1; the nested call is made with
MMC_GET_CSD, which does not recurse). -/
def ioctl_rec (W : World) (fuel : Nat) :
    Nat → Nat → Nat × Nat → State → Option ((Nat × Option Nat) × State)
  | 0 => ioctl_with W fuel (fun _ _ _ => none)
  | d + 1 => ioctl_with W fuel (ioctl_rec W fuel d)

/-- `ioctl(cmd, buff)`. -/
def ioctl (W : World) (fuel : Nat) (cmd : Nat) (dp : Nat × Nat) (s : State) :
    Option ((Nat × Option Nat) × State) :=
  ioctl_rec W fuel 1 cmd dp s

/-! ## Concrete hardware used in the examples -/

/-- A start reading, a duration and a later reading. -/
def clockAt (s now : Nat) : World :=
  { miso := fun _ => 0xFF, millis := fun j => if j = 0 then s else now,
    pin := fun _ _ => 0, junk := fun _ => 0 }

/-- The state `s'` differs from `s` at most in what the bus primitives touch:
the chip-select level, the bus and clock counters and the trace. -/
def busOnly (s s' : State) : Prop :=
  s' = { s with csHigh := s'.csHigh, nbus := s'.nbus, nclk := s'.nclk, trace := s'.trace }

/-- The state `s'` differs from `s` at most in the bus and clock counters and
the trace; the chip-select level is the same. -/
def ioOnly (s s' : State) : Prop :=
  s' = { s with nbus := s'.nbus, nclk := s'.nclk, trace := s'.trace }

/-- An event that carries no command or data byte: an idle byte 0xFF or a
change of the chip-select line. -/
def Ev.isIdle : Ev → Bool
  | Ev.xfer b => b == 0xFF
  | Ev.cs _ => true
  | _ => false

/-- The run of `n` idle bytes. -/
def idles (n : Nat) : List Ev := List.replicate n (Ev.xfer 0xFF)

/-- A card that never answers: every byte shifted in is 0xFF; the clock
advances by 1 ms a reading; every pin reads 0. -/
def idleCard : World :=
  { miso := fun _ => 0xFF, millis := fun j => j, pin := fun _ _ => 0, junk := fun _ => 0 }

/-- The driver after `begin(spi, 5)`. -/
def s0 : State := begin 5 SDSPIDriver

/-- The state a run ended in (the fresh driver when it did not end). -/
def stateAfter {α : Type} (o : Option (α × State)) : State :=
  match o with
  | some (_, s) => s
  | none => SDSPIDriver

/-- A card that shifts in `r` during bus byte number `pos` and 0xFF during
every other byte; the clock advances by 1 ms a reading. -/
def answerOnce (pos r : Nat) : World :=
  { miso := fun i => if i = pos then r else 0xFF, millis := fun j => j,
    pin := fun _ _ => 0, junk := fun _ => 0 }

/-- The state after `k` idle bytes have been polled, each followed by one
reading of the clock. -/
def afterPolls (s : State) (k : Nat) : State :=
  { s with nbus := s.nbus + k, nclk := s.nclk + k, trace := s.trace ++ idles k }

/-- A card that shifts in two idle bytes, then the data token 0xFE, then the
bytes 3, 4, 5, ...; the clock advances by 1 ms a reading. -/
def tokenCard : World :=
  { miso := fun i => if i < 2 then 0xFF else if i = 2 then 0xFE else i,
    millis := fun j => j, pin := fun _ _ => 0, junk := fun _ => 0 }

/-- An initialised driver: `s0` with the status cleared and a block-addressed
SD version 2 card recorded. -/
def ready : State := { s0 with _status := 0, _cardType := CT_SD2 ||| CT_BLOCK }

/-- A card that accepts the first command it is sent and then sends the data
token followed by the bytes of `reg`: bus byte 10 is the R1 response 0, byte
11 the token 0xFE, bytes 12 onwards the register; everything else is idle. -/
def regCard (reg : List Nat) : World :=
  { miso := fun i =>
      if i = 10 then 0 else if i = 11 then 0xFE
      else if 12 ≤ i ∧ i < 12 + reg.length then reg.getD (i - 12) 0xFF else 0xFF,
    millis := fun j => j, pin := fun _ _ => 0, junk := fun _ => 0 }

/-- A version 2 CSD whose device-size field is all ones (0x3FFFFF). -/
def csdMax : List Nat :=
  [0x40, 0x0E, 0x00, 0x32, 0x5B, 0x59, 0x00, 0x3F, 0xFF, 0xFF, 0x7F, 0x80, 0x0A, 0x40, 0x00, 0x01]

/-- A version 2 CSD of a 4 GB card: device-size field 0x001D8A. -/
def csd4G : List Nat :=
  [0x40, 0x0E, 0x00, 0x32, 0x5B, 0x59, 0x00, 0x00, 0x1D, 0x8A, 0x7F, 0x80, 0x0A, 0x40, 0x00, 0x01]

/-- The state in which the settling loop of `initialize` starts, on a driver
in state `s`: locked, low speed, card seen, ten idle bytes sent, the timer
constructed. -/
def initEntry (W : World) (s : State) : State :=
  (TimeoutChecker.new W 1000 (idle_clocks W 10 (cardPresent W (activateLowSpeed (lock s))).2)).2

/-- The 1000 ms timer of `initialize` as `timeout.start()` leaves it when
called in state `s`. -/
def initTimer (W : World) (s : State) : TimeoutChecker :=
  { _start := W.millis s.nclk % U32, _duration := 1000,
    _end := (W.millis s.nclk % U32 + 1000) % U32 }

/-- A card given by a script: the byte shifted in at each listed bus position,
0xFF everywhere else; the clock advances by 1 ms a reading; every pin reads 0. -/
def scripted (script : List (Nat × Nat)) : World :=
  { miso := fun i => (script.lookup i).getD 0xFF, millis := fun j => j,
    pin := fun _ _ => 0, junk := fun _ => 0 }

/-- The state a run without a result value ended in (the fresh driver when it
did not end). -/
def stateOf (o : Option State) : State := o.getD SDSPIDriver

/-- A simulated SD version 2 high-capacity card: idle during the 200 settling
commands, then R1 = 1 to GO_IDLE_STATE, R1 = 1 and the echo 00 00 01 AA to
SEND_IF_COND, R1 = 1 to APP_CMD, R1 = 0 to SEND_OP_COND, R1 = 0 and the OCR
C0 FF 80 00 to READ_OCR. -/
def sdhcCard : World :=
  scripted [(4020, 1), (4031, 1), (4032, 0), (4033, 0), (4034, 1), (4035, 0xAA),
            (4047, 1), (4057, 0), (4068, 0), (4069, 0xC0), (4070, 0xFF), (4071, 0x80),
            (4072, 0)]

/-- The run of `initialize` on `sdhcCard`: after the settling loop. -/
def sdhc1 : State := stateOf (settle sdhcCard 5 200 (initEntry sdhcCard s0))
/-- The run of `initialize` on `sdhcCard`: after the authoritative GO_IDLE_STATE. -/
def sdhc2 : State := stateAfter (send_cmd sdhcCard 5 CMD0 0 sdhc1)
/-- The run of `initialize` on `sdhcCard`: after SEND_IF_COND. -/
def sdhc3 : State := stateAfter (send_cmd sdhcCard 5 CMD8 0x1AA (millis sdhcCard sdhc2).2)
/-- The run of `initialize` on `sdhcCard`: after the wait on SEND_OP_COND. -/
def sdhc4 : State :=
  stateOf (op_cond_wait sdhcCard 5 (initTimer sdhcCard sdhc2) ACMD41 (1 <<< 30) 5
    (recv_ocr sdhcCard sdhc3).2)
/-- The run of `initialize` on `sdhcCard`: after READ_OCR. -/
def sdhc5 : State := stateAfter (send_cmd sdhcCard 5 CMD58 0 (millis sdhcCard sdhc4).2)

/-- A simulated legacy MMC: idle during the 200 settling commands, then
R1 = 1 to GO_IDLE_STATE, R1 = 5 (illegal command) to SEND_IF_COND and to
APP_CMD, R1 = 0 to SEND_OP_COND (CMD1) and to the command after it. -/
def mmcCard : World :=
  scripted [(4020, 1), (4031, 5), (4043, 5), (4054, 0), (4065, 0)]

/-- A simulated SD version 1 card: idle during the 200 settling commands,
then R1 = 1 to GO_IDLE_STATE, R1 = 5 (illegal command) to SEND_IF_COND,
R1 = 1 to APP_CMD and to the first SEND_OP_COND, R1 = 1 to the second
APP_CMD, R1 = 0 to the second SEND_OP_COND and to the command after it. -/
def sdv1Card : World :=
  scripted [(4020, 1), (4031, 5), (4043, 1), (4053, 1), (4065, 1), (4075, 0), (4086, 0)]

/-- The run of `initialize` on `mmcCard`: after the settling loop. -/
def mmc1 : State := stateOf (settle mmcCard 5 200 (initEntry mmcCard s0))
/-- The run of `initialize` on `mmcCard`: after the authoritative GO_IDLE_STATE. -/
def mmc2 : State := stateAfter (send_cmd mmcCard 5 CMD0 0 mmc1)
/-- The run of `initialize` on `mmcCard`: after SEND_IF_COND. -/
def mmc3 : State := stateAfter (send_cmd mmcCard 5 CMD8 0x1AA (millis mmcCard mmc2).2)
/-- The run of `initialize` on `mmcCard`: after the probe with ACMD41(0). -/
def mmc4 : State := stateAfter (send_cmd mmcCard 5 ACMD41 0 mmc3)
/-- The run of `initialize` on `mmcCard`: after the wait on CMD1(0). -/
def mmc5 : State := stateOf (op_cond_wait mmcCard 5 (initTimer mmcCard mmc2) CMD1 0 5 mmc4)

/-- The run of `initialize` on `sdv1Card`: after SEND_IF_COND. -/
def sdv1_3 : State :=
  stateAfter (send_cmd sdv1Card 5 CMD8 0x1AA
    (millis sdv1Card (stateAfter (send_cmd sdv1Card 5 CMD0 0
      (stateOf (settle sdv1Card 5 200 (initEntry sdv1Card s0)))))).2)
/-- The run of `initialize` on `sdv1Card`: after the probe with ACMD41(0). -/
def sdv1_4 : State := stateAfter (send_cmd sdv1Card 5 ACMD41 0 sdv1_3)

/-- A card that never answers, with every pin reading 1. -/
def pinsHigh : World :=
  { miso := fun _ => 0xFF, millis := fun j => j, pin := fun _ _ => 1, junk := fun _ => 0 }

/-- The driver `s0` with write-protect sensing enabled on pin 7, active high. -/
def s0wp : State := enableWriteProtectDetect 7 true s0

/-- What a data block with the given token puts on the bus once the card is
ready: the token, the 512 bytes at `buff + off` in one burst, two dummy CRC
bytes and the byte that clocks in the data response. -/
def blockEvents (buff : Nat → Nat) (off token : Nat) : List Ev :=
  [Ev.xfer token, Ev.burst (bytesAt buff off 512), Ev.xfer 0xFF, Ev.xfer 0xFF, Ev.xfer 0xFF]

/-- The bus position of the data response of a block whose ready-wait started
at bus position `pos` and took `k + 1` polls. -/
def respPos (pos k : Nat) : Nat := pos + (k + 1) + 1 + 512 + 2

/-- The value of `--count` on a `UINT`. -/
def decCount (n : Nat) : Nat := (n + U32 - 1) % U32

/-- Whether a data response byte says "data accepted": low five bits 00101. -/
def accepted (resp : Nat) : Bool := resp &&& 0x1F == 0x05

/-- `BlockRun W buff pos off n run left`: `run` is a sequence of data blocks
with the multi-block token 0xFC, starting at bus position `pos` with the block
at `buff + off` and `n` blocks to go, in which a block that fails is the last
one.  A block fails when the card does not go ready (nothing but idle bytes is
sent for it) or when its data response is not "accepted" (low five bits
00101); `left` is the number of blocks not sent or not accepted, 0 when every
block was accepted. -/
inductive BlockRun (W : World) (buff : Nat → Nat) : Nat → Nat → Nat → List Ev → Nat → Prop
  | notReady (pos off n k : Nat) (tr : List Ev) (htr : tr = idles (k + 1)) :
      BlockRun W buff pos off n tr n
  | rejected (pos off n k : Nat) (tr : List Ev)
      (htr : tr = idles (k + 1) ++ blockEvents buff off 0xFC)
      (h : accepted (W.rx (respPos pos k)) = false) :
      BlockRun W buff pos off n tr n
  | last (pos off n k : Nat) (tr : List Ev)
      (htr : tr = idles (k + 1) ++ blockEvents buff off 0xFC)
      (h : accepted (W.rx (respPos pos k)) = true) (hn : decCount n = 0) :
      BlockRun W buff pos off n tr 0
  | more (pos off n k pos' off' n' : Nat) (tr run : List Ev) (left : Nat)
      (htr : tr = idles (k + 1) ++ blockEvents buff off 0xFC ++ run)
      (h : accepted (W.rx (respPos pos k)) = true)
      (hpos : pos' = respPos pos k + 1) (hoff : off' = off + 512)
      (hn' : n' = decCount n) (hn : n' ≠ 0)
      (rest : BlockRun W buff pos' off' n' run left) :
      BlockRun W buff pos off n tr left

/-- The state in which `write` starts its transfer, on a driver in state `s`:
locked, with both sensors read. -/
def writeEntry (W : World) (s : State) : State :=
  (writeProtected W (cardPresent W (lock s)).2).2

/-- The address argument for `sector` on the card recorded in `s`: the sector
number for a block-addressed card, the byte offset otherwise. -/
def cardAddr (s : State) (sector : Nat) : Nat :=
  if s._cardType &&& CT_BLOCK = 0 then sector * 512 % U32 else sector

/-- A card that accepts a two-sector write on the driver `ready`: R1 = 0 to
APP_CMD, SET_WR_BLK_ERASE_COUNT and WRITE_MULTIPLE_BLOCK, the data response
0xE5 (accepted) to both data blocks, idle otherwise. -/
def twoBlockCard : World :=
  scripted [(11, 0), (21, 0), (32, 0), (549, 0xE5), (1066, 0xE5)]

/-- As `twoBlockCard`, but the card stays busy (shifts in 0) after the second
data response, and the clock advances by 60 ms a reading. -/
def busyAfterBlocks : World :=
  { miso := fun i => if 1067 ≤ i then 0 else twoBlockCard.miso i,
    millis := fun j => 60 * j, pin := fun _ _ => 0, junk := fun _ => 0 }

/-- The write buffer used in the examples: all zero. -/
def zeros : Nat → Nat := fun _ => 0

/-- The run of `write` on `twoBlockCard`: after SET_WR_BLK_ERASE_COUNT. -/
def twoBlockP : State :=
  stateAfter (send_cmd twoBlockCard 5 ACMD23 2 (writeEntry twoBlockCard ready))
/-- The run of `write` on `twoBlockCard`: after WRITE_MULTIPLE_BLOCK. -/
def twoBlockC : State :=
  stateAfter (send_cmd twoBlockCard 5 CMD25 (cardAddr (writeEntry twoBlockCard ready) 0)
    twoBlockP)

/-- The payload the card was sent in a single-block write: the bytes of the
first burst that directly follows the data-start token 0xFE in a trace. -/
def storedBlock : List Ev → Option (List Nat)
  | [] => none
  | Ev.xfer t :: rest =>
    match rest with
    | Ev.burst d :: _ => if t = 0xFE then some d else storedBlock rest
    | _ => storedBlock rest
  | _ :: rest => storedBlock rest

/-- Whether an event is a burst. -/
def Ev.isBurst : Ev → Bool
  | Ev.burst _ => true
  | _ => false

/-- The pattern written in the round-trip example. -/
def pat : Nat → Nat := fun i => (7 * i + 3) % 251

/-- A card that stores and echoes one sector on the driver `ready`: R1 = 0 to
WRITE_BLOCK, data response 0xE5 to the data block, R1 = 0 to
READ_SINGLE_BLOCK, then the token 0xFE and the 512 bytes of `pat`. -/
def echoCard : World :=
  { miso := fun i =>
      if i = 10 then 0 else if i = 527 then 0xE5 else if i = 539 then 0
      else if i = 540 then 0xFE else if 541 ≤ i ∧ i < 1053 then pat (i - 541) else 0xFF,
    millis := fun j => j, pin := fun _ _ => 0, junk := fun _ => 0 }

/-- The round trip on `echoCard`: after WRITE_BLOCK. -/
def rt1 : State :=
  stateAfter (send_cmd echoCard 5 CMD24 (cardAddr ready 7) (writeEntry echoCard ready))
/-- The round trip on `echoCard`: after the data block. -/
def rt2 : State := stateAfter (xmit_datablock echoCard 5 pat 0 0xFE rt1)
/-- The round trip on `echoCard`: after READ_SINGLE_BLOCK. -/
def rt3 : State :=
  stateAfter (send_cmd echoCard 5 CMD17 (cardAddr ready 7)
    (cardPresent echoCard (lock (unlock (deselect echoCard rt2)))).2)
/-- The round trip on `echoCard`: after the data block was received. -/
def rt4 : State := stateAfter (rcvr_datablock echoCard 5 512 rt3)

/-- The 16 bytes of a configuration register read as one 128-bit number, byte
0 first (most significant). -/
def csdValue (csd : List Nat) : Nat :=
  csd.foldl (fun acc b => acc * 256 + b) 0

/-- The bit field `hi .. lo` of a number. -/
def bitField (v hi lo : Nat) : Nat := v / 2 ^ lo % 2 ^ (hi - lo + 1)

/-- A version 1 CSD of a 2 GB card: READ_BL_LEN 10, C_SIZE 3751, C_SIZE_MULT 7. -/
def csd2G : List Nat :=
  [0x00, 0x2E, 0x00, 0x32, 0x5B, 0x5A, 0x83, 0xA9, 0xFF, 0xFF, 0xFF, 0x80, 0x16, 0x80, 0x00, 0x6F]

/-- An initialised driver with a byte-addressed SD version 1 card recorded. -/
def readyV1 : State := { s0 with _status := 0, _cardType := CT_SD1 }

/-- The driver `ready` with card-detect sensing enabled on pin 6, active
high. -/
def readyCd : State := enableCardDetect 6 true ready

/-- The card `regCard csd4G` behind a card-detect sensor that reports no card
at its first reading and a card at every later one. -/
def reinserted : World :=
  { regCard csd4G with pin := fun k _ => if k = 0 then 0 else 1 }

/-- What a public operation that has locked the driver leaves in `s'` when it
was entered in `s`: the busy flag clear, the latch set, and the chip-select
line high, or as it was at entry when the operation returned at a gate. -/
def leftIdle (s s' : State) : Prop :=
  s'._busy = false ∧ s'._busy_check = true ∧ (s'.csHigh = true ∨ s'.csHigh = s.csHigh)

/-- A call of one of the public operations, with its arguments. -/
inductive Call where
  | init
  | status
  | read (buff : Nat → Nat) (sector count : Nat)
  | write (buff : Nat → Nat) (sector count : Nat)
  | ioctl (cmd : Nat) (dp : Nat × Nat)

/-- The state a call leaves, when it returns. -/
def call (W : World) (fuel : Nat) : Call → State → Option State
  | Call.init, s => (initialize_card W fuel s).map Prod.snd
  | Call.status, s => some (status W s).2
  | Call.read buff sector count, s => (read W fuel buff sector count s).map Prod.snd
  | Call.write buff sector count, s => (write W fuel buff sector count s).map Prod.snd
  | Call.ioctl cmd dp, s => (ioctl W fuel cmd dp s).map Prod.snd

/-- The state a sequence of calls leaves, when all of them return. -/
def calls (W : World) (fuel : Nat) : List Call → State → Option State
  | [], s => some s
  | c :: cs, s =>
    match call W fuel c s with
    | none => none
    | some s => calls W fuel cs s

/-- A card that holds the data line low (shifts in 0) for ever; the clock
advances by 60 ms a reading. -/
def stuckCard : World :=
  { miso := fun _ => 0, millis := fun j => 60 * j, pin := fun _ _ => 0, junk := fun _ => 0 }

/-- What one round of the sector loop of `read` puts on the bus for the address
`addr`: idle events alone (the reselect failed), or idle events, the
READ_SINGLE_BLOCK packet for `addr` and idle polls, followed, when the data
token came, by the burst that clocks in the 512 bytes and the CRC byte. -/
def ReadAttempt (addr : Nat) (seg : List Ev) : Prop :=
  ∃ pre, pre.all Ev.isIdle = true ∧
    (seg = pre ∨
     ∃ n, seg = pre ++ (cmd_packet CMD17 addr).map Ev.xfer ++ idles (n + 1) ∨
       seg = pre ++ (cmd_packet CMD17 addr).map Ev.xfer ++ idles (n + 1)
         ++ [Ev.burst (List.replicate 512 0xFF), Ev.xfer 0xFF])

/-- The memory `buff` after the blocks of a list have been stored one after
the other, block number `k`, `k + 1`, ... at offset `512 * k` taken as a
32-bit number. -/
def storeBlocks (buff : Nat → Nat) (k : Nat) : List (List Nat) → Nat → Nat
  | [] => buff
  | d :: ds => storeBlocks (store buff (512 * k % U32) d) (k + 1) ds

/-- A card that accepts two READ_SINGLE_BLOCK commands sent from bus byte 0
and delivers the data token after each: R1 = 0 at bytes 10 and 536, the token
0xFE at bytes 11 and 537, the first data byte 0x5A of the first block at byte
12 and the first data byte 0xA5 of the second at byte 538; everything else is
0xFF. -/
def twoReadCard : World :=
  scripted [(10, 0), (11, 0xFE), (12, 0x5A), (536, 0), (537, 0xFE), (538, 0xA5)]

/-- The state `s` with another stored status and card type. -/
def setDrv (x y : Nat) (s : State) : State := { s with _status := x, _cardType := y }

/-- A result whose state has been given another stored status and card type. -/
def liftDrv {α : Type} (x y : Nat) (p : α × State) : α × State := (p.1, setDrv x y p.2)

/-- The number of bus bytes a list of events stands for: one for a single
transfer, the length of the burst for a burst, none for a chip-select change
or a delay. -/
def busLen : List Ev → Nat
  | [] => 0
  | Ev.xfer _ :: es => 1 + busLen es
  | Ev.burst l :: es => l.length + busLen es
  | Ev.cs _ :: es => busLen es
  | Ev.delay _ :: es => busLen es

/-- The blocks clocked in during the bursts of a list of events whose first
byte has bus byte number `pos`: for each burst, in order, the bytes the card
shifted in during it. -/
def blocksOf (W : World) : Nat → List Ev → List (List Nat)
  | _, [] => []
  | pos, Ev.xfer _ :: es => blocksOf W (pos + 1) es
  | pos, Ev.burst l :: es =>
    (List.range l.length).map (fun i => W.rx (pos + i)) :: blocksOf W (pos + l.length) es
  | pos, Ev.cs _ :: es => blocksOf W pos es
  | pos, Ev.delay _ :: es => blocksOf W pos es

/-- The state `s'` is `s` after more bus traffic: its trace extends the trace
of `s`, and its byte count has grown by the bytes of the extension. -/
def Adv (s s' : State) : Prop :=
  ∃ ext, s'.trace = s.trace ++ ext ∧ s'.nbus = s.nbus + busLen ext

/-- The timer `TimeoutChecker(wt)` as its constructor leaves it when the clock
has been read `clk` times before. -/
def timerAt (W : World) (wt clk : Nat) : TimeoutChecker :=
  { _start := W.millis clk % U32, _duration := wt % U32,
    _end := (W.millis clk % U32 + wt % U32) % U32 }

/-- `ReadyWait W wt pos clk k ready`: the ready-wait of `wt` ms that starts at
bus byte `pos`, with the clock read `clk` times before, takes `k + 1` polls.
Each of the first `k` bytes polled is not 0xFF and the deadline has not passed
at the check that follows it.  The wait ends ready when byte `pos + k` is
0xFF (the card reports ready); it ends not ready when that byte is not 0xFF
and the deadline has passed at the check that follows it. -/
def ReadyWait (W : World) (wt pos clk k : Nat) (ready : Bool) : Prop :=
  (∀ j, j < k → W.rx (pos + j) ≠ 0xFF ∧
    (timerAt W wt clk).expiredAt (W.millis (clk + 1 + j) % U32) = false) ∧
  (if ready then W.rx (pos + k) = 0xFF
   else W.rx (pos + k) ≠ 0xFF ∧
    (timerAt W wt clk).expiredAt (W.millis (clk + 1 + k) % U32) = true)

/-- `BlockSeq W buff pos clk off n run left pos' clk'`: `run` is what the
block loop of a multiple-sector `write` puts on the bus when it starts at bus
byte `pos`, with the clock read `clk` times before, with the block at
`buff + off` and `n` blocks to go; it ends at bus byte `pos'` with the clock
read `clk'` times and `left` blocks not sent or not accepted.  Each block
starts with a 100 ms `ReadyWait`.  If that wait ends not ready, nothing but
its idle polls is sent and the run ends.  If it ends ready, the token 0xFC,
the 512 bytes, two CRC bytes and the poll of the data response follow; when
the response is not "accepted" the run ends, when it is the run goes on with
the next block as long as one is left. -/
inductive BlockSeq (W : World) (buff : Nat → Nat) :
    Nat → Nat → Nat → Nat → List Ev → Nat → Nat → Nat → Prop
  | notReady (pos clk off n k : Nat) (tr : List Ev) (pos' clk' : Nat)
      (hw : ReadyWait W 100 pos clk k false)
      (htr : tr = idles (k + 1))
      (hpos : pos' = pos + (k + 1)) (hclk : clk' = clk + 1 + k + 1) :
      BlockSeq W buff pos clk off n tr n pos' clk'
  | rejected (pos clk off n k : Nat) (tr : List Ev) (pos' clk' : Nat)
      (hw : ReadyWait W 100 pos clk k true)
      (htr : tr = idles (k + 1) ++ blockEvents buff off 0xFC)
      (h : accepted (W.rx (respPos pos k)) = false)
      (hpos : pos' = respPos pos k + 1) (hclk : clk' = clk + 1 + k) :
      BlockSeq W buff pos clk off n tr n pos' clk'
  | last (pos clk off n k : Nat) (tr : List Ev) (pos' clk' : Nat)
      (hw : ReadyWait W 100 pos clk k true)
      (htr : tr = idles (k + 1) ++ blockEvents buff off 0xFC)
      (h : accepted (W.rx (respPos pos k)) = true) (hn : decCount n = 0)
      (hpos : pos' = respPos pos k + 1) (hclk : clk' = clk + 1 + k) :
      BlockSeq W buff pos clk off n tr 0 pos' clk'
  | more (pos clk off n k pos1 clk1 off1 n1 : Nat) (tr run : List Ev) (left pos' clk' : Nat)
      (hw : ReadyWait W 100 pos clk k true)
      (htr : tr = idles (k + 1) ++ blockEvents buff off 0xFC ++ run)
      (h : accepted (W.rx (respPos pos k)) = true)
      (hpos : pos1 = respPos pos k + 1) (hclk : clk1 = clk + 1 + k)
      (hoff : off1 = off + 512) (hn1 : n1 = decCount n) (hn : n1 ≠ 0)
      (rest : BlockSeq W buff pos1 clk1 off1 n1 run left pos' clk') :
      BlockSeq W buff pos clk off n tr left pos' clk'

/-! # Properties -/

/-! ## Deadline timer -/

theorem TimeoutChecker.new_fst (W : World) (d : Nat) (s : State) :
    (TimeoutChecker.new W d s).1 =
      { _start := W.millis s.nclk % U32, _duration := d % U32,
        _end := (W.millis s.nclk % U32 + d % U32) % U32 } := by
  simp [TimeoutChecker.new, TimeoutChecker.start, TimeoutChecker.startAt, millis]

theorem TimeoutChecker.expired_fst (W : World) (t : TimeoutChecker) (s : State) :
    (t.expired W s).1 = t.expiredAt (W.millis s.nclk % U32) := by
  simp [TimeoutChecker.expired, millis]

/-- C6, as the code has it.  For a timer started with duration `d` when the
clock read `s`: the expired check is false while the clock still reads `s`;
and for `d > 0` it is true exactly when the elapsed time `(now - s) mod 2^32`
is strictly greater than `d`, for every reading `now` when `s + d` wraps past
`2^32`, and for every reading `now ≥ s` when it does not. -/
theorem expired_iff_elapsed (W : World) (d : Nat) (st st' : State) (hd : d < U32) :
    (W.millis st'.nclk % U32 = W.millis st.nclk % U32 →
      ((TimeoutChecker.new W d st).1.expired W st').1 = false) ∧
    (0 < d →
      (U32 ≤ W.millis st.nclk % U32 + d ∨ W.millis st.nclk % U32 ≤ W.millis st'.nclk % U32) →
      (((TimeoutChecker.new W d st).1.expired W st').1 = true ↔
        d < (W.millis st'.nclk % U32 + U32 - W.millis st.nclk % U32) % U32)) := by
  rw [TimeoutChecker.expired_fst, TimeoutChecker.new_fst]
  have h1 : W.millis st.nclk % U32 < U32 := Nat.mod_lt _ (by decide)
  have h2 : W.millis st'.nclk % U32 < U32 := Nat.mod_lt _ (by decide)
  generalize W.millis st.nclk % U32 = a at *
  generalize W.millis st'.nclk % U32 = b at *
  rw [Nat.mod_eq_of_lt hd]
  simp only [TimeoutChecker.expiredAt, U32] at *
  constructor
  · intro h; subst h
    split <;> simp
    omega
  · intro hpos hc
    split <;> simp <;> omega

theorem expired_iff_elapsed_witness :
    ((TimeoutChecker.new (clockAt 4294967290 7) 10 SDSPIDriver).1.expired
        (clockAt 4294967290 7) (millis (clockAt 4294967290 7) SDSPIDriver).2).1 = true ↔
      10 < (7 + U32 - 4294967290) % U32 :=
  (expired_iff_elapsed (clockAt 4294967290 7) 10 SDSPIDriver
    (millis (clockAt 4294967290 7) SDSPIDriver).2 (by decide)).2 (by decide)
    (Or.inl (by decide))

/-- C6 as stated fails: (1) 5 ms after a start at 0 with duration 5 the timer
is not expired; (2) a timer of duration 0 is not expired 1 ms after its start;
(3) a timer started at `2^32 - 10` with duration 5 is not expired when the
clock has wrapped to 3, 13 ms after the start. -/
theorem expired_false_after_duration :
    (((TimeoutChecker.new (clockAt 0 5) 5 SDSPIDriver).1.expired (clockAt 0 5)
        (millis (clockAt 0 5) SDSPIDriver).2).1 = false ∧ 5 ≤ (5 + U32 - 0) % U32) ∧
    (((TimeoutChecker.new (clockAt 0 1) 0 SDSPIDriver).1.expired (clockAt 0 1)
        (millis (clockAt 0 1) SDSPIDriver).2).1 = false ∧ 0 ≤ (1 + U32 - 0) % U32) ∧
    (((TimeoutChecker.new (clockAt 4294967286 3) 5 SDSPIDriver).1.expired
        (clockAt 4294967286 3) (millis (clockAt 4294967286 3) SDSPIDriver).2).1 = false ∧
      5 ≤ (3 + U32 - 4294967286) % U32) := by
  decide

/-! ## Bus primitives: what they change -/

theorem busOnly.brefl (s : State) : busOnly s s := by
  cases s; rfl

theorem busOnly.btrans {a b c : State} (h1 : busOnly a b) (h2 : busOnly b c) : busOnly a c := by
  cases a; cases b; cases c
  simp only [busOnly, State.mk.injEq] at *
  obtain ⟨h1, h2, h3, h4, h5, h6, h7, h8, h9, h10, h11, h12, h13, h14, -, h16, -, -, h19, -⟩ := h1
  subst_vars
  simpa using h2

theorem ioOnly.irefl (s : State) : ioOnly s s := by
  cases s; rfl

theorem ioOnly.itrans {a b c : State} (h1 : ioOnly a b) (h2 : ioOnly b c) : ioOnly a c := by
  cases a; cases b; cases c
  simp only [ioOnly, State.mk.injEq] at *
  obtain ⟨h1, h2, h3, h4, h5, h6, h7, h8, h9, h10, h11, h12, h13, h14, h15, h16, -, -, h19, -⟩ := h1
  subst_vars
  simpa using h2

theorem ioOnly.busOnly {a b : State} (h : ioOnly a b) : busOnly a b := by
  cases a; cases b
  simp only [ioOnly, FatFsSD.busOnly, State.mk.injEq] at *
  simp [h]

theorem ioOnly_xmit_spi (W : World) (b : Nat) (s : State) : ioOnly s (xmit_spi W b s).2 := by
  cases s; rfl

theorem ioOnly_millis (W : World) (s : State) : ioOnly s (millis W s).2 := by
  cases s; rfl

theorem ioOnly_expired (W : World) (t : TimeoutChecker) (s : State) :
    ioOnly s (t.expired W s).2 := by
  cases s; rfl

theorem ioOnly_new (W : World) (d : Nat) (s : State) :
    ioOnly s (TimeoutChecker.new W d s).2 := by
  cases s; rfl

theorem busOnly_assertCS (s : State) : busOnly s (assertCS s) := by
  cases s; rfl

theorem busOnly_deassertCS (s : State) : busOnly s (deassertCS s) := by
  cases s; rfl

theorem idles_succ (n : Nat) : idles (n + 1) = Ev.xfer 0xFF :: idles n := rfl

theorem idles_add (m n : Nat) : idles m ++ idles n = idles (m + n) := by
  simp only [idles, List.replicate_add]

/-- The loop of `wait_ready` shifts out idle bytes only, at least one. -/
theorem wait_ready_loop_spec (W : World) (t : TimeoutChecker) (fuel : Nat) (s : State)
    (d : Nat) (s' : State) (h : wait_ready_loop W t fuel s = some (d, s')) :
    ioOnly s s' ∧ ∃ n, s'.trace = s.trace ++ idles (n + 1) ∧ s'.nbus = s.nbus + (n + 1) := by
  induction fuel generalizing s with
  | zero => simp [wait_ready_loop] at h
  | succ k ih =>
    simp only [wait_ready_loop] at h
    split at h
    · split at h
      · obtain ⟨h1, n, h2, h3⟩ := ih _ h
        refine ⟨((ioOnly_xmit_spi W 0xFF s).itrans (ioOnly_expired W t _)).itrans h1, n + 1, ?_, ?_⟩
        · rw [h2]; simp [TimeoutChecker.expired, millis, xmit_spi, idles_succ]
        · rw [h3]; simp [TimeoutChecker.expired, millis, xmit_spi]; omega
      · simp only [Option.some.injEq, Prod.mk.injEq] at h
        obtain ⟨-, rfl⟩ := h
        exact ⟨(ioOnly_xmit_spi W 0xFF s).itrans (ioOnly_expired W t _), 0, by
          simp [TimeoutChecker.expired, millis, xmit_spi, idles], by
          simp [TimeoutChecker.expired, millis, xmit_spi]⟩
    · simp only [Option.some.injEq, Prod.mk.injEq] at h
      obtain ⟨-, rfl⟩ := h
      exact ⟨ioOnly_xmit_spi W 0xFF s, 0, by simp [xmit_spi, idles], by simp [xmit_spi]⟩

/-- `wait_ready` shifts out idle bytes only, at least one, and answers 0 or 1. -/
theorem wait_ready_spec (W : World) (fuel wt : Nat) (s : State) (r : Nat) (s' : State)
    (h : wait_ready W fuel wt s = some (r, s')) :
    ioOnly s s' ∧ (r = 0 ∨ r = 1) ∧
      ∃ n, s'.trace = s.trace ++ idles (n + 1) ∧ s'.nbus = s.nbus + (n + 1) := by
  unfold wait_ready at h
  dsimp only at h
  split at h
  · simp at h
  · rename_i d s1 hl
    simp only [Option.some.injEq, Prod.mk.injEq] at h
    obtain ⟨hr, rfl⟩ := h
    obtain ⟨h1, n, h2, h3⟩ := wait_ready_loop_spec W _ fuel _ d s1 hl
    refine ⟨(ioOnly_new W wt s).itrans h1, ?_, n, ?_, ?_⟩
    · rw [← hr]; split <;> simp
    · rw [h2]; simp [TimeoutChecker.new, TimeoutChecker.start, millis]
    · rw [h3]; simp [TimeoutChecker.new, TimeoutChecker.start, millis]

theorem busOnly_deselect (W : World) (s : State) : busOnly s (deselect W s) := by
  cases s; rfl

theorem deselect_trace (W : World) (s : State) :
    (deselect W s).trace = s.trace ++ [Ev.cs true, Ev.xfer 0xFF] := by
  simp [deselect, xmit_spi, deassertCS]

theorem deselect_csHigh (W : World) (s : State) : (deselect W s).csHigh = true := rfl

theorem deselect_nbus (W : World) (s : State) : (deselect W s).nbus = s.nbus + 1 := rfl

/-- `select` asserts the line, shifts out idle bytes and, on timeout, releases
the line again. -/
theorem select_spec (W : World) (fuel : Nat) (s : State) (r : Nat) (s' : State)
    (h : select W fuel s = some (r, s')) :
    busOnly s s' ∧ (r = 0 ∨ r = 1) ∧ s'.csHigh = decide (r = 0) ∧
      ∃ n, s'.trace = s.trace ++ Ev.cs false :: idles (n + 2)
              ++ (if r = 0 then [Ev.cs true, Ev.xfer 0xFF] else []) := by
  unfold select at h
  dsimp only at h
  split at h
  · simp at h
  · rename_i r1 s1 hw
    obtain ⟨h1, -, n, h2, -⟩ := wait_ready_spec W fuel 100 _ r1 s1 hw
    have hb : busOnly s s1 :=
      ((busOnly_assertCS s).btrans (ioOnly_xmit_spi W 0xFF _).busOnly).btrans h1.busOnly
    have hcs : s1.csHigh = false := by
      rw [h1]; rfl
    split at h
    · simp only [Option.some.injEq, Prod.mk.injEq] at h
      obtain ⟨rfl, rfl⟩ := h
      refine ⟨hb, Or.inr rfl, by simpa using hcs, n, ?_⟩
      rw [h2]; simp [xmit_spi, assertCS, idles_succ]
    · simp only [Option.some.injEq, Prod.mk.injEq] at h
      obtain ⟨rfl, rfl⟩ := h
      refine ⟨hb.btrans (busOnly_deselect W s1), Or.inl rfl, by simp [deselect_csHigh], n, ?_⟩
      rw [deselect_trace, h2]; simp [xmit_spi, assertCS, idles_succ]

theorem xmit_list_spec (W : World) (bs : List Nat) (s : State) :
    ioOnly s (xmit_list W bs s) ∧ (xmit_list W bs s).trace = s.trace ++ bs.map Ev.xfer ∧
      (xmit_list W bs s).nbus = s.nbus + bs.length := by
  induction bs generalizing s with
  | nil => exact ⟨ioOnly.irefl s, by simp [xmit_list], by simp [xmit_list]⟩
  | cons b bs ih =>
    obtain ⟨h1, h2, h3⟩ := ih (xmit_spi W b s).2
    refine ⟨(ioOnly_xmit_spi W b s).itrans h1, ?_, ?_⟩
    · simp only [xmit_list]; rw [h2]; simp [xmit_spi]
    · simp only [xmit_list]; rw [h3]; simp [xmit_spi]; omega

/-- The response loop polls between 1 and `n` bytes; every byte before the one
returned has its high bit set; the loop stops at the first byte whose high bit
is clear or at the `n`-th byte. -/
theorem recv_resp_spec (n : Nat) (W : World) (s : State) (hn : 0 < n) :
    ioOnly s (recv_resp n W s).2 ∧
    ∃ k, k < n ∧ (recv_resp n W s).2.trace = s.trace ++ idles (k + 1) ∧
      (recv_resp n W s).2.nbus = s.nbus + (k + 1) ∧
      (recv_resp n W s).1 = W.rx (s.nbus + k) ∧
      (∀ j, j < k → W.rx (s.nbus + j) &&& 0x80 ≠ 0) ∧
      (W.rx (s.nbus + k) &&& 0x80 = 0 ∨ k + 1 = n) := by
  induction n generalizing s with
  | zero => omega
  | succ m ih =>
    simp only [recv_resp]
    split
    · rename_i hc
      obtain ⟨hhi, hm⟩ := hc
      obtain ⟨h1, k, hk, h2, h3, h4, h5, h6⟩ := ih (xmit_spi W 0xFF s).2 (Nat.pos_of_ne_zero hm)
      refine ⟨(ioOnly_xmit_spi W 0xFF s).itrans h1, k + 1, by omega, ?_, ?_, ?_, ?_, ?_⟩
      · rw [h2]; simp [xmit_spi, idles_succ]
      · rw [h3]; simp [xmit_spi]; omega
      · rw [h4]; simp [xmit_spi]; congr 1; omega
      · intro j hj
        cases j with
        | zero => simpa [xmit_spi] using hhi
        | succ j =>
          have := h5 j (by omega)
          simpa [xmit_spi, Nat.add_assoc, Nat.add_comm 1 j] using this
      · rcases h6 with h6 | h6
        · left; simpa [xmit_spi, Nat.add_assoc, Nat.add_comm 1 k] using h6
        · right; omega
    · rename_i hc
      refine ⟨ioOnly_xmit_spi W 0xFF s, 0, by omega, by simp [xmit_spi, idles],
        by simp [xmit_spi], by simp [xmit_spi], by simp, ?_⟩
      simp only [not_and_or, not_not] at hc
      rcases hc with hc | hc
      · left; simpa [xmit_spi] using hc
      · right; omega

/-! ## `send_cmd` -/

theorem and_128_of_lt : ∀ c : Nat, c < 128 → c &&& 128 = 0 := by
  decide

theorem send_cmd_rec_untagged (W : World) (fuel d cmd arg : Nat) (s : State)
    (hc : cmd &&& 0x80 = 0) :
    send_cmd_rec W fuel d cmd arg s =
      match wait_ready W fuel 10 s with
      | none => none
      | some (_, s1) => send_cmd_tail W fuel cmd arg s1 := by
  unfold send_cmd_rec
  split
  · rfl
  · simp [hc]

theorem send_cmd_untagged (W : World) (fuel cmd arg : Nat) (s : State)
    (hc : cmd &&& 0x80 = 0) :
    send_cmd W fuel cmd arg s =
      match wait_ready W fuel 10 s with
      | none => none
      | some (_, s1) => send_cmd_tail W fuel cmd arg s1 :=
  send_cmd_rec_untagged W fuel 1 cmd arg s hc

theorem send_cmd_tagged (W : World) (fuel cmd arg : Nat) (s : State)
    (hc : cmd &&& 0x80 ≠ 0) :
    send_cmd W fuel cmd arg s =
      match wait_ready W fuel 10 s with
      | none => none
      | some (_, s1) =>
        match send_cmd W fuel CMD55 0 s1 with
        | none => none
        | some (res, s2) =>
          if res > 1 then some (res, s2) else send_cmd_tail W fuel (cmd &&& 0x7F) arg s2 := by
  unfold send_cmd
  rw [send_cmd_rec]
  split
  · rfl
  · simp only [hc, ne_eq, not_false_eq_true, ↓reduceIte]
    rw [send_cmd_rec_untagged W fuel 0 CMD55 0 _ (by decide),
      send_cmd_rec_untagged W fuel 1 CMD55 0 _ (by decide)]

/-- Past the reselect step, `send_cmd_tail` shifts out the command packet and
then polls for the response. -/
theorem send_cmd_tail_past (W : World) (fuel cmd arg : Nat) (s s2 : State)
    (hsel : (cmd = CMD12 ∧ s2 = s) ∨
      (cmd ≠ CMD12 ∧ select W fuel (deselect W s) = some (1, s2))) :
    ∃ res s' n, send_cmd_tail W fuel cmd arg s = some (res, s') ∧ ioOnly s2 s' ∧
      s'.trace = s2.trace ++ (cmd_packet cmd arg).map Ev.xfer ++ idles (n + 1) := by
  unfold send_cmd_tail
  rcases hsel with ⟨h12, rfl⟩ | ⟨h12, hs⟩
  · simp only [h12, ne_eq, not_true_eq_false, ↓reduceIte, one_ne_zero]
    obtain ⟨h1, h2, -⟩ := xmit_list_spec W (cmd_packet CMD12 arg) s2
    obtain ⟨h3, k, -, h4, -⟩ :=
      recv_resp_spec 10 W (xmit_spi W 0xFF (xmit_list W (cmd_packet CMD12 arg) s2)).2 (by decide)
    refine ⟨(recv_resp 10 W (xmit_spi W 0xFF (xmit_list W (cmd_packet CMD12 arg) s2)).2).1,
      (recv_resp 10 W (xmit_spi W 0xFF (xmit_list W (cmd_packet CMD12 arg) s2)).2).2,
      k + 1, rfl, (h1.itrans (ioOnly_xmit_spi W 0xFF _)).itrans h3, ?_⟩
    rw [h4]; simp [xmit_spi, h2, idles_succ]
  · simp only [h12, ne_eq, not_false_eq_true, ↓reduceIte, hs, one_ne_zero]
    obtain ⟨h1, h2, -⟩ := xmit_list_spec W (cmd_packet cmd arg) s2
    obtain ⟨h3, k, -, h4, -⟩ := recv_resp_spec 10 W (xmit_list W (cmd_packet cmd arg) s2) (by decide)
    refine ⟨(recv_resp 10 W (xmit_list W (cmd_packet cmd arg) s2)).1,
      (recv_resp 10 W (xmit_list W (cmd_packet cmd arg) s2)).2, k, rfl, h1.itrans h3, ?_⟩
    rw [h4, h2]

/-- The bytes of the command packet, written with division. -/
theorem cmd_packet_bytes (cmd arg : Nat) (ha : arg < U32) :
    cmd_packet cmd arg =
      [0x40 ||| cmd, arg / 2 ^ 24, arg / 2 ^ 16 % 256, arg / 2 ^ 8 % 256, arg % 256,
       if cmd = CMD0 then 0x95 else if cmd = CMD8 then 0x87 else 0x01] := by
  have h24 : arg / 2 ^ 24 % 256 = arg / 2 ^ 24 := by
    apply Nat.mod_eq_of_lt
    simp only [U32] at ha
    omega
  simp only [cmd_packet, Nat.shiftRight_eq_div_pow, h24]
  by_cases h0 : cmd = CMD0
  · subst h0; simp
  · by_cases h8 : cmd = CMD8
    · subst h8; simp
    · simp [h0, h8]

/-- C4.  For a command index `c` without the application-command tag and a
32-bit argument `a`: once `send_cmd` is past the reselect step (for
STOP_TRANSMISSION there is none; otherwise `select` answered 1, leaving state
`s2`), it returns, and what it has shifted out since is exactly the six bytes
`0x40 | c`, the four bytes of `a` most significant first and the trailer
(0x95 for CMD0, 0x87 for CMD8, 0x01 otherwise), followed only by idle bytes
polling for the response.  For CMD0 with argument 0 the six bytes are
0x40, 0, 0, 0, 0, 0x95. -/
theorem send_cmd_frame (W : World) (fuel c a : Nat) (s s1 s2 : State) (r0 : Nat)
    (hc : c < 0x80) (ha : a < U32)
    (hw : wait_ready W fuel 10 s = some (r0, s1))
    (hsel : (c = CMD12 ∧ s2 = s1) ∨
      (c ≠ CMD12 ∧ select W fuel (deselect W s1) = some (1, s2))) :
    ∃ res s' n, send_cmd W fuel c a s = some (res, s') ∧
      s'.trace = s2.trace ++
        [Ev.xfer (0x40 ||| c), Ev.xfer (a / 2 ^ 24), Ev.xfer (a / 2 ^ 16 % 256),
         Ev.xfer (a / 2 ^ 8 % 256), Ev.xfer (a % 256),
         Ev.xfer (if c = CMD0 then 0x95 else if c = CMD8 then 0x87 else 0x01)]
        ++ idles (n + 1) ∧
      (c = CMD0 → a = 0 → s'.trace = s2.trace ++
        [Ev.xfer 0x40, Ev.xfer 0, Ev.xfer 0, Ev.xfer 0, Ev.xfer 0, Ev.xfer 0x95]
        ++ idles (n + 1)) := by
  have htag : c &&& 0x80 = 0 := and_128_of_lt c hc
  obtain ⟨res, s', n, h1, -, h2⟩ := send_cmd_tail_past W fuel c a s1 s2 hsel
  refine ⟨res, s', n, ?_, ?_, ?_⟩
  · rw [send_cmd_untagged W fuel c a s htag, hw]; exact h1
  · rw [h2, cmd_packet_bytes c a ha]; simp
  · rintro rfl rfl
    rw [h2]; simp [cmd_packet]

theorem send_cmd_frame_witness :
    ∃ res s' n, send_cmd idleCard 5 CMD0 0 s0 = some (res, s') ∧
      s'.trace = (stateAfter (select idleCard 5
          (deselect idleCard (stateAfter (wait_ready idleCard 5 10 s0))))).trace ++
        [Ev.xfer (0x40 ||| CMD0), Ev.xfer (0 / 2 ^ 24), Ev.xfer (0 / 2 ^ 16 % 256),
         Ev.xfer (0 / 2 ^ 8 % 256), Ev.xfer (0 % 256),
         Ev.xfer (if CMD0 = CMD0 then 0x95 else if CMD0 = CMD8 then 0x87 else 0x01)]
        ++ idles (n + 1) ∧
      (CMD0 = CMD0 → 0 = 0 → s'.trace = (stateAfter (select idleCard 5
          (deselect idleCard (stateAfter (wait_ready idleCard 5 10 s0))))).trace ++
        [Ev.xfer 0x40, Ev.xfer 0, Ev.xfer 0, Ev.xfer 0, Ev.xfer 0, Ev.xfer 0x95]
        ++ idles (n + 1)) :=
  send_cmd_frame idleCard 5 CMD0 0 s0 (stateAfter (wait_ready idleCard 5 10 s0))
    (stateAfter (select idleCard 5 (deselect idleCard (stateAfter (wait_ready idleCard 5 10 s0)))))
    1 (by decide) (by decide) (by decide!) (Or.inr ⟨by decide, by decide!⟩)

theorem all_idle_idles (n : Nat) : (idles n).all Ev.isIdle = true := by
  simp [idles, Ev.isIdle]

/-- What `send_cmd_tail` does to the bus: a run of idle events for the
reselect, after which either the reselect has failed (response 0xFF, line
released) or the command packet and the response polls follow. -/
theorem send_cmd_tail_spec (W : World) (fuel cmd arg : Nat) (s : State) (r : Nat) (s' : State)
    (h : send_cmd_tail W fuel cmd arg s = some (r, s')) :
    busOnly s s' ∧ ∃ pre, pre.all Ev.isIdle = true ∧
      ((cmd ≠ CMD12 ∧ r = 0xFF ∧ s'.csHigh = true ∧ s'.trace = s.trace ++ pre) ∨
       (∃ n, s'.trace = s.trace ++ pre ++ (cmd_packet cmd arg).map Ev.xfer ++ idles (n + 1) ∧
          s'.csHigh = if cmd = CMD12 then s.csHigh else false)) := by
  by_cases h12 : cmd = CMD12
  · obtain ⟨res, s1, n, h1, h2, h3⟩ := send_cmd_tail_past W fuel cmd arg s s (Or.inl ⟨h12, rfl⟩)
    rw [h1] at h
    simp only [Option.some.injEq, Prod.mk.injEq] at h
    obtain ⟨rfl, rfl⟩ := h
    refine ⟨h2.busOnly, [], rfl, Or.inr ⟨n, by simpa using h3, ?_⟩⟩
    rw [if_pos h12, h2]
  · cases hs : select W fuel (deselect W s) with
    | none => simp [send_cmd_tail, h12, hs] at h
    | some p =>
      obtain ⟨ok, s2⟩ := p
      obtain ⟨hb, hok, hcs, n, htr⟩ := select_spec W fuel _ ok s2 hs
      rw [deselect_trace] at htr
      rcases hok with rfl | rfl
      · simp only [send_cmd_tail, h12, ne_eq, not_false_eq_true, ↓reduceIte, hs,
          Option.some.injEq, Prod.mk.injEq] at h
        obtain ⟨rfl, rfl⟩ := h
        refine ⟨(busOnly_deselect W s).btrans hb,
          [Ev.cs true, Ev.xfer 0xFF] ++ Ev.cs false :: idles (n + 2) ++ [Ev.cs true, Ev.xfer 0xFF],
          ?_, Or.inl ⟨h12, rfl, by simpa using hcs, ?_⟩⟩
        · simp [Ev.isIdle, idles]
        · rw [htr]; simp
      · obtain ⟨res, s1, m, h1, h2, h3⟩ :=
          send_cmd_tail_past W fuel cmd arg s s2 (Or.inr ⟨h12, hs⟩)
        rw [h1] at h
        simp only [Option.some.injEq, Prod.mk.injEq] at h
        obtain ⟨rfl, rfl⟩ := h
        refine ⟨((busOnly_deselect W s).btrans hb).btrans h2.busOnly,
          [Ev.cs true, Ev.xfer 0xFF] ++ Ev.cs false :: idles (n + 2), ?_, Or.inr ⟨m, ?_, ?_⟩⟩
        · simp [Ev.isIdle, idles]
        · rw [h3, htr]; simp
        · rw [if_neg h12, h2]; simpa using hcs

/-- What `send_cmd` does to the bus for a command without the
application-command tag. -/
theorem send_cmd_untagged_spec (W : World) (fuel cmd arg : Nat) (s : State) (r : Nat)
    (s' : State) (hc : cmd &&& 0x80 = 0) (h : send_cmd W fuel cmd arg s = some (r, s')) :
    busOnly s s' ∧ ∃ pre, pre.all Ev.isIdle = true ∧
      ((cmd ≠ CMD12 ∧ r = 0xFF ∧ s'.csHigh = true ∧ s'.trace = s.trace ++ pre) ∨
       (∃ n, s'.trace = s.trace ++ pre ++ (cmd_packet cmd arg).map Ev.xfer ++ idles (n + 1) ∧
          s'.csHigh = if cmd = CMD12 then s.csHigh else false)) := by
  rw [send_cmd_untagged W fuel cmd arg s hc] at h
  split at h
  · simp at h
  · rename_i r0 s1 hw
    obtain ⟨h1, -, n, h2, -⟩ := wait_ready_spec W fuel 10 s r0 s1 hw
    obtain ⟨h3, pre, hp, h4⟩ := send_cmd_tail_spec W fuel cmd arg s1 r s' h
    refine ⟨h1.busOnly.btrans h3, idles (n + 1) ++ pre, ?_, ?_⟩
    · simp [List.all_append, all_idle_idles, hp]
    · have hcs : s1.csHigh = s.csHigh := by rw [h1]
      rcases h4 with ⟨a, b, c, d⟩ | ⟨m, c, d⟩
      · exact Or.inl ⟨a, b, c, by rw [d, h2]; simp⟩
      · exact Or.inr ⟨m, by rw [c, h2]; simp, by rw [d, hcs]⟩

/-! ## `rcvr_datablock` -/

theorem idles_snoc (k : Nat) : idles k ++ [Ev.xfer 0xFF] = idles (k + 1) := by
  simp only [idles, List.replicate_succ']

/-- While the card shifts in 0xFF and the timer has not expired, the token
loop keeps polling. -/
theorem rcvr_token_idle (W : World) (t : TimeoutChecker) (k : Nat) :
    ∀ (fuel : Nat) (s : State),
      (∀ i, i < k → W.rx (s.nbus + i) = 0xFF) →
      (∀ j, j < k → t.expiredAt (W.millis (s.nclk + j) % U32) = false) →
      rcvr_token W t (fuel + k) s = rcvr_token W t fuel (afterPolls s k) := by
  induction k with
  | zero =>
    intro fuel s _ _
    have : afterPolls s 0 = s := by cases s; simp [afterPolls, idles]
    rw [this]; rfl
  | succ k ih =>
    intro fuel s hi hl
    have e : fuel + (k + 1) = (fuel + 1) + k := by omega
    rw [e, ih (fuel + 1) s (fun i h => hi i (by omega)) (fun j h => hl j (by omega))]
    have h1 := hi k (by omega)
    have h2 := hl k (by omega)
    simp only [rcvr_token, xmit_spi, afterPolls, h1, ↓reduceIte, TimeoutChecker.expired,
      millis, h2, Bool.not_false, List.append_assoc, idles_snoc]
    rfl

/-- C7.  For every requested length `n`, every card and every clock: let the
first `k` bytes polled be idle (0xFF) with the 200 ms timer not expired at
the check after each of them.  Then (1) if the next byte is idle too and the
timer has expired at the check after it, `rcvr_datablock` returns failure;
(2) if the next byte is neither 0xFF nor 0xFE, it returns failure; (3) if
the next byte is 0xFE, it returns success, the buffer holds exactly the next
`n` bytes shifted in, in order, and exactly one further byte is consumed. -/
theorem rcvr_datablock_spec (W : World) (fuel n k : Nat) (s : State) (hfuel : k < fuel)
    (hidle : ∀ i, i < k → W.rx (s.nbus + i) = 0xFF)
    (hlive : ∀ j, j < k →
      (TimeoutChecker.new W 200 s).1.expiredAt (W.millis (s.nclk + 1 + j) % U32) = false) :
    (W.rx (s.nbus + k) = 0xFF →
      (TimeoutChecker.new W 200 s).1.expiredAt (W.millis (s.nclk + 1 + k) % U32) = true →
      ∃ s', rcvr_datablock W fuel n s = some ((0, []), s') ∧ s'.nbus = s.nbus + k + 1) ∧
    (W.rx (s.nbus + k) ≠ 0xFF → W.rx (s.nbus + k) ≠ 0xFE →
      ∃ s', rcvr_datablock W fuel n s = some ((0, []), s') ∧ s'.nbus = s.nbus + k + 1) ∧
    (W.rx (s.nbus + k) = 0xFE →
      ∃ s', rcvr_datablock W fuel n s =
          some ((1, (List.range n).map (fun i => W.rx (s.nbus + k + 1 + i))), s') ∧
        s'.nbus = s.nbus + k + 1 + n + 1) := by
  obtain ⟨f, rfl⟩ : ∃ f, fuel = (f + 1) + k := ⟨fuel - k - 1, by omega⟩
  have hrun := rcvr_token_idle W (TimeoutChecker.new W 200 s).1 k (f + 1)
    (TimeoutChecker.new W 200 s).2 hidle hlive
  have hnb : (TimeoutChecker.new W 200 s).2.nbus = s.nbus := rfl
  have hnc : (TimeoutChecker.new W 200 s).2.nclk = s.nclk + 1 := rfl
  unfold rcvr_datablock
  dsimp only
  rw [hrun]
  refine ⟨?_, ?_, ?_⟩
  · intro hb hex
    simp [rcvr_token, xmit_spi, afterPolls, hnb, hnc, hb, TimeoutChecker.expired, millis, hex]
  · intro hb hb2
    simp [rcvr_token, xmit_spi, afterPolls, hnb, hnc, hb, hb2]
  · intro hb
    simp [rcvr_token, xmit_spi, afterPolls, hnb, hnc, hb, rcvr_spi_multi]

theorem rcvr_datablock_spec_witness :
    ∃ s', rcvr_datablock tokenCard 5 4 s0 =
        some ((1, (List.range 4).map (fun i => tokenCard.rx (s0.nbus + 2 + 1 + i))), s') ∧
      s'.nbus = s0.nbus + 2 + 1 + 4 + 1 :=
  (rcvr_datablock_spec tokenCard 5 4 2 s0 (by decide) (by decide) (by decide)).2.2 (by decide)

/-! ## `ioctl`: the sector count -/

/-- The bytes `rcvr_datablock` stores on success are `n` bytes. -/
theorem rcvr_datablock_data (W : World) (fuel n : Nat) (s : State) (data : List Nat)
    (s' : State) (h : rcvr_datablock W fuel n s = some ((1, data), s')) :
    data.length = n ∧ ∀ i, data.getD i 0 < 256 := by
  unfold rcvr_datablock at h
  dsimp only at h
  split at h
  · simp at h
  · split at h
    · simp at h
    · simp only [rcvr_spi_multi, xmit_spi, Option.some.injEq, Prod.mk.injEq, true_and] at h
      obtain ⟨rfl, -⟩ := h
      refine ⟨by simp, fun i => ?_⟩
      by_cases hi : i < n
      · simp only [List.getD_eq_getElem?_getD, List.getElem?_map, List.getElem?_range hi,
          Option.map_some', Option.getD_some]
        exact Nat.mod_lt _ (by decide)
      · simp [List.getD_eq_getElem?_getD, List.getElem?_eq_none, Nat.le_of_not_lt hi]

/-- The version 2 branch of the sector-count computation, written with
multiplication and remainder. -/
theorem csd_sector_count_v2 (csd : Nat → Nat) (hver : csd 0 / 64 = 1) :
    csd_sector_count csd =
      ((csd 7 % 64 * 65536 + csd 8 * 256 + csd 9 + 1) * 1024) % U32 := by
  have h63 : csd 7 &&& 63 = csd 7 % 64 := Nat.and_pow_two_sub_one_eq_mod (csd 7) 6
  have h7 : csd 7 % 64 < 64 := Nat.mod_lt _ (by decide)
  simp only [csd_sector_count, Nat.shiftRight_eq_div_pow, Nat.shiftLeft_eq, h63]
  norm_num [hver, U32]
  omega

theorem store_zero_getD (junk : Nat → Nat) (data : List Nat) (i : Nat) (hi : i < data.length) :
    store junk 0 data i = data.getD i 0 := by
  simp [store, hi]

theorem ioctl_sector_count_eq (W : World) (fuel : Nat) (dp : Nat × Nat) (s : State)
    (hinit : s._status &&& STA_NOINIT = 0)
    (hcd : (cardPresent W (lock s)).1 = true) :
    ioctl W fuel GET_SECTOR_COUNT dp s =
      match ioctl_sector_count W fuel (cardPresent W (lock s)).2 with
      | none => none
      | some (res, s) => some (res, unlock (deselect W s)) := by
  have hst : (lock s)._status &&& STA_NOINIT = 0 := hinit
  unfold ioctl
  rw [ioctl_rec, ioctl_with]
  dsimp only
  rw [if_neg (by rw [hst]; simp)]
  rw [hcd]
  simp only [Bool.not_true, Bool.false_eq_true, ↓reduceIte]
  rw [if_neg (by decide)]

/-- C10, as the code has it.  On an initialised driver with a card present,
when SEND_CSD is accepted and a 16-byte register `csd` whose version field
(byte 0 divided by 64) is 1 is received, `ioctl(GET_SECTOR_COUNT)` returns OK
and stores `(size + 1) * 1024` reduced modulo `2^32`, where `size` is the
22-bit device-size field (low 6 bits of byte 7, byte 8, byte 9); the stored
value is exactly `(size + 1) * 1024` whenever `size < 0x3FFFFF`. -/
theorem ioctl_sector_count_v2 (W : World) (fuel : Nat) (dp : Nat × Nat) (s s1 s2 : State)
    (csd : List Nat)
    (hinit : s._status &&& STA_NOINIT = 0)
    (hcd : (cardPresent W (lock s)).1 = true)
    (hcmd : send_cmd W fuel CMD9 0 (cardPresent W (lock s)).2 = some (0, s1))
    (hreg : rcvr_datablock W fuel 16 s1 = some ((1, csd), s2))
    (hver : csd.getD 0 0 / 64 = 1) :
    ∃ v, ioctl W fuel GET_SECTOR_COUNT dp s = some ((RES_OK, some v), unlock (deselect W s2)) ∧
      v = ((csd.getD 7 0 % 64 * 65536 + csd.getD 8 0 * 256 + csd.getD 9 0 + 1) * 1024) % U32 ∧
      (csd.getD 7 0 % 64 * 65536 + csd.getD 8 0 * 256 + csd.getD 9 0 < 0x3FFFFF →
        v = (csd.getD 7 0 % 64 * 65536 + csd.getD 8 0 * 256 + csd.getD 9 0 + 1) * 1024) := by
  obtain ⟨hlen, hb⟩ := rcvr_datablock_data W fuel 16 s1 csd s2 hreg
  have hg : ∀ i, i < 16 → store W.junk 0 csd i = csd.getD i 0 :=
    fun i hi => store_zero_getD W.junk csd i (by omega)
  refine ⟨((csd.getD 7 0 % 64 * 65536 + csd.getD 8 0 * 256 + csd.getD 9 0 + 1) * 1024) % U32,
    ?_, rfl, ?_⟩
  · rw [ioctl_sector_count_eq W fuel dp s hinit hcd]
    simp only [ioctl_sector_count, hcmd, hreg, ↓reduceIte, ne_eq, one_ne_zero,
      not_false_eq_true]
    rw [csd_sector_count_v2 _ (by rw [hg 0 (by decide)]; exact hver),
      hg 7 (by decide), hg 8 (by decide), hg 9 (by decide)]
  · intro hlt
    apply Nat.mod_eq_of_lt
    simp only [U32]
    omega

theorem ioctl_sector_count_v2_witness :
    ∃ v, ioctl (regCard csd4G) 5 GET_SECTOR_COUNT (0, 0) ready =
        some ((RES_OK, some v), unlock (deselect (regCard csd4G)
          (stateAfter (rcvr_datablock (regCard csd4G) 5 16
            (stateAfter (send_cmd (regCard csd4G) 5 CMD9 0
              (cardPresent (regCard csd4G) (lock ready)).2)))))) ∧
      v = ((csd4G.getD 7 0 % 64 * 65536 + csd4G.getD 8 0 * 256 + csd4G.getD 9 0 + 1) * 1024)
            % U32 ∧
      (csd4G.getD 7 0 % 64 * 65536 + csd4G.getD 8 0 * 256 + csd4G.getD 9 0 < 0x3FFFFF →
        v = (csd4G.getD 7 0 % 64 * 65536 + csd4G.getD 8 0 * 256 + csd4G.getD 9 0 + 1) * 1024) :=
  ioctl_sector_count_v2 (regCard csd4G) 5 (0, 0) ready
    (stateAfter (send_cmd (regCard csd4G) 5 CMD9 0 (cardPresent (regCard csd4G) (lock ready)).2))
    (stateAfter (rcvr_datablock (regCard csd4G) 5 16
      (stateAfter (send_cmd (regCard csd4G) 5 CMD9 0
        (cardPresent (regCard csd4G) (lock ready)).2))))
    csd4G (by decide) (by decide) (by decide!) (by decide!) (by decide)

/-- C10 as stated fails for the register whose device-size field is all ones:
the driver is initialised, the card is present, SEND_CSD is accepted, the
register `csdMax` (version field 1, size 0x3FFFFF) is received, and
`ioctl(GET_SECTOR_COUNT)` returns OK but stores 0, not
`(size + 1) * 1024 = 2^32`. -/
theorem sector_count_truncated :
    ready._status &&& STA_NOINIT = 0 ∧
    (cardPresent (regCard csdMax) (lock ready)).1 = true ∧
    (send_cmd (regCard csdMax) 5 CMD9 0 (cardPresent (regCard csdMax) (lock ready)).2).map
      Prod.fst = some 0 ∧
    (rcvr_datablock (regCard csdMax) 5 16
      (stateAfter (send_cmd (regCard csdMax) 5 CMD9 0
        (cardPresent (regCard csdMax) (lock ready)).2))).map Prod.fst = some (1, csdMax) ∧
    csdMax.getD 0 0 / 64 = 1 ∧
    (csdMax.getD 7 0 % 64 * 65536 + csdMax.getD 8 0 * 256 + csdMax.getD 9 0 + 1) * 1024
      = 4294967296 ∧
    (ioctl (regCard csdMax) 5 GET_SECTOR_COUNT (0, 0) ready).map Prod.fst
      = some (RES_OK, some 0) := by
  decide!

/-! ## `initialize` -/

set_option maxRecDepth 100000 in
theorem and_64_bit6 : ∀ x : Nat, x < 256 → (x &&& 0x40 ≠ 0 ↔ x / 64 % 2 = 1) := by
  decide

theorem rx_lt (W : World) (i : Nat) : W.rx i < 256 := Nat.mod_lt _ (by decide)

theorem clearBits_noinit_and (x : Nat) : clearBits x STA_NOINIT &&& STA_NOINIT = 0 := by
  have h : (0xFF ^^^ STA_NOINIT) &&& STA_NOINIT = 0 := by decide
  simp only [clearBits]
  rw [Nat.and_assoc, h, Nat.and_zero]

theorem clearBits_protect_and (x : Nat) : clearBits x STA_PROTECT &&& STA_PROTECT = 0 := by
  have h : (0xFF ^^^ STA_PROTECT) &&& STA_PROTECT = 0 := by decide
  simp only [clearBits]
  rw [Nat.and_assoc, h, Nat.and_zero]

theorem clearBits_protect_noinit (x : Nat) :
    clearBits x STA_PROTECT &&& STA_NOINIT = x &&& STA_NOINIT := by
  have h : (0xFF ^^^ STA_PROTECT) &&& STA_NOINIT = STA_NOINIT := by decide
  simp only [clearBits]
  rw [Nat.and_assoc, h]

theorem or_protect_noinit (x : Nat) : (x ||| STA_PROTECT) &&& STA_NOINIT = x &&& STA_NOINIT := by
  have h : STA_NOINIT &&& STA_PROTECT = 0 := by decide
  rw [Nat.and_comm, Nat.and_or_distrib_left, h, Nat.or_zero, Nat.and_comm]

theorem or_protect_and (x : Nat) : (x ||| STA_PROTECT) &&& STA_PROTECT ≠ 0 := by
  intro h
  have h4 : Nat.testBit 4 2 = true := by decide
  have := congrArg (fun n => Nat.testBit n 2) h
  simp [Nat.testBit_and, Nat.testBit_or, h4] at this

theorem writeProtected_fst (W : World) (s : State) :
    (writeProtected W s).1 =
      (s._wp_enabled && decide (W.pin s.npin s._wp = s._wp_active_state)) := by
  unfold writeProtected
  cases s._wp_enabled <;> simp [digitalRead]

theorem cardPresent_fst (W : World) (s : State) :
    (cardPresent W s).1 =
      (!s._cd_enabled || decide (W.pin s.npin s._cd = s._cd_active_state)) := by
  unfold cardPresent
  cases s._cd_enabled <;> simp [digitalRead]

/-- What `init_finish` leaves: the card type, and a status whose
NOT_INITIALIZED bit is clear exactly when a card type was found and whose
WRITE_PROTECTED bit is set exactly when the sensor does not report
protection. -/
theorem init_finish_spec (W : World) (ty : Nat) (s : State) :
    (init_finish W ty s).2._cardType = ty % 256 ∧
    (init_finish W ty s).2._status = (init_finish W ty s).1 ∧
    ((init_finish W ty s).1 &&& STA_NOINIT = 0 ↔ ty ≠ 0) ∧
    ((init_finish W ty s).1 &&& STA_PROTECT ≠ 0 ↔
      (writeProtected W (deselect W s)).1 = false) ∧
    (init_finish W ty s).2._active_clock = s._high_speed_clock ∧
    (init_finish W ty s).2.csHigh = true := by
  have n1 : (1 : Nat) &&& 1 ≠ 0 := by decide
  have n2 : ((1 : Nat) ||| 4) &&& 1 ≠ 0 := by decide
  have n3 : clearBits 1 4 &&& 1 ≠ 0 := by decide
  have b1 := clearBits_noinit_and
  have b2 := clearBits_protect_and
  have b3 := clearBits_protect_noinit
  have b4 := or_protect_noinit
  have b5 := or_protect_and
  simp only [STA_NOINIT, STA_PROTECT] at b1 b2 b3 b4 b5
  unfold init_finish writeProtected
  cases s
  by_cases hty : ty = 0
  · subst hty
    simp only [deselect, xmit_spi, deassertCS, digitalRead, activateHighSpeed, STA_NOINIT,
      STA_PROTECT, ne_eq, not_true_eq_false, ↓reduceIte]
    split <;> split <;> simp_all
  · simp only [deselect, xmit_spi, deassertCS, digitalRead, activateHighSpeed, STA_NOINIT,
      STA_PROTECT, ne_eq, hty, not_false_eq_true, ↓reduceIte]
    split <;> split <;> simp_all

theorem send_cmd_busOnly (W : World) (fuel cmd arg : Nat) (s : State) (r : Nat) (s' : State)
    (h : send_cmd W fuel cmd arg s = some (r, s')) : busOnly s s' := by
  by_cases hc : cmd &&& 0x80 = 0
  · exact (send_cmd_untagged_spec W fuel cmd arg s r s' hc h).1
  · rw [send_cmd_tagged W fuel cmd arg s hc] at h
    split at h
    · simp at h
    · rename_i r0 s1 hw
      have h1 := (wait_ready_spec W fuel 10 s r0 s1 hw).1.busOnly
      split at h
      · simp at h
      · rename_i res s2 h55
        have h2 := (send_cmd_untagged_spec W fuel CMD55 0 s1 res s2 (by decide) h55).1
        split at h
        · simp only [Option.some.injEq, Prod.mk.injEq] at h
          obtain ⟨-, rfl⟩ := h
          exact h1.btrans h2
        · exact (h1.btrans h2).btrans (send_cmd_tail_spec W fuel _ arg s2 r s' h).1

theorem ioOnly_idle_clocks (W : World) (n : Nat) (s : State) : ioOnly s (idle_clocks W n s) := by
  induction n generalizing s with
  | zero => exact ioOnly.irefl s
  | succ n ih => exact (ioOnly_xmit_spi W 0xFF s).itrans (ih _)

theorem busOnly_delay_settle (W : World) (fuel n : Nat) (s s' : State)
    (h : settle W fuel n s = some s') :
    s' = { s with csHigh := s'.csHigh, nbus := s'.nbus, nclk := s'.nclk, trace := s'.trace } := by
  induction n generalizing s with
  | zero =>
    simp only [settle, Option.some.injEq] at h
    subst h; cases s; rfl
  | succ n ih =>
    simp only [settle] at h
    split at h
    · simp at h
    · rename_i r s1 hc
      have h1 := send_cmd_busOnly W fuel CMD0 0 _ r s1 hc
      have h2 := ih s1 h
      rw [h2, h1]
      cases s; rfl

theorem settle_busOnly (W : World) (fuel n : Nat) (s s' : State)
    (h : settle W fuel n s = some s') : busOnly s s' :=
  busOnly_delay_settle W fuel n s s' h

theorem op_cond_wait_busOnly (W : World) (fuel : Nat) (t : TimeoutChecker) (cmd arg k : Nat)
    (s s' : State) (h : op_cond_wait W fuel t cmd arg k s = some s') : busOnly s s' := by
  induction k generalizing s with
  | zero => simp [op_cond_wait] at h
  | succ k ih =>
    simp only [op_cond_wait] at h
    have h0 := (ioOnly_expired W t s).busOnly
    split at h
    · simp only [Option.some.injEq] at h
      subst h; exact h0
    · split at h
      · simp at h
      · rename_i r s1 hc
        have h1 := send_cmd_busOnly W fuel cmd arg _ r s1 hc
        split at h
        · exact (h0.btrans h1).btrans (ih s1 h)
        · simp only [Option.some.injEq] at h
          subst h; exact h0.btrans h1

theorem ioOnly_recv_ocr (W : World) (s : State) : ioOnly s (recv_ocr W s).2 := by
  cases s; rfl

theorem recv_ocr_fst (W : World) (s : State) :
    (recv_ocr W s).1 = [W.rx s.nbus, W.rx (s.nbus + 1), W.rx (s.nbus + 2), W.rx (s.nbus + 3)] :=
  rfl

theorem init_sdv2_busOnly (W : World) (fuel : Nat) (t : TimeoutChecker) (s : State) (ty : Nat)
    (s' : State) (h : init_sdv2 W fuel t s = some (ty, s')) : busOnly s s' := by
  unfold init_sdv2 at h
  dsimp only at h
  have h0 := (ioOnly_recv_ocr W s).busOnly
  split at h
  · split at h
    · simp at h
    · rename_i s1 hop
      have h1 := h0.btrans (op_cond_wait_busOnly W fuel t _ _ fuel _ s1 hop)
      have h2 := h1.btrans (ioOnly_expired W t s1).busOnly
      split at h
      · simp at h
      · rename_i r s2 h58
        have h3 : busOnly s s2 := by
          split at h58
          · exact h2.btrans (send_cmd_busOnly W fuel CMD58 0 _ r s2 h58)
          · simp only [Option.some.injEq, Prod.mk.injEq] at h58
            obtain ⟨-, rfl⟩ := h58
            exact h2
        split at h
        · simp only [Option.some.injEq, Prod.mk.injEq] at h
          obtain ⟨-, rfl⟩ := h
          exact h3.btrans (ioOnly_recv_ocr W s2).busOnly
        · simp only [Option.some.injEq, Prod.mk.injEq] at h
          obtain ⟨-, rfl⟩ := h
          exact h3.btrans (ioOnly_expired W t s2).busOnly
  · simp only [Option.some.injEq, Prod.mk.injEq] at h
    obtain ⟨-, rfl⟩ := h
    exact h0

theorem init_sdv1_mmc_busOnly (W : World) (fuel : Nat) (t : TimeoutChecker) (s : State)
    (ty : Nat) (s' : State) (h : init_sdv1_mmc W fuel t s = some (ty, s')) : busOnly s s' := by
  unfold init_sdv1_mmc at h
  split at h
  · simp at h
  · rename_i r s1 h41
    have h1 := send_cmd_busOnly W fuel ACMD41 0 s r s1 h41
    dsimp only at h
    split at h
    · simp at h
    · rename_i s2 hop
      have h2 := h1.btrans (op_cond_wait_busOnly W fuel t _ _ fuel _ s2 hop)
      have h3 := h2.btrans (ioOnly_expired W t s2).busOnly
      split at h
      · simp only [Option.some.injEq, Prod.mk.injEq] at h
        obtain ⟨-, rfl⟩ := h
        exact h3
      · split at h
        · simp at h
        · rename_i r16 s3 h16
          have h4 := h3.btrans (send_cmd_busOnly W fuel CMD16 512 _ r16 s3 h16)
          split at h <;>
          · simp only [Option.some.injEq, Prod.mk.injEq] at h
            obtain ⟨-, rfl⟩ := h
            exact h4

theorem init_probe_busOnly (W : World) (fuel : Nat) (t : TimeoutChecker) (s : State)
    (ty : Nat) (s' : State) (h : init_probe W fuel t s = some (ty, s')) : busOnly s s' := by
  unfold init_probe at h
  split at h
  · simp at h
  · rename_i r0 s1 h0
    have h1 := send_cmd_busOnly W fuel CMD0 0 s r0 s1 h0
    dsimp only at h
    split at h
    · simp at h
    · rename_i ty1 t1 s4 hf
      simp only [Option.some.injEq, Prod.mk.injEq] at h
      obtain ⟨-, rfl⟩ := h
      refine (h1.btrans ?_).btrans (ioOnly_expired W t1 s4).busOnly
      split at hf
      · split at hf
        · simp at hf
        · rename_i r8 s2 h8
          have h2 := (ioOnly_millis W s1).busOnly.btrans
            (send_cmd_busOnly W fuel CMD8 0x1AA _ r8 s2 h8)
          split at hf
          · simp at hf
          · rename_i ty2 s3 hb
            simp only [Option.some.injEq, Prod.mk.injEq] at hf
            obtain ⟨-, -, rfl⟩ := hf
            split at hb
            · exact h2.btrans (init_sdv2_busOnly W fuel _ s2 ty2 s3 hb)
            · exact h2.btrans (init_sdv1_mmc_busOnly W fuel _ s2 ty2 s3 hb)
      · simp only [Option.some.injEq, Prod.mk.injEq] at hf
        obtain ⟨-, -, rfl⟩ := hf
        exact busOnly.brefl s1

theorem eq_some_stateAfter {α : Type} (o : Option (α × State)) (a : α)
    (h : o.map Prod.fst = some a) : o = some (a, stateAfter o) := by
  cases o with
  | none => simp at h
  | some p =>
    obtain ⟨x, s⟩ := p
    simp only [Option.map_some', Option.some.injEq] at h
    subst h; rfl

theorem eq_some_stateOf (o : Option State) (h : o.isSome = true) : o = some (stateOf o) := by
  cases o with
  | none => simp at h
  | some s => rfl

theorem initialize_card_present (W : World) (fuel : Nat) (s : State)
    (hcd : (cardPresent W (activateLowSpeed (lock s))).1 = true) :
    initialize_card W fuel s =
      match settle W fuel 200 (initEntry W s) with
      | none => none
      | some s1 =>
        match init_probe W fuel
            (TimeoutChecker.new W 1000
              (idle_clocks W 10 (cardPresent W (activateLowSpeed (lock s))).2)).1 s1 with
        | none => none
        | some (ty, s2) => some ((init_finish W ty s2).1, unlock (init_finish W ty s2).2) := by
  unfold initialize_card
  simp only [hcd, Bool.not_true, Bool.false_eq_true, ↓reduceIte, initEntry]

theorem start_eq_initTimer (W : World) (x s : State) :
    (TimeoutChecker.new W 1000 x).1.start W s = (initTimer W s, (millis W s).2) :=
  rfl

/-- The probing of `initialize` once GO_IDLE_STATE has answered 1: the branch
is chosen by the response to SEND_IF_COND. -/
theorem init_probe_idle (W : World) (fuel : Nat) (x s1 s2 s3 : State) (r8 : Nat)
    (h0 : send_cmd W fuel CMD0 0 s1 = some (1, s2))
    (h8 : send_cmd W fuel CMD8 0x1AA (millis W s2).2 = some (r8, s3)) :
    init_probe W fuel (TimeoutChecker.new W 1000 x).1 s1 =
      match (if r8 = 1 then init_sdv2 W fuel (initTimer W s2) s3
             else init_sdv1_mmc W fuel (initTimer W s2) s3) with
      | none => none
      | some (ty, s) => some (ty, ((initTimer W s2).expired W s).2) := by
  unfold init_probe
  simp only [h0, ↓reduceIte, start_eq_initTimer, h8]
  generalize (if r8 = 1 then init_sdv2 W fuel (initTimer W s2) s3
    else init_sdv1_mmc W fuel (initTimer W s2) s3) = o
  rcases o with _ | ⟨ty, s⟩ <;> rfl

/-- C1.  With the card-present sensor true, let the 200 settling commands
return (state `s1`), the authoritative GO_IDLE_STATE answer 1 (state `s2`),
SEND_IF_COND(0x1AA) answer 1 (state `s3`) with the third and fourth of the
next four bytes being 0x01 and 0xAA, the wait on the application command
SEND_OP_COND(1 << 30) end (state `s4`) with the 1000 ms timer not expired at
the check that follows, and READ_OCR answer 0 (state `s5`).  Then
`initialize` returns; the card type is SD_V2 | BLOCK_ADDRESSED when bit 6 of
the first OCR byte (the next byte shifted in) is set and SD_V2 when it is
clear; and the status returned, which is the status stored, has
NOT_INITIALIZED clear. -/
theorem initialize_sdv2 (W : World) (fuel : Nat) (s s1 s2 s3 s4 s5 : State)
    (hcd : (cardPresent W (activateLowSpeed (lock s))).1 = true)
    (hsettle : settle W fuel 200 (initEntry W s) = some s1)
    (h0 : send_cmd W fuel CMD0 0 s1 = some (1, s2))
    (h8 : send_cmd W fuel CMD8 0x1AA (millis W s2).2 = some (1, s3))
    (hecho : W.rx (s3.nbus + 2) = 0x01 ∧ W.rx (s3.nbus + 3) = 0xAA)
    (hop : op_cond_wait W fuel (initTimer W s2) ACMD41 (1 <<< 30) fuel (recv_ocr W s3).2
      = some s4)
    (hlive : (initTimer W s2).expiredAt (W.millis s4.nclk % U32) = false)
    (h58 : send_cmd W fuel CMD58 0 (millis W s4).2 = some (0, s5)) :
    ∃ st s', initialize_card W fuel s = some (st, s') ∧
      s'._cardType = (if W.rx s5.nbus / 64 % 2 = 1 then CT_SD2 ||| CT_BLOCK else CT_SD2) ∧
      st &&& STA_NOINIT = 0 ∧ s'._status = st := by
  have hty : init_sdv2 W fuel (initTimer W s2) s3 =
      some (if W.rx s5.nbus / 64 % 2 = 1 then CT_SD2 ||| CT_BLOCK else CT_SD2,
        (recv_ocr W s5).2) := by
    have hocr : (recv_ocr W s3).1.getD 2 0 = 0x01 ∧ (recv_ocr W s3).1.getD 3 0 = 0xAA := by
      rw [recv_ocr_fst]; exact hecho
    have hex : (initTimer W s2).expired W s4 = (false, (millis W s4).2) := by
      simp only [TimeoutChecker.expired, millis, hlive]
    have hb0 : (recv_ocr W s5).1.getD 0 0 = W.rx s5.nbus := by
      rw [recv_ocr_fst]; rfl
    unfold init_sdv2
    dsimp only
    rw [if_pos hocr, hop]
    dsimp only
    rw [hex]
    simp only [Bool.not_false, ↓reduceIte, h58, and_self, hb0]
    have := and_64_bit6 (W.rx s5.nbus) (rx_lt W _)
    by_cases hb : W.rx s5.nbus / 64 % 2 = 1
    · rw [if_pos (this.mpr hb), if_pos hb]
    · have h2 : ¬ W.rx s5.nbus &&& 64 ≠ 0 := fun hne => hb (this.mp hne)
      rw [if_neg h2, if_neg hb]
  rw [initialize_card_present W fuel s hcd, hsettle]
  simp only []
  rw [init_probe_idle W fuel _ s1 s2 s3 1 h0 h8]
  simp only [↓reduceIte, hty]
  obtain ⟨e1, e2, e3, -⟩ := init_finish_spec W
    (if W.rx s5.nbus / 64 % 2 = 1 then CT_SD2 ||| CT_BLOCK else CT_SD2)
    ((initTimer W s2).expired W (recv_ocr W s5).2).2
  refine ⟨_, _, rfl, ?_, ?_, ?_⟩
  · show (init_finish W _ _).2._cardType = _
    rw [e1]
    split <;> rfl
  · rw [e3]
    split <;> decide
  · exact e2

set_option maxHeartbeats 2000000 in
theorem initialize_sdv2_witness :
    ∃ st s', initialize_card sdhcCard 5 s0 = some (st, s') ∧
      s'._cardType =
        (if sdhcCard.rx sdhc5.nbus / 64 % 2 = 1 then CT_SD2 ||| CT_BLOCK else CT_SD2) ∧
      st &&& STA_NOINIT = 0 ∧ s'._status = st :=
  initialize_sdv2 sdhcCard 5 s0 sdhc1 sdhc2 sdhc3 sdhc4 sdhc5 (by decide)
    (eq_some_stateOf _ (by decide!)) (eq_some_stateAfter _ _ (by decide!))
    (eq_some_stateAfter _ _ (by decide!)) (by decide!) (eq_some_stateOf _ (by decide!))
    (by decide!) (eq_some_stateAfter _ _ (by decide!))

/-- In the branch for cards that reject SEND_IF_COND, whenever the wait on
the operating-condition command ends with the 1000 ms timer not expired, the
card type found is NONE and SET_BLOCKLEN is not sent: `!timeout` is true
exactly when the deadline has not been reached. -/
theorem init_sdv1_mmc_unexpired (W : World) (fuel : Nat) (t : TimeoutChecker)
    (s s1 s2 : State) (r : Nat)
    (h41 : send_cmd W fuel ACMD41 0 s = some (r, s1))
    (hop : op_cond_wait W fuel t (if r ≤ 1 then ACMD41 else CMD1) 0 fuel s1 = some s2)
    (hlive : t.expiredAt (W.millis s2.nclk % U32) = false) :
    init_sdv1_mmc W fuel t s = some (0, (millis W s2).2) := by
  have hex : t.expired W s2 = (false, (millis W s2).2) := by
    simp only [TimeoutChecker.expired, millis, hlive]
  unfold init_sdv1_mmc
  rw [h41]
  by_cases hr : r ≤ 1
  · simp only [hr, ↓reduceIte] at hop ⊢
    rw [hop]
    simp only [hex, Bool.not_false, ↓reduceIte]
  · simp only [hr, ↓reduceIte] at hop ⊢
    rw [hop]
    simp only [hex, Bool.not_false, ↓reduceIte]

set_option maxHeartbeats 2000000 in
/-- C2 fails on the code.  On the simulated legacy MMC `mmcCard` (card
present, authoritative GO_IDLE_STATE answered 1, SEND_IF_COND answered 5,
ACMD41(0) answered 5, CMD1(0) answered 0 with the 1000 ms timer not expired,
SET_BLOCKLEN(512) answered 0 if it were sent) `initialize` leaves the card
type NONE and returns a status with NOT_INITIALIZED set.  Likewise on the
simulated SD version 1 card `sdv1Card` (ACMD41(0) answered 1 and then 0). -/
theorem initialize_mmc_unclassified :
    ((send_cmd mmcCard 5 CMD0 0 mmc1).map Prod.fst = some 1 ∧
     (send_cmd mmcCard 5 CMD8 0x1AA (millis mmcCard mmc2).2).map Prod.fst = some 5 ∧
     (send_cmd mmcCard 5 ACMD41 0 mmc3).map Prod.fst = some 5 ∧
     (send_cmd mmcCard 5 CMD1 0 (millis mmcCard mmc4).2).map Prod.fst = some 0 ∧
     (initTimer mmcCard mmc2).expiredAt (mmcCard.millis mmc5.nclk % U32) = false ∧
     (send_cmd mmcCard 5 CMD16 512 (millis mmcCard mmc5).2).map Prod.fst = some 0 ∧
     (initialize_card mmcCard 5 s0).map (fun r => (r.1 &&& STA_NOINIT, r.2._cardType))
        = some (STA_NOINIT, 0)) ∧
    ((send_cmd sdv1Card 5 ACMD41 0 sdv1_3).map Prod.fst = some 1 ∧
     (send_cmd sdv1Card 5 ACMD41 0 (millis sdv1Card sdv1_4).2).map Prod.fst = some 0 ∧
     (initialize_card sdv1Card 5 s0).map (fun r => (r.1 &&& STA_NOINIT, r.2._cardType))
        = some (STA_NOINIT, 0)) := by
  decide!

theorem writeProtected_busOnly (W : World) (a b : State) (h : busOnly a b) :
    (writeProtected W b).1 = (writeProtected W a).1 := by
  rw [writeProtected_fst, writeProtected_fst, h]

/-- C3 fails on the code, which does the opposite.  For every run of
`initialize` in which the card-present sensor reports a card: the status
returned is the status stored, and its WRITE_PROTECTED bit is set if and only
if the write-protect sensor, read at that point, does not report protection
(`writeProtected()` is false). -/
theorem initialize_protect_inverted (W : World) (fuel : Nat) (s : State) (st : Nat)
    (s' : State)
    (hcd : (cardPresent W (activateLowSpeed (lock s))).1 = true)
    (h : initialize_card W fuel s = some (st, s')) :
    s'._status = st ∧
    (st &&& STA_PROTECT ≠ 0 ↔
      (writeProtected W (cardPresent W (activateLowSpeed (lock s))).2).1 = false) := by
  rw [initialize_card_present W fuel s hcd] at h
  split at h
  · simp at h
  · rename_i s1 hs
    split at h
    · simp at h
    · rename_i ty s2 hp
      simp only [Option.some.injEq, Prod.mk.injEq] at h
      obtain ⟨rfl, rfl⟩ := h
      obtain ⟨-, e2, -, e4, -⟩ := init_finish_spec W ty s2
      have hb : busOnly (cardPresent W (activateLowSpeed (lock s))).2 (deselect W s2) :=
        ((((ioOnly_idle_clocks W 10 _).itrans (ioOnly_new W 1000 _)).busOnly.btrans
          (settle_busOnly W fuel 200 _ s1 hs)).btrans
          (init_probe_busOnly W fuel _ s1 ty s2 hp)).btrans (busOnly_deselect W s2)
      refine ⟨e2, ?_⟩
      rw [e4, writeProtected_busOnly W _ _ hb]

theorem initialize_protect_inverted_witness :
    (stateAfter (initialize_card idleCard 5 s0))._status = 5 ∧
    (5 &&& STA_PROTECT ≠ 0 ↔
      (writeProtected idleCard (cardPresent idleCard (activateLowSpeed (lock s0))).2).1
        = false) :=
  initialize_protect_inverted idleCard 5 s0 5 (stateAfter (initialize_card idleCard 5 s0))
    (by decide) (eq_some_stateAfter _ _ (by decide!))

/-- The two directions of the inversion on concrete runs: without a
write-protect sensor (`writeProtected()` false) `initialize` returns a status
with WRITE_PROTECTED set; with the sensor reporting protection it returns a
status with WRITE_PROTECTED clear, while `status()` on the same driver sets
the bit. -/
theorem initialize_protect_bit_runs :
    ((writeProtected idleCard s0).1 = false ∧
      (initialize_card idleCard 5 s0).map (fun r => r.1 &&& STA_PROTECT) = some STA_PROTECT) ∧
    ((writeProtected pinsHigh s0wp).1 = true ∧
      (initialize_card pinsHigh 5 s0wp).map (fun r => r.1 &&& STA_PROTECT) = some 0 ∧
      (status pinsHigh s0wp).1 &&& STA_PROTECT = STA_PROTECT) := by
  decide!

/-! ## `xmit_datablock` and `write` -/

/-- What `xmit_datablock` does to the bus: idle bytes while waiting for the
card; then nothing more if the card did not go ready (result 0), the lone
token for STOP_TRAN (result 1), or token, data burst, two CRC bytes and the
response byte, with result 1 exactly when the response is "accepted". -/
theorem xmit_datablock_spec (W : World) (fuel : Nat) (buff : Nat → Nat) (off token : Nat)
    (s : State) (ok : Nat) (s' : State)
    (h : xmit_datablock W fuel buff off token s = some (ok, s')) :
    ioOnly s s' ∧ ∃ k,
      (ok = 0 ∧ s'.trace = s.trace ++ idles (k + 1) ∧ s'.nbus = s.nbus + (k + 1)) ∨
      (token = 0xFD ∧ ok = 1 ∧ s'.trace = s.trace ++ idles (k + 1) ++ [Ev.xfer 0xFD] ∧
        s'.nbus = s.nbus + (k + 1) + 1) ∨
      (token ≠ 0xFD ∧ s'.trace = s.trace ++ idles (k + 1) ++ blockEvents buff off token ∧
        s'.nbus = respPos s.nbus k + 1 ∧
        ((ok = 1 ∧ accepted (W.rx (respPos s.nbus k)) = true) ∨
         (ok = 0 ∧ accepted (W.rx (respPos s.nbus k)) = false))) := by
  unfold xmit_datablock at h
  split at h
  · simp at h
  · rename_i r s1 hw
    obtain ⟨h1, -, k, h2, h3⟩ := wait_ready_spec W fuel 100 s r s1 hw
    split at h
    · simp only [Option.some.injEq, Prod.mk.injEq] at h
      obtain ⟨rfl, rfl⟩ := h
      exact ⟨h1, k, Or.inl ⟨rfl, h2, h3⟩⟩
    · dsimp only at h
      split at h
      · rename_i htok
        split at h
        · simp only [Option.some.injEq, Prod.mk.injEq] at h
          obtain ⟨rfl, rfl⟩ := h
          refine ⟨h1.itrans (by cases s1; rfl), k, Or.inr (Or.inr ⟨htok, ?_, ?_, Or.inr ⟨rfl, ?_⟩⟩)⟩
          · simp [xmit_spi, xmit_spi_multi, h2, blockEvents]
          · simp [xmit_spi, xmit_spi_multi, h3, respPos]
          · rename_i hr
            simpa [xmit_spi, xmit_spi_multi, h3, respPos, Nat.add_assoc, accepted] using hr
        · simp only [Option.some.injEq, Prod.mk.injEq] at h
          obtain ⟨rfl, rfl⟩ := h
          refine ⟨h1.itrans (by cases s1; rfl), k, Or.inr (Or.inr ⟨htok, ?_, ?_, Or.inl ⟨rfl, ?_⟩⟩)⟩
          · simp [xmit_spi, xmit_spi_multi, h2, blockEvents]
          · simp [xmit_spi, xmit_spi_multi, h3, respPos]
          · rename_i hr
            simpa [xmit_spi, xmit_spi_multi, h3, respPos, Nat.add_assoc, accepted] using hr
      · rename_i htok
        simp only [ne_eq, Decidable.not_not] at htok
        simp only [Option.some.injEq, Prod.mk.injEq] at h
        obtain ⟨rfl, rfl⟩ := h
        refine ⟨h1.itrans (ioOnly_xmit_spi W token s1), k, Or.inr (Or.inl ⟨htok, rfl, ?_, ?_⟩)⟩
        · simp [xmit_spi, h2, htok]
        · simp [xmit_spi, h3]

/-- The block loop of `write` sends a `BlockRun`. -/
theorem write_loop_spec (W : World) (fuel : Nat) (buff : Nat → Nat) (k off count : Nat)
    (s : State) (left : Nat) (s' : State)
    (h : write_loop W fuel buff k off count s = some (left, s')) :
    ioOnly s s' ∧ ∃ run, s'.trace = s.trace ++ run ∧ BlockRun W buff s.nbus off count run left := by
  induction k generalizing off count s with
  | zero => simp [write_loop] at h
  | succ k ih =>
    simp only [write_loop] at h
    split at h
    · simp at h
    · rename_i ok s1 hx
      obtain ⟨h1, j, hc⟩ := xmit_datablock_spec W fuel buff off 0xFC s ok s1 hx
      rcases hc with ⟨rfl, h2, -⟩ | ⟨htok, -⟩ | ⟨-, h2, h3, hc⟩
      · simp only [↓reduceIte, Option.some.injEq, Prod.mk.injEq] at h
        obtain ⟨rfl, rfl⟩ := h
        exact ⟨h1, _, h2, BlockRun.notReady _ _ _ j _ rfl⟩
      · exact absurd htok (by decide)
      · rcases hc with ⟨rfl, hacc⟩ | ⟨rfl, hrej⟩
        · simp only [one_ne_zero, ↓reduceIte] at h
          split at h
          · rename_i hn
            obtain ⟨h4, run, h5, h6⟩ := ih _ _ _ h
            refine ⟨h1.itrans h4, _, ?_,
              BlockRun.more _ _ _ j _ _ _ _ run left rfl hacc h3 rfl rfl hn h6⟩
            rw [h5, h2]; simp
          · rename_i hn
            simp only [ne_eq, Decidable.not_not] at hn
            simp only [Option.some.injEq, Prod.mk.injEq] at h
            obtain ⟨rfl, rfl⟩ := h
            rw [hn]
            exact ⟨h1, _, by rw [h2, List.append_assoc], BlockRun.last _ _ _ j _ rfl hacc hn⟩
        · simp only [↓reduceIte, Option.some.injEq, Prod.mk.injEq] at h
          obtain ⟨rfl, rfl⟩ := h
          exact ⟨h1, _, by rw [h2, List.append_assoc], BlockRun.rejected _ _ _ j _ rfl hrej⟩

/-- A `BlockRun` holds no stop token, and an unfinished one leaves a
nonzero count. -/
theorem BlockRun.no_stop {W : World} {buff : Nat → Nat} {pos off n : Nat} {run : List Ev}
    {left : Nat} (h : BlockRun W buff pos off n run left) : Ev.xfer 0xFD ∉ run := by
  induction h with
  | notReady pos off n k tr htr => subst htr; simp [idles]
  | rejected pos off n k tr htr h => subst htr; simp [idles, blockEvents]
  | last pos off n k tr htr h hn => subst htr; simp [idles, blockEvents]
  | more pos off n k pos' off' n' tr run left htr h hpos hoff hn' hn rest ih =>
    subst htr; simp [idles, blockEvents, ih]

theorem writeEntry_fields (W : World) (s : State) :
    (writeEntry W s)._status = s._status ∧ (writeEntry W s)._cardType = s._cardType := by
  unfold writeEntry writeProtected cardPresent
  cases s
  simp only [lock, setSPI, digitalRead]
  split <;> split <;> simp

/-- Past its gates, `write` is the transfer followed by `deselect`. -/
theorem write_gates (W : World) (fuel : Nat) (buff : Nat → Nat) (sector count : Nat)
    (s : State)
    (hcd : (cardPresent W (lock s)).1 = true)
    (hwp : (writeProtected W (cardPresent W (lock s)).2).1 = false)
    (hst : s._status &&& STA_NOINIT = 0) (hpr : s._status &&& STA_PROTECT = 0) :
    write W fuel buff sector count s =
      match write_blocks W fuel buff (cardAddr (writeEntry W s) sector) count
          (writeEntry W s) with
      | none => none
      | some (c, s1) => some (if c ≠ 0 then RES_ERROR else RES_OK, unlock (deselect W s1)) := by
  have h1 : (writeEntry W s)._status &&& STA_NOINIT = 0 := by
    rw [(writeEntry_fields W s).1]; exact hst
  have h2 : (writeEntry W s)._status &&& STA_PROTECT = 0 := by
    rw [(writeEntry_fields W s).1]; exact hpr
  unfold write
  simp only [hcd, Bool.not_true, Bool.false_eq_true, ↓reduceIte, hwp]
  unfold writeEntry at h1 h2
  simp only [h1, h2, ne_eq, not_true_eq_false, ↓reduceIte, cardAddr, writeEntry]

/-- C8 as stated fails in two ways on the initialised driver `ready` writing
two sectors.  (1) The card `idleCard` does not accept WRITE_MULTIPLE_BLOCK:
the call passes its gates, returns ERROR, and no stop token 0xFD (and no data
block) was sent.  (2) The card `busyAfterBlocks` accepts the command and both
data blocks and then stays busy for more than 100 ms: two data blocks were
sent, the call returns ERROR, and no stop token was sent. -/
theorem write_multi_no_stop :
    ((cardPresent idleCard (lock ready)).1 = true ∧
      (writeProtected idleCard (cardPresent idleCard (lock ready)).2).1 = false ∧
      ready._status = 0 ∧
      (write idleCard 5 zeros 0 2 ready).map
        (fun r => (r.1, decide (Ev.xfer 0xFD ∈ r.2.trace), r.2.trace.count (Ev.xfer 0xFC)))
        = some (RES_ERROR, false, 0)) ∧
    ((send_cmd busyAfterBlocks 5 CMD25 (cardAddr (writeEntry busyAfterBlocks ready) 0)
        (stateAfter (send_cmd busyAfterBlocks 5 ACMD23 2
          (writeEntry busyAfterBlocks ready)))).map Prod.fst = some 0 ∧
      (write busyAfterBlocks 5 zeros 0 2 ready).map
        (fun r => (r.1, decide (Ev.xfer 0xFD ∈ r.2.trace), r.2.trace.count (Ev.xfer 0xFC)))
        = some (RES_ERROR, false, 2)) := by
  decide!

/-! ## Round trip of one sector -/

theorem storedBlock_skip (pre : List Ev) (d : List Nat) (post : List Ev)
    (hpre : ∀ e ∈ pre, e.isBurst = false) :
    storedBlock (pre ++ Ev.xfer 0xFE :: Ev.burst d :: post) = some d := by
  induction pre with
  | nil => simp [storedBlock]
  | cons e pre ih =>
    have ih' := ih (fun x hx => hpre x (List.mem_cons_of_mem _ hx))
    have he := hpre e (List.mem_cons_self _ _)
    cases e with
    | xfer t =>
      cases pre with
      | nil =>
        simp only [List.cons_append, List.nil_append, storedBlock] at ih' ⊢
        simp
      | cons e' pre' =>
        have he' := hpre e' (by simp)
        cases e' with
        | burst d' => simp [Ev.isBurst] at he'
        | xfer t' => simpa only [List.cons_append, storedBlock] using ih'
        | cs b => simpa only [List.cons_append, storedBlock] using ih'
        | delay m => simpa only [List.cons_append, storedBlock] using ih'
    | burst d' => simp [Ev.isBurst] at he
    | cs b => simpa only [List.cons_append, storedBlock] using ih'
    | delay m => simpa only [List.cons_append, storedBlock] using ih'

theorem isBurst_of_isIdle (e : Ev) (h : e.isIdle = true) : e.isBurst = false := by
  cases e <;> simp_all [Ev.isIdle, Ev.isBurst]

theorem cardPresent_fields (W : World) (s : State) :
    (cardPresent W (lock s)).2._status = s._status ∧
    (cardPresent W (lock s)).2._cardType = s._cardType ∧
    (cardPresent W (lock s)).2.trace = s.trace := by
  unfold cardPresent
  cases s
  simp only [lock, setSPI, digitalRead]
  split <;> simp

theorem writeEntry_trace (W : World) (s : State) : (writeEntry W s).trace = s.trace := by
  unfold writeEntry writeProtected cardPresent
  cases s
  simp only [lock, setSPI, digitalRead]
  split <;> split <;> simp

/-- Past its gate, `read` is the sector loop followed by `deselect`. -/
theorem read_gates (W : World) (fuel : Nat) (buff : Nat → Nat) (sector count : Nat)
    (s : State)
    (hcd : (cardPresent W (lock s)).1 = true) (hst : s._status &&& STA_NOINIT = 0) :
    read W fuel buff sector count s =
      match read_loop W fuel (cardAddr s sector) fuel buff count 0 (cardPresent W (lock s)).2 with
      | none => none
      | some ((b, c), s1) =>
        some ((if c ≠ 0 then RES_ERROR else RES_OK, b), unlock (deselect W s1)) := by
  obtain ⟨h1, h2, -⟩ := cardPresent_fields W s
  unfold read
  simp only [hcd, Bool.not_true, Bool.false_eq_true, h1, hst, ne_eq, not_true_eq_false,
    or_self, ↓reduceIte, h2, cardAddr]

/-- The events of a command that answered 0 hold no burst. -/
theorem send_cmd_accepted_trace (W : World) (fuel cmd arg : Nat) (s s' : State)
    (hc : cmd &&& 0x80 = 0) (h : send_cmd W fuel cmd arg s = some (0, s')) :
    busOnly s s' ∧ ∃ pre n, (∀ e ∈ pre, e.isBurst = false) ∧
      s'.trace = s.trace ++ pre ++ (cmd_packet cmd arg).map Ev.xfer ++ idles (n + 1) := by
  obtain ⟨hb, pre, hp, hcase⟩ := send_cmd_untagged_spec W fuel cmd arg s 0 s' hc h
  refine ⟨hb, pre, ?_⟩
  rcases hcase with ⟨-, hff, -⟩ | ⟨n, htr, -⟩
  · exact absurd hff (by decide)
  · exact ⟨n, fun e he => isBurst_of_isIdle e (List.all_eq_true.mp hp e he), htr⟩

theorem busOnly_fields {a b : State} (h : busOnly a b) :
    b._status = a._status ∧ b._cardType = a._cardType := by
  rw [h]; exact ⟨rfl, rfl⟩

theorem rcvr_token_spec (W : World) (t : TimeoutChecker) (fuel : Nat) (s : State)
    (tok : Nat) (s' : State) (h : rcvr_token W t fuel s = some (tok, s')) :
    ioOnly s s' ∧ ∃ n, s'.trace = s.trace ++ idles (n + 1) ∧ s'.nbus = s.nbus + (n + 1) := by
  induction fuel generalizing s with
  | zero => simp [rcvr_token] at h
  | succ k ih =>
    simp only [rcvr_token] at h
    split at h
    · split at h
      · obtain ⟨h1, n, h2, h3⟩ := ih _ h
        refine ⟨((ioOnly_xmit_spi W 0xFF s).itrans (ioOnly_expired W t _)).itrans h1, n + 1, ?_, ?_⟩
        · rw [h2]; simp [TimeoutChecker.expired, millis, xmit_spi, idles_succ]
        · rw [h3]; simp [TimeoutChecker.expired, millis, xmit_spi]; omega
      · simp only [Option.some.injEq, Prod.mk.injEq] at h
        obtain ⟨-, rfl⟩ := h
        exact ⟨(ioOnly_xmit_spi W 0xFF s).itrans (ioOnly_expired W t _), 0, by
          simp [TimeoutChecker.expired, millis, xmit_spi, idles], by
          simp [TimeoutChecker.expired, millis, xmit_spi]⟩
    · simp only [Option.some.injEq, Prod.mk.injEq] at h
      obtain ⟨-, rfl⟩ := h
      exact ⟨ioOnly_xmit_spi W 0xFF s, 0, by simp [xmit_spi, idles], by simp [xmit_spi]⟩

/-- What `rcvr_datablock` does to the bus: idle bytes polling for the token
and, when the token is 0xFE, one burst of `btr` idle bytes and one more idle
byte. -/
theorem rcvr_datablock_trace (W : World) (fuel btr : Nat) (s : State) (r : Nat × List Nat)
    (s' : State) (h : rcvr_datablock W fuel btr s = some (r, s')) :
    ioOnly s s' ∧ ∃ n, (r.1 = 0 ∧ s'.trace = s.trace ++ idles (n + 1)) ∨
      (r.1 = 1 ∧ s'.trace = s.trace ++ idles (n + 1)
        ++ [Ev.burst (List.replicate btr 0xFF), Ev.xfer 0xFF]) := by
  unfold rcvr_datablock at h
  dsimp only at h
  split at h
  · simp at h
  · rename_i tok s1 ht
    obtain ⟨h1, n, h2, -⟩ := rcvr_token_spec W _ fuel _ tok s1 ht
    have h0 := ioOnly_new W 200 s
    have htr0 : (TimeoutChecker.new W 200 s).2.trace = s.trace := rfl
    split at h
    · simp only [Option.some.injEq, Prod.mk.injEq] at h
      obtain ⟨rfl, rfl⟩ := h
      exact ⟨h0.itrans h1, n, Or.inl ⟨rfl, by rw [h2, htr0]⟩⟩
    · simp only [Option.some.injEq, Prod.mk.injEq] at h
      obtain ⟨rfl, rfl⟩ := h
      refine ⟨(h0.itrans h1).itrans (by cases s1; rfl), n, Or.inr ⟨rfl, ?_⟩⟩
      simp [rcvr_spi_multi, xmit_spi, h2, htr0]

/-- C9.  Round trip on one sector.  On a driver whose status has no bit set,
with the card present and not write-protected: let the card accept
WRITE_BLOCK for the address of `sector` and the data block of the pattern
`p`; in the `read` that follows on the state the `write` left, let the card be
present, accept READ_SINGLE_BLOCK for the same address and deliver a data
block whose 512 bytes `data` are the payload it was sent after the 0xFE token
of the write.  Then `write(p, sector, 1)` returns OK, `read(out, sector, 1)`
returns OK, the first 512 bytes of the buffer read are those of `p`, and the
two command packets carry the same address: the sector number for a
block-addressed card, `sector * 512 mod 2^32` otherwise. -/
theorem write_read_roundtrip (W : World) (fuel : Nat) (p out : Nat → Nat) (sector : Nat)
    (s s1 s2 s3 s4 : State) (data : List Nat)
    (hfuel : 2 ≤ fuel)
    (hp : ∀ i, i < 512 → p i < 256)
    (hstat : s._status = 0)
    (hcd : (cardPresent W (lock s)).1 = true)
    (hwp : (writeProtected W (cardPresent W (lock s)).2).1 = false)
    (hw24 : send_cmd W fuel CMD24 (cardAddr s sector) (writeEntry W s) = some (0, s1))
    (hblk : xmit_datablock W fuel p 0 0xFE s1 = some (1, s2))
    (hcd2 : (cardPresent W (lock (unlock (deselect W s2)))).1 = true)
    (hr17 : send_cmd W fuel CMD17 (cardAddr s sector)
      (cardPresent W (lock (unlock (deselect W s2)))).2 = some (0, s3))
    (hrcv : rcvr_datablock W fuel 512 s3 = some ((1, data), s4))
    (hecho : storedBlock ((unlock (deselect W s2)).trace.drop s.trace.length) = some data) :
    write W fuel p sector 1 s = some (RES_OK, unlock (deselect W s2)) ∧
    ∃ out', read W fuel out sector 1 (unlock (deselect W s2))
        = some ((RES_OK, out'), unlock (deselect W s4)) ∧
      (∀ i, i < 512 → out' i = p i) ∧
      (∃ pre post, (unlock (deselect W s2)).trace = s.trace ++ pre ++
        (cmd_packet CMD24 (if s._cardType &&& CT_BLOCK = 0 then sector * 512 % U32
          else sector)).map Ev.xfer ++ post) ∧
      (∃ pre post, (unlock (deselect W s4)).trace = (unlock (deselect W s2)).trace ++ pre ++
        (cmd_packet CMD17 (if s._cardType &&& CT_BLOCK = 0 then sector * 512 % U32
          else sector)).map Ev.xfer ++ post) := by
  have hst : s._status &&& STA_NOINIT = 0 := by rw [hstat]; rfl
  have hpr : s._status &&& STA_PROTECT = 0 := by rw [hstat]; rfl
  have haddr : cardAddr (writeEntry W s) sector = cardAddr s sector := by
    simp only [cardAddr, (writeEntry_fields W s).2]
  -- the write
  obtain ⟨hb1, preW, nW, hpreW, htr1⟩ :=
    send_cmd_accepted_trace W fuel CMD24 _ _ s1 (by decide) hw24
  obtain ⟨hio2, k, hc⟩ := xmit_datablock_spec W fuel p 0 0xFE s1 1 s2 hblk
  have htr2 : s2.trace = s1.trace ++ idles (k + 1) ++ blockEvents p 0 0xFE := by
    rcases hc with ⟨h0, -⟩ | ⟨h0, -⟩ | ⟨-, h2, -⟩
    · exact absurd h0 (by decide)
    · exact absurd h0 (by decide)
    · exact h2
  have hwrite : write W fuel p sector 1 s = some (RES_OK, unlock (deselect W s2)) := by
    rw [write_gates W fuel p sector 1 s hcd hwp hst hpr, haddr]
    simp only [write_blocks, ↓reduceIte, hw24, hblk]
    rfl
  have htrW : (unlock (deselect W s2)).trace = s.trace ++ (preW ++
      (cmd_packet CMD24 (cardAddr s sector)).map Ev.xfer ++ idles (nW + 1) ++ idles (k + 1))
      ++ Ev.xfer 0xFE :: Ev.burst (bytesAt p 0 512)
        :: [Ev.xfer 0xFF, Ev.xfer 0xFF, Ev.xfer 0xFF, Ev.cs true, Ev.xfer 0xFF] := by
    show (deselect W s2).trace = _
    rw [deselect_trace, htr2, htr1, writeEntry_trace]
    simp [blockEvents]
  -- what the card stored
  have hdata : data = bytesAt p 0 512 := by
    rw [htrW, List.append_assoc, List.drop_left, storedBlock_skip] at hecho
    · exact (Option.some.inj hecho).symm
    · intro e he
      simp only [List.mem_append, List.mem_map] at he
      rcases he with ((he | ⟨b, -, rfl⟩) | he) | he
      · exact hpreW e he
      · rfl
      · rw [idles, List.mem_replicate] at he; rw [he.2]; rfl
      · rw [idles, List.mem_replicate] at he; rw [he.2]; rfl
  -- the read
  have hsW : (unlock (deselect W s2))._status = s._status ∧
      (unlock (deselect W s2))._cardType = s._cardType := by
    have hb : busOnly (writeEntry W s) (deselect W s2) :=
      hb1.btrans (hio2.busOnly.btrans (busOnly_deselect W s2))
    have h1 := busOnly_fields hb
    have h2 := writeEntry_fields W s
    exact ⟨h1.1.trans h2.1, h1.2.trans h2.2⟩
  have hstW : (unlock (deselect W s2))._status &&& STA_NOINIT = 0 := by rw [hsW.1]; exact hst
  have haddrW : cardAddr (unlock (deselect W s2)) sector = cardAddr s sector := by
    simp only [cardAddr, hsW.2]
  obtain ⟨-, preR, nR, -, htr3⟩ :=
    send_cmd_accepted_trace W fuel CMD17 _ _ s3 (by decide) hr17
  obtain ⟨-, m, hc4⟩ := rcvr_datablock_trace W fuel 512 s3 _ s4 hrcv
  have htr4 : s4.trace = s3.trace ++ idles (m + 1)
      ++ [Ev.burst (List.replicate 512 0xFF), Ev.xfer 0xFF] := by
    rcases hc4 with ⟨h0, -⟩ | ⟨-, h4⟩
    · simp at h0
    · exact h4
  obtain ⟨f, rfl⟩ : ∃ f, fuel = f + 2 := ⟨fuel - 2, by omega⟩
  have hread : read W (f + 2) out sector 1 (unlock (deselect W s2))
      = some ((RES_OK, store out 0 data), unlock (deselect W s4)) := by
    rw [read_gates W (f + 2) out sector 1 _ hcd2 hstW, haddrW]
    simp only [read_loop, ne_eq, one_ne_zero, not_false_eq_true, ↓reduceIte, hr17, hrcv,
      not_true_eq_false]
    rfl
  have hlen := (rcvr_datablock_data W (f + 2) 512 s3 data s4 hrcv).1
  refine ⟨hwrite, store out 0 data, hread, ?_, ?_, ?_⟩
  · intro i hi
    rw [store_zero_getD out data i (by omega), hdata]
    simp only [bytesAt, List.getD_eq_getElem?_getD, List.getElem?_map, List.getElem?_range hi,
      Option.map_some', Option.getD_some, Nat.zero_add]
    exact Nat.mod_eq_of_lt (hp i hi)
  · refine ⟨preW, idles (nW + 1) ++ idles (k + 1) ++
      [Ev.xfer 0xFE, Ev.burst (bytesAt p 0 512), Ev.xfer 0xFF, Ev.xfer 0xFF, Ev.xfer 0xFF,
        Ev.cs true, Ev.xfer 0xFF], ?_⟩
    rw [htrW]
    simp only [cardAddr, List.append_assoc, List.cons_append, List.nil_append]
  · refine ⟨preR, idles (nR + 1) ++ idles (m + 1) ++
      [Ev.burst (List.replicate 512 0xFF), Ev.xfer 0xFF, Ev.cs true, Ev.xfer 0xFF], ?_⟩
    show (deselect W s4).trace = _
    rw [deselect_trace, htr4, htr3, (cardPresent_fields W _).2.2]
    simp only [cardAddr, List.append_assoc, List.cons_append, List.nil_append]

theorem pat_lt (i : Nat) : pat i < 256 :=
  Nat.lt_trans (Nat.mod_lt _ (by decide)) (by decide)

set_option maxHeartbeats 2000000 in
theorem write_read_roundtrip_witness :
    write echoCard 5 pat 7 1 ready = some (RES_OK, unlock (deselect echoCard rt2)) ∧
    ∃ out', read echoCard 5 zeros 7 1 (unlock (deselect echoCard rt2))
        = some ((RES_OK, out'), unlock (deselect echoCard rt4)) ∧
      (∀ i, i < 512 → out' i = pat i) ∧
      (∃ pre post, (unlock (deselect echoCard rt2)).trace = ready.trace ++ pre ++
        (cmd_packet CMD24 (if ready._cardType &&& CT_BLOCK = 0 then 7 * 512 % U32
          else 7)).map Ev.xfer ++ post) ∧
      (∃ pre post, (unlock (deselect echoCard rt4)).trace
        = (unlock (deselect echoCard rt2)).trace ++ pre ++
        (cmd_packet CMD17 (if ready._cardType &&& CT_BLOCK = 0 then 7 * 512 % U32
          else 7)).map Ev.xfer ++ post) :=
  write_read_roundtrip echoCard 5 pat zeros 7 ready rt1 rt2 rt3 rt4 (bytesAt pat 0 512)
    (by decide) (fun i _ => pat_lt i) (by decide) (by decide) (by decide)
    (eq_some_stateAfter _ _ (by decide!)) (eq_some_stateAfter _ _ (by decide!))
    (by decide) (eq_some_stateAfter _ _ (by decide!)) (eq_some_stateAfter _ _ (by decide!))
    (by decide!)

/-! ## `ioctl`: the sector count, version 1 layout -/

/-- The fields READ_BL_LEN (bits 83..80), C_SIZE (bits 73..62) and C_SIZE_MULT
(bits 49..47) of a 16-byte register, in terms of its bytes. -/
theorem csd_fields (b0 b1 b2 b3 b4 b5 b6 b7 b8 b9 b10 b11 b12 b13 b14 b15 : Nat)
    (h6 : b6 < 256) (h7 : b7 < 256) (h8 : b8 < 256) (h9 : b9 < 256)
    (h10 : b10 < 256) (h11 : b11 < 256) (h12 : b12 < 256) (h13 : b13 < 256)
    (h14 : b14 < 256) (h15 : b15 < 256) :
    bitField (csdValue [b0, b1, b2, b3, b4, b5, b6, b7, b8, b9, b10, b11, b12, b13, b14, b15])
        83 80 = b5 % 16 ∧
    bitField (csdValue [b0, b1, b2, b3, b4, b5, b6, b7, b8, b9, b10, b11, b12, b13, b14, b15])
        73 62 = b6 % 4 * 1024 + b7 * 4 + b8 / 64 ∧
    bitField (csdValue [b0, b1, b2, b3, b4, b5, b6, b7, b8, b9, b10, b11, b12, b13, b14, b15])
        49 47 = b9 % 4 * 2 + b10 / 128 := by
  simp only [bitField, csdValue, List.foldl_cons, List.foldl_nil]
  norm_num
  refine ⟨?_, ?_, ?_⟩ <;> omega

theorem list16_eq (l : List Nat) (h : l.length = 16) :
    l = [l.getD 0 0, l.getD 1 0, l.getD 2 0, l.getD 3 0, l.getD 4 0, l.getD 5 0, l.getD 6 0,
         l.getD 7 0, l.getD 8 0, l.getD 9 0, l.getD 10 0, l.getD 11 0, l.getD 12 0,
         l.getD 13 0, l.getD 14 0, l.getD 15 0] := by
  match l, h with
  | [_, _, _, _, _, _, _, _, _, _, _, _, _, _, _, _], _ => rfl

set_option maxRecDepth 100000 in
theorem and_128_shift : ∀ x : Nat, x < 256 → (x &&& 128) >>> 7 = x / 128 := by
  decide

/-- The version 1 branch of the sector-count computation, written with
multiplication, division and remainder; nothing is lost to the 32-bit
result. -/
theorem csd_sector_count_v1 (csd : Nat → Nat) (hver : ¬ csd 0 / 64 = 1)
    (h7 : csd 7 < 256) (h8 : csd 8 < 256) (h10 : csd 10 < 256) :
    csd_sector_count csd =
      (csd 6 % 4 * 1024 + csd 7 * 4 + csd 8 / 64 + 1) *
        2 ^ (csd 5 % 16 + (csd 9 % 4 * 2 + csd 10 / 128) + 2 - 9) := by
  have e15 : csd 5 &&& 15 = csd 5 % 16 := Nat.and_pow_two_sub_one_eq_mod (csd 5) 4
  have e3a : csd 9 &&& 3 = csd 9 % 4 := Nat.and_pow_two_sub_one_eq_mod (csd 9) 2
  have e3b : csd 6 &&& 3 = csd 6 % 4 := Nat.and_pow_two_sub_one_eq_mod (csd 6) 2
  have e128 := and_128_shift (csd 10) h10
  have hv : ¬ csd 0 >>> 6 = 1 := by rw [Nat.shiftRight_eq_div_pow]; exact hver
  unfold csd_sector_count
  rw [if_neg hv]
  simp only [e15, e3a, e3b, e128, Nat.shiftLeft_eq, Nat.shiftRight_eq_div_pow]
  have hn : (csd 5 % 16 + csd 10 / 128 + csd 9 % 4 * 2 ^ 1 + 2) % 256
      = csd 5 % 16 + (csd 9 % 4 * 2 + csd 10 / 128) + 2 := by omega
  have hc : (csd 8 / 2 ^ 6 + csd 7 * 2 ^ 2 + csd 6 % 4 * 2 ^ 10 + 1) % U32
      = csd 6 % 4 * 1024 + csd 7 * 4 + csd 8 / 64 + 1 := by
    simp only [U32]; omega
  rw [hn, hc]
  apply Nat.mod_eq_of_lt
  have hp : 2 ^ (csd 5 % 16 + (csd 9 % 4 * 2 + csd 10 / 128) + 2 - 9) ≤ 2 ^ 15 :=
    Nat.pow_le_pow_right (by decide) (by omega)
  have hs : csd 6 % 4 * 1024 + csd 7 * 4 + csd 8 / 64 + 1 ≤ 4096 := by omega
  calc _ ≤ 4096 * 2 ^ 15 := Nat.mul_le_mul hs hp
    _ < U32 := by decide

/-- C11.  On an initialised driver with a card present, when SEND_CSD is
accepted and a 16-byte register is received whose version field (byte 0
divided by 64) is not 1: with READ_BL_LEN = bits 83..80, C_SIZE = bits 73..62
and C_SIZE_MULT = bits 49..47 of the register read as a 128-bit big-endian
number, and READ_BL_LEN + C_SIZE_MULT + 2 at least 9, `ioctl(GET_SECTOR_COUNT)`
returns OK and stores exactly
`(C_SIZE + 1) * 2 ^ (READ_BL_LEN + C_SIZE_MULT + 2 - 9)`, which times 512 is
the byte capacity `(C_SIZE + 1) * 2 ^ (C_SIZE_MULT + 2) * 2 ^ READ_BL_LEN`. -/
theorem ioctl_sector_count_v1 (W : World) (fuel : Nat) (dp : Nat × Nat) (s s1 s2 : State)
    (csd : List Nat)
    (hinit : s._status &&& STA_NOINIT = 0)
    (hcd : (cardPresent W (lock s)).1 = true)
    (hcmd : send_cmd W fuel CMD9 0 (cardPresent W (lock s)).2 = some (0, s1))
    (hreg : rcvr_datablock W fuel 16 s1 = some ((1, csd), s2))
    (hver : ¬ csd.getD 0 0 / 64 = 1)
    (hexp : 9 ≤ bitField (csdValue csd) 83 80 + bitField (csdValue csd) 49 47 + 2) :
    ioctl W fuel GET_SECTOR_COUNT dp s =
      some ((RES_OK, some ((bitField (csdValue csd) 73 62 + 1) *
        2 ^ (bitField (csdValue csd) 83 80 + bitField (csdValue csd) 49 47 + 2 - 9))),
        unlock (deselect W s2)) ∧
    (bitField (csdValue csd) 73 62 + 1) *
        2 ^ (bitField (csdValue csd) 83 80 + bitField (csdValue csd) 49 47 + 2 - 9) * 512 =
      (bitField (csdValue csd) 73 62 + 1) * 2 ^ (bitField (csdValue csd) 49 47 + 2) *
        2 ^ bitField (csdValue csd) 83 80 := by
  obtain ⟨hlen, hb⟩ := rcvr_datablock_data W fuel 16 s1 csd s2 hreg
  have hg : ∀ i, i < 16 → store W.junk 0 csd i = csd.getD i 0 :=
    fun i hi => store_zero_getD W.junk csd i (by omega)
  obtain ⟨f1, f2, f3⟩ := csd_fields (csd.getD 0 0) (csd.getD 1 0) (csd.getD 2 0) (csd.getD 3 0)
    (csd.getD 4 0) (csd.getD 5 0) (csd.getD 6 0) (csd.getD 7 0) (csd.getD 8 0) (csd.getD 9 0)
    (csd.getD 10 0) (csd.getD 11 0) (csd.getD 12 0) (csd.getD 13 0) (csd.getD 14 0)
    (csd.getD 15 0) (hb 6) (hb 7) (hb 8) (hb 9) (hb 10) (hb 11) (hb 12) (hb 13) (hb 14) (hb 15)
  rw [← list16_eq csd hlen] at f1 f2 f3
  constructor
  · rw [ioctl_sector_count_eq W fuel dp s hinit hcd]
    simp only [ioctl_sector_count, hcmd, hreg, ↓reduceIte, ne_eq, one_ne_zero,
      not_false_eq_true]
    rw [csd_sector_count_v1 _ (by rw [hg 0 (by decide)]; exact hver)
      (by rw [hg 7 (by decide)]; exact hb 7) (by rw [hg 8 (by decide)]; exact hb 8)
      (by rw [hg 10 (by decide)]; exact hb 10),
      hg 5 (by decide), hg 6 (by decide), hg 7 (by decide), hg 8 (by decide),
      hg 9 (by decide), hg 10 (by decide), f1, f2, f3]
  · generalize bitField (csdValue csd) 73 62 = c at *
    generalize bitField (csdValue csd) 83 80 = r at *
    generalize bitField (csdValue csd) 49 47 = m at *
    obtain ⟨e, he⟩ : ∃ e, r + m + 2 = e + 9 := ⟨r + m + 2 - 9, by omega⟩
    have h1 : r + m + 2 - 9 = e := by omega
    have h2 : (m + 2) + r = e + 9 := by omega
    rw [h1, Nat.mul_assoc (c + 1) (2 ^ (m + 2)), ← Nat.pow_add, h2, Nat.pow_add, Nat.mul_assoc]

theorem ioctl_sector_count_v1_witness :
    ioctl (regCard csd2G) 5 GET_SECTOR_COUNT (0, 0) readyV1 =
      some ((RES_OK, some ((bitField (csdValue csd2G) 73 62 + 1) *
        2 ^ (bitField (csdValue csd2G) 83 80 + bitField (csdValue csd2G) 49 47 + 2 - 9))),
        unlock (deselect (regCard csd2G)
          (stateAfter (rcvr_datablock (regCard csd2G) 5 16
            (stateAfter (send_cmd (regCard csd2G) 5 CMD9 0
              (cardPresent (regCard csd2G) (lock readyV1)).2)))))) ∧
    (bitField (csdValue csd2G) 73 62 + 1) *
        2 ^ (bitField (csdValue csd2G) 83 80 + bitField (csdValue csd2G) 49 47 + 2 - 9) * 512 =
      (bitField (csdValue csd2G) 73 62 + 1) * 2 ^ (bitField (csdValue csd2G) 49 47 + 2) *
        2 ^ bitField (csdValue csd2G) 83 80 :=
  ioctl_sector_count_v1 (regCard csd2G) 5 (0, 0) readyV1
    (stateAfter (send_cmd (regCard csd2G) 5 CMD9 0 (cardPresent (regCard csd2G) (lock readyV1)).2))
    (stateAfter (rcvr_datablock (regCard csd2G) 5 16
      (stateAfter (send_cmd (regCard csd2G) 5 CMD9 0
        (cardPresent (regCard csd2G) (lock readyV1)).2))))
    csd2G (by decide) (by decide) (by decide!) (by decide!) (by decide) (by decide!)

/-! ## `ioctl`: erasing a sector range -/

theorem lock_trace (s : State) : (lock s).trace = s.trace := rfl

theorem cardPresent_trace (W : World) (s : State) : (cardPresent W s).2.trace = s.trace := by
  unfold cardPresent
  split <;> rfl

theorem cardPresent_keeps (W : World) (s : State) :
    (cardPresent W s).2._status = s._status ∧ (cardPresent W s).2._cardType = s._cardType ∧
    (cardPresent W s).2.csHigh = s.csHigh ∧ (cardPresent W s).2.nbus = s.nbus ∧
    (cardPresent W s).2._busy = s._busy ∧ (cardPresent W s).2._busy_check = s._busy_check := by
  unfold cardPresent
  split <;> simp [digitalRead]

/-- The nested call `ioctl(MMC_GET_CSD, csd)` never returns 0: the opcode has
no case of its own, so the call ends in NOT_READY at a gate or in the
parameter error of the default case; it adds at most a deselect to the trace. -/
theorem ioctl_get_csd_fails (W : World) (fuel : Nat) (dp : Nat × Nat) (s : State) :
    ∃ r s', ioctl_rec W fuel 0 MMC_GET_CSD dp s = some ((r, none), s') ∧ r ≠ 0 ∧
      (s'.trace = s.trace ∨ s'.trace = s.trace ++ [Ev.cs true, Ev.xfer 0xFF]) := by
  unfold ioctl_rec ioctl_with
  dsimp only
  split
  · exact ⟨_, _, rfl, by decide, Or.inl rfl⟩
  · split
    · exact ⟨_, _, rfl, by decide, Or.inl (by
        show (cardPresent W (lock s)).2.trace = _
        rw [cardPresent_trace]; rfl)⟩
    · refine ⟨RES_PARERR, unlock (deselect W (cardPresent W (lock s)).2), ?_, by decide,
        Or.inr ?_⟩
      · rw [if_neg (by decide), if_neg (by decide), if_neg (by decide), if_neg (by decide)]
      · show (deselect W (cardPresent W (lock s)).2).trace = _
        rw [deselect_trace, cardPresent_trace]; rfl

/-- The gates of `ioctl`: an uninitialised driver or an absent card gives
NOT_READY with nothing put on the bus. -/
theorem ioctl_with_gates (W : World) (fuel : Nat)
    (self : Nat → Nat × Nat → State → Option ((Nat × Option Nat) × State))
    (cmd : Nat) (dp : Nat × Nat) (s : State) :
    (s._status &&& STA_NOINIT ≠ 0 →
      ioctl_with W fuel self cmd dp s = some ((RES_NOTRDY, none), unlock (lock s))) ∧
    (s._status &&& STA_NOINIT = 0 → (cardPresent W (lock s)).1 = false →
      ioctl_with W fuel self cmd dp s
        = some ((RES_NOTRDY, none), unlock (cardPresent W (lock s)).2)) := by
  have hst : (lock s)._status = s._status := rfl
  constructor
  · intro h
    unfold ioctl_with
    dsimp only
    rw [hst, if_pos h]
  · intro h hcd
    unfold ioctl_with
    dsimp only
    rw [hst, if_neg (by rw [h]; simp), hcd]
    rfl

/-- Past its gates, `ioctl(CTRL_ERASE_SECTOR)` on a card that is not an SD
card gives ERROR after a `deselect`. -/
theorem ioctl_with_erase_not_sd (W : World) (fuel : Nat)
    (self : Nat → Nat × Nat → State → Option ((Nat × Option Nat) × State))
    (dp : Nat × Nat) (s : State)
    (hinit : s._status &&& STA_NOINIT = 0) (hcd : (cardPresent W (lock s)).1 = true)
    (hsd : (cardPresent W (lock s)).2._cardType &&& CT_SDC = 0) :
    ioctl_with W fuel self CTRL_ERASE_SECTOR dp s =
      some ((RES_ERROR, none), unlock (deselect W (cardPresent W (lock s)).2)) := by
  have hst : (lock s)._status &&& STA_NOINIT = 0 := hinit
  unfold ioctl_with
  dsimp only
  rw [if_neg (by rw [hst]; simp)]
  rw [hcd]
  simp only [Bool.not_true, Bool.false_eq_true, ↓reduceIte]
  rw [if_neg (by decide), if_neg (by decide), if_neg (by decide), if_pos hsd]

/-- Past its gates, `ioctl(CTRL_ERASE_SECTOR)` on an SD card whose nested CSD
read fails gives ERROR after a `deselect`. -/
theorem ioctl_with_erase_csd_fails (W : World) (fuel : Nat)
    (self : Nat → Nat × Nat → State → Option ((Nat × Option Nat) × State))
    (dp : Nat × Nat) (s : State)
    (hinit : s._status &&& STA_NOINIT = 0) (hcd : (cardPresent W (lock s)).1 = true)
    (hsd : (cardPresent W (lock s)).2._cardType &&& CT_SDC ≠ 0)
    (r : Nat) (out : Option Nat) (s1 : State)
    (hself : self MMC_GET_CSD dp (cardPresent W (lock s)).2 = some ((r, out), s1))
    (hr : r ≠ 0) :
    ioctl_with W fuel self CTRL_ERASE_SECTOR dp s =
      some ((RES_ERROR, none), unlock (deselect W s1)) := by
  have hst : (lock s)._status &&& STA_NOINIT = 0 := hinit
  unfold ioctl_with
  dsimp only
  rw [if_neg (by rw [hst]; simp)]
  rw [hcd]
  simp only [Bool.not_true, Bool.false_eq_true, ↓reduceIte]
  rw [if_neg (by decide), if_neg (by decide), if_neg (by decide), if_neg hsd,
    hself]
  dsimp only
  rw [if_pos hr]

/-- C12 fails on the code.  For every driver state, card, clock and sector
pair, `ioctl(CTRL_ERASE_SECTOR)` returns, its result is NOT_READY or ERROR and
never OK, it stores nothing, and all it puts on the bus are idle events (the
deselects): no ERASE_BLOCK_START, ERASE_BLOCK_END or ERASE is ever sent,
whether or not the card is an SD card. -/
theorem ioctl_erase_never_ok (W : World) (fuel : Nat) (dp : Nat × Nat) (s : State) :
    ∃ res s' ext, ioctl W fuel CTRL_ERASE_SECTOR dp s = some ((res, none), s') ∧
      (res = RES_NOTRDY ∨ res = RES_ERROR) ∧
      s'.trace = s.trace ++ ext ∧ ext.all Ev.isIdle = true := by
  have hio : ioctl W fuel CTRL_ERASE_SECTOR dp s
      = ioctl_with W fuel (ioctl_rec W fuel 0) CTRL_ERASE_SECTOR dp s := rfl
  have ht : (cardPresent W (lock s)).2.trace = s.trace := by
    rw [cardPresent_trace]; rfl
  rw [hio]
  by_cases hinit : s._status &&& STA_NOINIT = 0
  · cases hcd : (cardPresent W (lock s)).1 with
    | false =>
      rw [(ioctl_with_gates W fuel _ CTRL_ERASE_SECTOR dp s).2 hinit hcd]
      exact ⟨RES_NOTRDY, _, [], rfl, Or.inl rfl, by
        show (cardPresent W (lock s)).2.trace = _
        rw [ht, List.append_nil], rfl⟩
    | true =>
      by_cases hsd : (cardPresent W (lock s)).2._cardType &&& CT_SDC = 0
      · rw [ioctl_with_erase_not_sd W fuel _ dp s hinit hcd hsd]
        refine ⟨RES_ERROR, _, [Ev.cs true, Ev.xfer 0xFF], rfl, Or.inr rfl, ?_, by decide⟩
        show (deselect W (cardPresent W (lock s)).2).trace = _
        rw [deselect_trace, ht]
      · obtain ⟨r, s1, h1, hr, htr⟩ :=
          ioctl_get_csd_fails W fuel dp (cardPresent W (lock s)).2
        rw [ioctl_with_erase_csd_fails W fuel _ dp s hinit hcd hsd r none s1 h1 hr]
        rcases htr with htr | htr
        · refine ⟨RES_ERROR, _, [Ev.cs true, Ev.xfer 0xFF], rfl, Or.inr rfl, ?_, by decide⟩
          show (deselect W s1).trace = _
          rw [deselect_trace, htr, ht]
        · refine ⟨RES_ERROR, _, [Ev.cs true, Ev.xfer 0xFF, Ev.cs true, Ev.xfer 0xFF], rfl,
            Or.inr rfl, ?_, by decide⟩
          show (deselect W s1).trace = _
          rw [deselect_trace, htr, ht]
          simp
  · rw [(ioctl_with_gates W fuel _ CTRL_ERASE_SECTOR dp s).1 hinit]
    exact ⟨RES_NOTRDY, _, [], rfl, Or.inl rfl, by
      show s.trace = s.trace ++ []
      rw [List.append_nil], rfl⟩

/-- On the initialised driver `ready` (a block-addressed SD card) with a card
that answers like `regCard`, erasing sectors 0 to 7 returns ERROR after two
deselects. -/
theorem ioctl_erase_run :
    (ioctl (regCard csd4G) 5 CTRL_ERASE_SECTOR (0, 7) ready).map
      (fun r => (r.1, r.2.trace.drop ready.trace.length))
      = some ((RES_ERROR, none), [Ev.cs true, Ev.xfer 0xFF, Ev.cs true, Ev.xfer 0xFF]) := by
  decide!

/-! ## `read`: the sector loop has no exit on failure -/

/-- The token `rcvr_token` returns is a byte the card sent. -/
theorem rcvr_token_rx (W : World) (t : TimeoutChecker) (fuel : Nat) (s : State)
    (tok : Nat) (s' : State) (h : rcvr_token W t fuel s = some (tok, s')) :
    ∃ j, tok = W.rx j := by
  induction fuel generalizing s with
  | zero => simp [rcvr_token] at h
  | succ k ih =>
    simp only [rcvr_token] at h
    split at h
    · split at h
      · exact ih _ h
      · simp only [Option.some.injEq, Prod.mk.injEq] at h
        exact ⟨s.nbus, by rw [← h.1]; rfl⟩
    · simp only [Option.some.injEq, Prod.mk.injEq] at h
      exact ⟨s.nbus, by rw [← h.1]; rfl⟩

/-- A block is received only after the card has sent the data token 0xFE. -/
theorem rcvr_datablock_ok_token (W : World) (fuel btr : Nat) (s : State) (ok : Nat)
    (data : List Nat) (s' : State)
    (h : rcvr_datablock W fuel btr s = some ((ok, data), s')) (hok : ok ≠ 0) :
    ∃ j, W.rx j = 0xFE := by
  unfold rcvr_datablock at h
  dsimp only at h
  split at h
  · simp at h
  · rename_i tok s1 ht
    obtain ⟨j, hj⟩ := rcvr_token_rx W _ fuel _ tok s1 ht
    split at h
    · simp only [Option.some.injEq, Prod.mk.injEq] at h
      exact absurd h.1.1.symm hok
    · rename_i hne
      exact ⟨j, by rw [← hj]; exact not_not.mp hne⟩

/-- On a card that never sends the data token, the sector loop of `read`
entered with sectors left never exits, however many rounds it is given. -/
theorem read_loop_no_exit (W : World) (fuel sector : Nat) (hrx : ∀ j, W.rx j ≠ 0xFE)
    (k : Nat) (buff : Nat → Nat) (count rd : Nat) (s : State) (hc : count ≠ 0) :
    read_loop W fuel sector k buff count rd s = none := by
  induction k generalizing s with
  | zero => rfl
  | succ k ih =>
    rw [read_loop, if_pos hc]
    split
    · rfl
    · split
      · split
        · rfl
        · rename_i ok data s2 hd
          split
          · rename_i hok
            obtain ⟨j, hj⟩ := rcvr_datablock_ok_token W fuel 512 _ ok data s2 hd hok
            exact absurd hj (hrx j)
          · exact ih _
      · exact ih _

/-- On a card that sends nothing but 0xFF, every READ_SINGLE_BLOCK exchange
does end, after 20 bus bytes, with the response 0xFF: what never ends is the
sector loop around it. -/
theorem send_cmd_silent_card (W : World) (fuel arg : Nat) (s : State)
    (hrx : ∀ j, W.rx j = 0xFF) :
    ∃ s', send_cmd W (fuel + 1) CMD17 arg s = some (0xFF, s') ∧ s'.nbus = s.nbus + 20 := by
  rw [send_cmd_untagged W _ CMD17 arg s (by decide)]
  have h12 : CMD17 ≠ CMD12 := by decide
  simp [wait_ready, wait_ready_loop, TimeoutChecker.new,
    TimeoutChecker.start, millis, xmit_spi, hrx, send_cmd_tail, select, deselect, assertCS,
    deassertCS, xmit_list, cmd_packet, recv_resp, h12]

/-- C13 fails on the code.  On a present, initialised driver, with at least one
sector asked for and a card that never sends the data-start token 0xFE (in
particular a card that sends nothing but 0xFF, so that READ_SINGLE_BLOCK is
never accepted), `read` does not return, whatever the clock does and however
many rounds its loops are given: the sector loop repeats the command for
ever. -/
theorem read_never_returns (W : World) (fuel : Nat) (buff : Nat → Nat) (sector count : Nat)
    (s : State) (hrx : ∀ j, W.rx j ≠ 0xFE)
    (hcd : (cardPresent W (lock s)).1 = true) (hst : s._status &&& STA_NOINIT = 0)
    (hc : count ≠ 0) :
    read W fuel buff sector count s = none := by
  rw [read_gates W fuel buff sector count s hcd hst,
    read_loop_no_exit W fuel _ hrx fuel buff count 0 _ hc]

theorem read_never_returns_witness : read idleCard 5 zeros 0 1 ready = none :=
  read_never_returns idleCard 5 zeros 0 1 ready
    (by intro j; simp [World.rx, idleCard]) (by decide) (by decide) (by decide)

/-! ## The driver after the card was seen missing -/

theorem cardPresent_lock (W : World) (s : State) :
    (cardPresent W (lock s)).1 = (cardPresent W s).1 := by
  unfold cardPresent
  simp only [lock, setSPI, digitalRead]
  split <;> rfl

theorem cardPresent_status (W : World) (s : State) :
    (cardPresent W s).2._status = s._status := by
  unfold cardPresent
  split <;> rfl

/-- C14 fails on the code.  When the card-present sensor reports no card:
`status` returns NO_MEDIA and stores exactly NO_MEDIA, so NOT_INITIALIZED is
clear afterwards whatever the status was before; `read`, `write` and `ioctl`
return NOT_READY, ERROR and NOT_READY and leave the stored status as it was,
so NOT_INITIALIZED is not set by them either; and a `read` made after that
`status` call, once the sensor reports a card again, never returns NOT_READY:
when it returns, the result is OK or ERROR. -/
theorem no_card_stays_ready (W : World) (fuel : Nat) (buff : Nat → Nat)
    (sector count cmd : Nat) (dp : Nat × Nat) (s : State)
    (habs : (cardPresent W s).1 = false) :
    (status W s).1 = STA_NODISK ∧ (status W s).2._status = STA_NODISK ∧
    (status W s).2._status &&& STA_NOINIT = 0 ∧
    (∃ s', read W fuel buff sector count s = some ((RES_NOTRDY, buff), s') ∧
      s'._status = s._status) ∧
    (∃ s', write W fuel buff sector count s = some (RES_ERROR, s') ∧
      s'._status = s._status) ∧
    (∃ s', ioctl W fuel cmd dp s = some ((RES_NOTRDY, none), s') ∧
      s'._status = s._status) ∧
    (∀ r b s2, (cardPresent W (lock (status W s).2)).1 = true →
      read W fuel buff sector count (status W s).2 = some ((r, b), s2) →
      r = RES_OK ∨ r = RES_ERROR) := by
  have hl : (cardPresent W (lock s)).1 = false := by rw [cardPresent_lock, habs]
  have hls : (cardPresent W (lock s)).2._status = s._status := by
    rw [cardPresent_status]; rfl
  have h1 : status W s = (STA_NODISK, { (cardPresent W s).2 with _status := STA_NODISK }) := by
    unfold status
    simp only [habs, Bool.not_false, ↓reduceIte]
  have h0 : (status W s).2._status &&& STA_NOINIT = 0 := by
    rw [h1]
    show STA_NODISK &&& STA_NOINIT = 0
    decide
  refine ⟨by rw [h1], by rw [h1], h0, ?_, ?_, ?_, ?_⟩
  · refine ⟨unlock (cardPresent W (lock s)).2, ?_, hls⟩
    unfold read
    simp only [hl, Bool.not_false, true_or, ↓reduceIte]
  · refine ⟨unlock (cardPresent W (lock s)).2, ?_, hls⟩
    unfold write
    simp only [hl, Bool.not_false, ↓reduceIte]
  · have hio : ioctl W fuel cmd dp s = ioctl_with W fuel (ioctl_rec W fuel 0) cmd dp s := rfl
    rw [hio]
    by_cases hinit : s._status &&& STA_NOINIT = 0
    · exact ⟨_, (ioctl_with_gates W fuel _ cmd dp s).2 hinit hl, hls⟩
    · exact ⟨_, (ioctl_with_gates W fuel _ cmd dp s).1 hinit, rfl⟩
  · intro r b s2 hcd hrd
    rw [read_gates W fuel buff sector count _ hcd h0] at hrd
    split at hrd
    · simp at hrd
    · simp only [Option.some.injEq, Prod.mk.injEq] at hrd
      rw [← hrd.1.1]
      split
      · exact Or.inr rfl
      · exact Or.inl rfl

theorem no_card_stays_ready_witness :
    (cardPresent reinserted readyCd).1 = false ∧
    (status reinserted readyCd).2._status = STA_NODISK ∧
    (∃ s', read reinserted 5 zeros 0 1 readyCd = some ((RES_NOTRDY, zeros), s') ∧
      s'._status = readyCd._status) :=
  ⟨by decide,
   (no_card_stays_ready reinserted 5 zeros 0 1 CTRL_SYNC (0, 0) readyCd (by decide)).2.1,
   (no_card_stays_ready reinserted 5 zeros 0 1 CTRL_SYNC (0, 0) readyCd (by decide)).2.2.2.1⟩

/-- The run behind C14: on the initialised driver `readyCd`, `status` is called
while the sensor reports no card; it stores NO_MEDIA.  With the card back,
`read` of sector 0 then returns OK after sending READ_SINGLE_BLOCK and
receiving the 512-byte block, and `ioctl(CTRL_SYNC)` returns OK after
selecting the card: neither returns NOT_READY and both use the bus. -/
theorem status_no_card_then_read :
    (status reinserted readyCd).2._status = STA_NODISK ∧
    (read reinserted 5 zeros 0 1 (status reinserted readyCd).2).map
        (fun r => (r.1.1, r.2.trace.drop (status reinserted readyCd).2.trace.length,
          bytesAt r.1.2 0 4, r.2.nbus))
      = some (RES_OK,
          [Ev.xfer 0xFF, Ev.cs true, Ev.xfer 0xFF, Ev.cs false, Ev.xfer 0xFF, Ev.xfer 0xFF]
            ++ (cmd_packet CMD17 0).map Ev.xfer
            ++ [Ev.xfer 0xFF, Ev.xfer 0xFF, Ev.burst (List.replicate 512 0xFF), Ev.xfer 0xFF,
                Ev.cs true, Ev.xfer 0xFF],
          [0x40, 0x0E, 0x00, 0x32], 526) ∧
    (ioctl reinserted 5 CTRL_SYNC (0, 0) (status reinserted readyCd).2).map
        (fun r => (r.1, r.2.trace.drop (status reinserted readyCd).2.trace.length))
      = some ((RES_OK, none),
          [Ev.cs false, Ev.xfer 0xFF, Ev.xfer 0xFF, Ev.cs true, Ev.xfer 0xFF]) := by
  refine ⟨by decide!, by decide!, by decide!⟩

/-! ## `write` on a protected card -/

/-- The two sensor readings at the head of `write` touch neither the bus nor
the driver's record of the card. -/
theorem write_sensors_frame (W : World) (s : State) :
    (cardPresent W (lock s)).2.nbus = s.nbus ∧ (cardPresent W (lock s)).2.csHigh = s.csHigh ∧
    (writeEntry W s).nbus = s.nbus ∧ (writeEntry W s).csHigh = s.csHigh ∧
    (writeEntry W s).trace = s.trace ∧ (writeEntry W s)._status = s._status ∧
    (writeEntry W s)._cardType = s._cardType := by
  unfold writeEntry writeProtected cardPresent
  cases s
  simp only [lock, setSPI, digitalRead]
  split <;> split <;> simp

/-- C15.  A `write` on a present card returns WRITE_PROTECTED when the
write-protect sensor reports protection, and also when the sensor does not
but the driver is initialised and its stored status has WRITE_PROTECTED set;
in both cases, for every buffer, sector and count, nothing is put on the bus
(the byte count, the trace and the chip-select line are as before) and the
stored status and the card type are unchanged. -/
theorem write_protected (W : World) (fuel : Nat) (buff : Nat → Nat) (sector count : Nat)
    (s : State)
    (hcd : (cardPresent W (lock s)).1 = true)
    (hp : (writeProtected W (cardPresent W (lock s)).2).1 = true ∨
      (s._status &&& STA_NOINIT = 0 ∧ s._status &&& STA_PROTECT ≠ 0)) :
    ∃ s', write W fuel buff sector count s = some (RES_WRPRT, s') ∧
      s'.nbus = s.nbus ∧ s'.trace = s.trace ∧ s'.csHigh = s.csHigh ∧
      s'._status = s._status ∧ s'._cardType = s._cardType := by
  obtain ⟨-, -, h3, h4, h5, h6, h7⟩ := write_sensors_frame W s
  refine ⟨unlock (writeEntry W s), ?_, h3, h5, h4, h6, h7⟩
  cases hwp : (writeProtected W (cardPresent W (lock s)).2).1 with
  | true =>
    unfold write
    simp only [hcd, Bool.not_true, Bool.false_eq_true, ↓reduceIte, hwp, writeEntry]
  | false =>
    rw [hwp] at hp
    obtain ⟨hst, hpr⟩ := hp.resolve_left (by decide)
    rw [← h6] at hst hpr
    unfold writeEntry at hst hpr
    unfold write
    simp only [hcd, Bool.not_true, Bool.false_eq_true, ↓reduceIte, hwp, hst, hpr, ne_eq,
      not_true_eq_false, not_false_eq_true, writeEntry]

theorem write_protected_witness :
    (∃ s', write pinsHigh 5 zeros 0 1 (enableWriteProtectDetect 7 true ready)
        = some (RES_WRPRT, s') ∧
      s'.nbus = (enableWriteProtectDetect 7 true ready).nbus ∧
      s'.trace = (enableWriteProtectDetect 7 true ready).trace ∧
      s'.csHigh = (enableWriteProtectDetect 7 true ready).csHigh ∧
      s'._status = (enableWriteProtectDetect 7 true ready)._status ∧
      s'._cardType = (enableWriteProtectDetect 7 true ready)._cardType) ∧
    (∃ s', write idleCard 5 zeros 0 1 { ready with _status := STA_PROTECT }
        = some (RES_WRPRT, s') ∧
      s'.nbus = ready.nbus ∧ s'.trace = ready.trace ∧ s'.csHigh = ready.csHigh ∧
      s'._status = STA_PROTECT ∧ s'._cardType = ready._cardType) :=
  ⟨write_protected pinsHigh 5 zeros 0 1 (enableWriteProtectDetect 7 true ready)
      (by decide) (Or.inl (by decide)),
   write_protected idleCard 5 zeros 0 1 { ready with _status := STA_PROTECT }
      (by decide) (Or.inr ⟨by decide, by decide⟩)⟩

/-! ## What the public operations leave behind -/

theorem busOnly_latch {a b : State} (h : busOnly a b) :
    b._busy = a._busy ∧ b._busy_check = a._busy_check := by
  rw [h]; exact ⟨rfl, rfl⟩

theorem rcvr_datablock_busOnly (W : World) (fuel btr : Nat) (s : State) (r : Nat × List Nat)
    (s' : State) (h : rcvr_datablock W fuel btr s = some (r, s')) : busOnly s s' :=
  (rcvr_datablock_trace W fuel btr s r s' h).1.busOnly

theorem xmit_datablock_busOnly (W : World) (fuel : Nat) (buff : Nat → Nat) (off token : Nat)
    (s : State) (ok : Nat) (s' : State)
    (h : xmit_datablock W fuel buff off token s = some (ok, s')) : busOnly s s' :=
  (xmit_datablock_spec W fuel buff off token s ok s' h).1.busOnly

theorem read_loop_busOnly (W : World) (fuel sector k : Nat) (buff : Nat → Nat) (count rd : Nat)
    (s : State) (r : (Nat → Nat) × Nat) (s' : State)
    (h : read_loop W fuel sector k buff count rd s = some (r, s')) : busOnly s s' := by
  induction k generalizing buff count rd s with
  | zero => simp [read_loop] at h
  | succ k ih =>
    rw [read_loop] at h
    split at h
    · split at h
      · simp at h
      · rename_i r1 s1 hc
        have h1 := send_cmd_busOnly W fuel CMD17 sector s r1 s1 hc
        split at h
        · split at h
          · simp at h
          · rename_i ok data s2 hd
            have h2 := rcvr_datablock_busOnly W fuel 512 s1 (ok, data) s2 hd
            split at h
            · exact (h1.btrans h2).btrans (ih _ _ _ _ h)
            · exact (h1.btrans h2).btrans (ih _ _ _ _ h)
        · exact h1.btrans (ih _ _ _ _ h)
    · simp only [Option.some.injEq, Prod.mk.injEq] at h
      rw [← h.2]
      exact busOnly.brefl s

theorem write_blocks_busOnly (W : World) (fuel : Nat) (buff : Nat → Nat) (sector count : Nat)
    (s : State) (c : Nat) (s' : State)
    (h : write_blocks W fuel buff sector count s = some (c, s')) : busOnly s s' := by
  unfold write_blocks at h
  split at h
  · split at h
    · simp at h
    · rename_i r1 s1 hc
      have h1 := send_cmd_busOnly W fuel CMD24 sector s r1 s1 hc
      split at h
      · split at h
        · simp at h
        · rename_i ok s2 hx
          simp only [Option.some.injEq, Prod.mk.injEq] at h
          rw [← h.2]
          exact h1.btrans (xmit_datablock_busOnly W fuel buff 0 0xFE s1 ok s2 hx)
      · simp only [Option.some.injEq, Prod.mk.injEq] at h
        rw [← h.2]; exact h1
  · dsimp only at h
    split at h
    · simp at h
    · rename_i sp hp
      have h0 : busOnly s sp := by
        split at hp
        · cases hq : send_cmd W fuel ACMD23 count s with
          | none => rw [hq] at hp; simp at hp
          | some p =>
            obtain ⟨r, s1⟩ := p
            rw [hq] at hp
            simp only [Option.map_some', Option.some.injEq] at hp
            rw [← hp]
            exact send_cmd_busOnly W fuel ACMD23 count s r s1 hq
        · simp only [Option.some.injEq] at hp
          rw [← hp]; exact busOnly.brefl s
      split at h
      · simp at h
      · rename_i r1 s1 hc
        have h1 := send_cmd_busOnly W fuel CMD25 sector sp r1 s1 hc
        split at h
        · split at h
          · simp at h
          · rename_i left s2 hw
            have h2 := (write_loop_spec W fuel buff fuel 0 count s1 left s2 hw).1.busOnly
            split at h
            · simp at h
            · rename_i ok s3 hx
              simp only [Option.some.injEq, Prod.mk.injEq] at h
              rw [← h.2]
              exact ((h0.btrans h1).btrans h2).btrans
                (xmit_datablock_busOnly W fuel buff 0 0xFD s2 ok s3 hx)
        · simp only [Option.some.injEq, Prod.mk.injEq] at h
          rw [← h.2]; exact h0.btrans h1

theorem ioctl_sector_count_busOnly (W : World) (fuel : Nat) (s : State)
    (r : Nat × Option Nat) (s' : State)
    (h : ioctl_sector_count W fuel s = some (r, s')) : busOnly s s' := by
  unfold ioctl_sector_count at h
  split at h
  · simp at h
  · rename_i r1 s1 hc
    have h1 := send_cmd_busOnly W fuel CMD9 0 s r1 s1 hc
    split at h
    · split at h
      · simp at h
      · rename_i ok data s2 hd
        have h2 := rcvr_datablock_busOnly W fuel 16 s1 (ok, data) s2 hd
        split at h <;>
        · simp only [Option.some.injEq, Prod.mk.injEq] at h
          rw [← h.2]; exact h1.btrans h2
    · simp only [Option.some.injEq, Prod.mk.injEq] at h
      rw [← h.2]; exact h1

theorem ioctl_block_size_busOnly (W : World) (fuel : Nat) (s : State)
    (r : Nat × Option Nat) (s' : State)
    (h : ioctl_block_size W fuel s = some (r, s')) : busOnly s s' := by
  unfold ioctl_block_size at h
  split at h
  · split at h
    · simp at h
    · rename_i r1 s1 hc
      have h1 := send_cmd_busOnly W fuel ACMD13 0 s r1 s1 hc
      split at h
      · dsimp only at h
        split at h
        · simp at h
        · rename_i ok data s2 hd
          have h2 := rcvr_datablock_busOnly W fuel 16 _ (ok, data) s2 hd
          have hx := (ioOnly_xmit_spi W 0xFF s1).busOnly
          split at h
          · simp only [Option.some.injEq, Prod.mk.injEq] at h
            rw [← h.2]
            exact ((h1.btrans hx).btrans h2).btrans (ioOnly_idle_clocks W _ s2).busOnly
          · simp only [Option.some.injEq, Prod.mk.injEq] at h
            rw [← h.2]; exact (h1.btrans hx).btrans h2
      · simp only [Option.some.injEq, Prod.mk.injEq] at h
        rw [← h.2]; exact h1
  · split at h
    · simp at h
    · rename_i r1 s1 hc
      have h1 := send_cmd_busOnly W fuel CMD9 0 s r1 s1 hc
      split at h
      · split at h
        · simp at h
        · rename_i ok data s2 hd
          have h2 := rcvr_datablock_busOnly W fuel 16 s1 (ok, data) s2 hd
          split at h <;>
          · simp only [Option.some.injEq, Prod.mk.injEq] at h
            rw [← h.2]; exact h1.btrans h2
      · simp only [Option.some.injEq, Prod.mk.injEq] at h
        rw [← h.2]; exact h1

theorem ioctl_erase_cmds_busOnly (W : World) (fuel : Nat) (dp : Nat × Nat) (s : State)
    (r : Nat) (s' : State)
    (h : ioctl_erase_cmds W fuel dp s = some (r, s')) : busOnly s s' := by
  unfold ioctl_erase_cmds at h
  dsimp only at h
  split at h
  · simp at h
  · rename_i r1 s1 hc
    have h1 := send_cmd_busOnly W fuel CMD32 _ s r1 s1 hc
    split at h
    · simp only [Option.some.injEq, Prod.mk.injEq] at h
      rw [← h.2]; exact h1
    · split at h
      · simp at h
      · rename_i r2 s2 hc2
        have h2 := send_cmd_busOnly W fuel CMD33 _ s1 r2 s2 hc2
        split at h
        · simp only [Option.some.injEq, Prod.mk.injEq] at h
          rw [← h.2]; exact h1.btrans h2
        · split at h
          · simp at h
          · rename_i r3 s3 hc3
            have h3 := send_cmd_busOnly W fuel CMD38 0 s2 r3 s3 hc3
            split at h
            · simp only [Option.some.injEq, Prod.mk.injEq] at h
              rw [← h.2]; exact (h1.btrans h2).btrans h3
            · split at h
              · simp at h
              · rename_i ok s4 hw
                have h4 := (wait_ready_spec W fuel 30000 s3 ok s4 hw).1.busOnly
                simp only [Option.some.injEq, Prod.mk.injEq] at h
                rw [← h.2]; exact ((h1.btrans h2).btrans h3).btrans h4

/-- The exit of an operation past its gates: a state reached from the locked
entry state by bus traffic, then `deselect` and `unlock`. -/
theorem leftIdle_of_busOnly (W : World) (s a b : State) (ha : a._busy_check = true)
    (h : busOnly a b) : leftIdle s (unlock (deselect W b)) := by
  refine ⟨rfl, ?_, Or.inl rfl⟩
  show (deselect W b)._busy_check = true
  rw [(busOnly_latch (busOnly_deselect W b)).2, (busOnly_latch h).2, ha]

theorem cardPresent_lock_latch (W : World) (s : State) :
    (cardPresent W (lock s)).2._busy_check = true ∧
    (cardPresent W (lock s)).2.csHigh = s.csHigh := by
  obtain ⟨-, -, h3, -, -, h6⟩ := cardPresent_keeps W (lock s)
  exact ⟨by rw [h6]; rfl, by rw [h3]; rfl⟩

theorem read_leftIdle (W : World) (fuel : Nat) (buff : Nat → Nat) (sector count : Nat)
    (s : State) (r : Nat × (Nat → Nat)) (s' : State)
    (h : read W fuel buff sector count s = some (r, s')) : leftIdle s s' := by
  obtain ⟨hl, hc⟩ := cardPresent_lock_latch W s
  unfold read at h
  dsimp only at h
  split at h
  · simp only [Option.some.injEq, Prod.mk.injEq] at h
    rw [← h.2]
    exact ⟨rfl, hl, Or.inr hc⟩
  · split at h
    · simp at h
    · rename_i b c s1 hr
      simp only [Option.some.injEq, Prod.mk.injEq] at h
      rw [← h.2]
      exact leftIdle_of_busOnly W s _ s1 hl (read_loop_busOnly W fuel _ fuel buff count 0 _ _ s1 hr)

theorem writeEntry_latch (W : World) (s : State) :
    (writeEntry W s)._busy_check = true ∧ (writeEntry W s).csHigh = s.csHigh := by
  unfold writeEntry writeProtected cardPresent
  cases s
  simp only [lock, setSPI, digitalRead]
  split <;> split <;> simp

theorem write_leftIdle (W : World) (fuel : Nat) (buff : Nat → Nat) (sector count : Nat)
    (s : State) (r : Nat) (s' : State)
    (h : write W fuel buff sector count s = some (r, s')) : leftIdle s s' := by
  obtain ⟨hl, hc⟩ := cardPresent_lock_latch W s
  obtain ⟨hl2, hc2⟩ := writeEntry_latch W s
  unfold writeEntry at hl2 hc2
  unfold write at h
  dsimp only at h
  split at h
  · simp only [Option.some.injEq, Prod.mk.injEq] at h
    rw [← h.2]
    exact ⟨rfl, hl, Or.inr hc⟩
  · split at h
    · simp only [Option.some.injEq, Prod.mk.injEq] at h
      rw [← h.2]
      exact ⟨rfl, hl2, Or.inr hc2⟩
    · split at h
      · simp only [Option.some.injEq, Prod.mk.injEq] at h
        rw [← h.2]
        exact ⟨rfl, hl2, Or.inr hc2⟩
      · split at h
        · simp only [Option.some.injEq, Prod.mk.injEq] at h
          rw [← h.2]
          exact ⟨rfl, hl2, Or.inr hc2⟩
        · split at h
          · simp at h
          · rename_i c s1 hw
            simp only [Option.some.injEq, Prod.mk.injEq] at h
            rw [← h.2]
            exact leftIdle_of_busOnly W s _ s1 hl2
              (write_blocks_busOnly W fuel buff _ count _ c s1 hw)

theorem ioctl_with_leftIdle (W : World) (fuel : Nat)
    (self : Nat → Nat × Nat → State → Option ((Nat × Option Nat) × State))
    (cmd : Nat) (dp : Nat × Nat) (s : State) (res : Nat × Option Nat) (s' : State)
    (hself : ∀ c d a r b, self c d a = some (r, b) → b._busy_check = true)
    (h : ioctl_with W fuel self cmd dp s = some (res, s')) : leftIdle s s' := by
  obtain ⟨hl, hc⟩ := cardPresent_lock_latch W s
  by_cases hinit : s._status &&& STA_NOINIT = 0
  · cases hcd : (cardPresent W (lock s)).1 with
    | false =>
      rw [(ioctl_with_gates W fuel self cmd dp s).2 hinit hcd] at h
      simp only [Option.some.injEq, Prod.mk.injEq] at h
      rw [← h.2]
      exact ⟨rfl, hl, Or.inr hc⟩
    | true =>
      have hst : (lock s)._status &&& STA_NOINIT = 0 := hinit
      unfold ioctl_with at h
      dsimp only at h
      rw [if_neg (by rw [hst]; simp)] at h
      rw [hcd] at h
      simp only [Bool.not_true, Bool.false_eq_true, ↓reduceIte] at h
      split at h
      · simp at h
      · rename_i res2 s2 hb
        simp only [Option.some.injEq, Prod.mk.injEq] at h
        rw [← h.2]
        refine ⟨rfl, ?_, Or.inl rfl⟩
        show (deselect W s2)._busy_check = true
        rw [(busOnly_latch (busOnly_deselect W s2)).2]
        split at hb
        · cases hq : select W fuel (cardPresent W (lock s)).2 with
          | none => rw [hq] at hb; simp at hb
          | some p =>
            obtain ⟨r1, s1⟩ := p
            rw [hq] at hb
            simp only [Option.map_some', Option.some.injEq, Prod.mk.injEq] at hb
            rw [← hb.2, (busOnly_latch (select_spec W fuel _ r1 s1 hq).1).2, hl]
        · split at hb
          · rw [(busOnly_latch (ioctl_sector_count_busOnly W fuel _ res2 s2 hb)).2, hl]
          · split at hb
            · rw [(busOnly_latch (ioctl_block_size_busOnly W fuel _ res2 s2 hb)).2, hl]
            · split at hb
              · split at hb
                · simp only [Option.some.injEq, Prod.mk.injEq] at hb
                  rw [← hb.2, hl]
                · split at hb
                  · simp at hb
                  · rename_i r1 out s1 hs
                    have h1 := hself _ _ _ _ _ hs
                    split at hb
                    · simp only [Option.some.injEq, Prod.mk.injEq] at hb
                      rw [← hb.2, h1]
                    · split at hb
                      · simp only [Option.some.injEq, Prod.mk.injEq] at hb
                        rw [← hb.2, h1]
                      · cases hq : ioctl_erase_cmds W fuel dp s1 with
                        | none => rw [hq] at hb; simp at hb
                        | some p =>
                          obtain ⟨r2, s3⟩ := p
                          rw [hq] at hb
                          simp only [Option.map_some', Option.some.injEq, Prod.mk.injEq] at hb
                          rw [← hb.2, (busOnly_latch
                            (ioctl_erase_cmds_busOnly W fuel dp s1 r2 s3 hq)).2, h1]
              · simp only [Option.some.injEq, Prod.mk.injEq] at hb
                rw [← hb.2, hl]
  · rw [(ioctl_with_gates W fuel self cmd dp s).1 hinit] at h
    simp only [Option.some.injEq, Prod.mk.injEq] at h
    rw [← h.2]
    exact ⟨rfl, rfl, Or.inr rfl⟩

theorem ioctl_leftIdle (W : World) (fuel : Nat) (cmd : Nat) (dp : Nat × Nat) (s : State)
    (res : Nat × Option Nat) (s' : State)
    (h : ioctl W fuel cmd dp s = some (res, s')) : leftIdle s s' :=
  ioctl_with_leftIdle W fuel (ioctl_rec W fuel 0) cmd dp s res s'
    (fun c d a r b hs =>
      (ioctl_with_leftIdle W fuel (fun _ _ _ => none) c d a r b
        (fun _ _ _ _ _ hn => by simp at hn) hs).2.1) h

theorem init_finish_latch (W : World) (ty : Nat) (s : State) :
    (init_finish W ty s).2._busy_check = s._busy_check := by
  unfold init_finish writeProtected
  cases s
  simp only [deselect, deassertCS, xmit_spi, digitalRead, activateHighSpeed]
  split <;> split <;> split <;> simp_all

theorem initialize_card_leftIdle (W : World) (fuel : Nat) (s : State) (st : Nat) (s' : State)
    (h : initialize_card W fuel s = some (st, s')) : leftIdle s s' := by
  obtain ⟨-, -, h3, -, -, h6⟩ := cardPresent_keeps W (activateLowSpeed (lock s))
  cases hcd : (cardPresent W (activateLowSpeed (lock s))).1 with
  | false =>
    unfold initialize_card at h
    simp only [hcd, Bool.not_false, ↓reduceIte, Option.some.injEq, Prod.mk.injEq] at h
    rw [← h.2]
    exact ⟨rfl, by show (cardPresent W (activateLowSpeed (lock s))).2._busy_check = true
                   rw [h6]; rfl,
      Or.inr (by show (cardPresent W (activateLowSpeed (lock s))).2.csHigh = s.csHigh
                 rw [h3]; rfl)⟩
  | true =>
    rw [initialize_card_present W fuel s hcd] at h
    split at h
    · simp at h
    · rename_i s1 h1
      split at h
      · simp at h
      · rename_i ty s2 h2
        simp only [Option.some.injEq, Prod.mk.injEq] at h
        rw [← h.2]
        have hb : busOnly (cardPresent W (activateLowSpeed (lock s))).2 s2 :=
          (((ioOnly_idle_clocks W 10 _).itrans (ioOnly_new W 1000 _)).busOnly.btrans
            (settle_busOnly W fuel 200 _ s1 h1)).btrans (init_probe_busOnly W fuel _ s1 ty s2 h2)
        refine ⟨rfl, ?_, Or.inl (init_finish_spec W ty s2).2.2.2.2.2⟩
        show (init_finish W ty s2).2._busy_check = true
        rw [init_finish_latch, (busOnly_latch hb).2, h6]
        rfl

/-! ## The busy latch -/

/-- C16.  `wasBusySinceLastCheck` returns the latched flag and sets the latch
to the live busy flag, changing no other field.  Whenever `initialize`,
`read`, `write` or `ioctl` has returned, leaving the state `s'`, the first
call of `wasBusySinceLastCheck` returns true and a second call made right
after it returns false. -/
theorem busy_latch (W : World) (fuel : Nat) (buff : Nat → Nat) (sector count cmd : Nat)
    (dp : Nat × Nat) (s s' : State)
    (hop : (∃ st, initialize_card W fuel s = some (st, s')) ∨
      (∃ r, read W fuel buff sector count s = some (r, s')) ∨
      (∃ r, write W fuel buff sector count s = some (r, s')) ∨
      (∃ r, ioctl W fuel cmd dp s = some (r, s'))) :
    (∀ x : State, (wasBusySinceLastCheck x).1 = x._busy_check ∧
      (wasBusySinceLastCheck x).2 = { x with _busy_check := x._busy }) ∧
    (wasBusySinceLastCheck s').1 = true ∧
    (wasBusySinceLastCheck (wasBusySinceLastCheck s').2).1 = false := by
  have hl : leftIdle s s' := by
    rcases hop with ⟨st, h⟩ | ⟨r, h⟩ | ⟨r, h⟩ | ⟨r, h⟩
    · exact initialize_card_leftIdle W fuel s st s' h
    · exact read_leftIdle W fuel buff sector count s r s' h
    · exact write_leftIdle W fuel buff sector count s r s' h
    · exact ioctl_leftIdle W fuel cmd dp s r s' h
  exact ⟨fun x => ⟨rfl, rfl⟩, hl.2.1, hl.1⟩

theorem busy_latch_witness :
    (wasBusySinceLastCheck (stateAfter (ioctl idleCard 5 CTRL_SYNC (0, 0) ready))).1 = true ∧
    (wasBusySinceLastCheck (wasBusySinceLastCheck
      (stateAfter (ioctl idleCard 5 CTRL_SYNC (0, 0) ready))).2).1 = false :=
  (busy_latch idleCard 5 zeros 0 1 CTRL_SYNC (0, 0) ready
    (stateAfter (ioctl idleCard 5 CTRL_SYNC (0, 0) ready))
    (Or.inr (Or.inr (Or.inr ⟨(RES_OK, none), eq_some_stateAfter _ _ (by decide!)⟩)))).2

/-! ## The chip-select line between operations -/

theorem writeProtected_csHigh (W : World) (s : State) :
    (writeProtected W s).2.csHigh = s.csHigh := by
  unfold writeProtected
  split <;> rfl

/-- `status` does not touch the chip-select line. -/
theorem status_csHigh (W : World) (s : State) : (status W s).2.csHigh = s.csHigh := by
  have h1 := (cardPresent_keeps W s).2.2.1
  have h2 := writeProtected_csHigh W (cardPresent W s).2
  unfold status
  dsimp only
  split
  · exact h1
  · split
    · exact h2.trans h1
    · exact h2.trans h1

theorem call_csHigh (W : World) (fuel : Nat) (c : Call) (s s' : State)
    (hcs : s.csHigh = true) (h : call W fuel c s = some s') : s'.csHigh = true := by
  have key : ∀ a b : State, leftIdle a b → a.csHigh = true → b.csHigh = true := by
    intro a b hab ha
    rcases hab.2.2 with h1 | h1
    · exact h1
    · rw [h1, ha]
  cases c with
  | init =>
    cases hq : initialize_card W fuel s with
    | none => simp [call, hq] at h
    | some p =>
      obtain ⟨st, s1⟩ := p
      simp only [call, hq, Option.map_some', Option.some.injEq] at h
      rw [← h]
      exact key s s1 (initialize_card_leftIdle W fuel s st s1 hq) hcs
  | status =>
    simp only [call, Option.some.injEq] at h
    rw [← h, status_csHigh, hcs]
  | read buff sector count =>
    cases hq : read W fuel buff sector count s with
    | none => simp [call, hq] at h
    | some p =>
      obtain ⟨r, s1⟩ := p
      simp only [call, hq, Option.map_some', Option.some.injEq] at h
      rw [← h]
      exact key s s1 (read_leftIdle W fuel buff sector count s r s1 hq) hcs
  | write buff sector count =>
    cases hq : write W fuel buff sector count s with
    | none => simp [call, hq] at h
    | some p =>
      obtain ⟨r, s1⟩ := p
      simp only [call, hq, Option.map_some', Option.some.injEq] at h
      rw [← h]
      exact key s s1 (write_leftIdle W fuel buff sector count s r s1 hq) hcs
  | ioctl cmd dp =>
    cases hq : ioctl W fuel cmd dp s with
    | none => simp [call, hq] at h
    | some p =>
      obtain ⟨r, s1⟩ := p
      simp only [call, hq, Option.map_some', Option.some.injEq] at h
      rw [← h]
      exact key s s1 (ioctl_leftIdle W fuel cmd dp s r s1 hq) hcs

theorem calls_csHigh (W : World) (fuel : Nat) (cs : List Call) (s s' : State)
    (hcs : s.csHigh = true) (h : calls W fuel cs s = some s') : s'.csHigh = true := by
  induction cs generalizing s with
  | nil =>
    simp only [calls, Option.some.injEq] at h
    rw [← h]; exact hcs
  | cons c cs ih =>
    simp only [calls] at h
    split at h
    · simp at h
    · rename_i s1 hc
      exact ih s1 (call_csHigh W fuel c s s1 hcs hc) h

/-- C17.  If the chip-select line is high when `initialize`, `status`, `read`,
`write` or `ioctl` is entered, it is high when the operation returns, whatever
the result and whatever the card, the clock and the sensors do.  `begin`
leaves the line high, so after any sequence of public operations that all
return, started right after `begin` or in any state with the line high, the
line is high. -/
theorem cs_deasserted (W : World) (fuel : Nat) (s : State) (hcs : s.csHigh = true) :
    (status W s).2.csHigh = true ∧
    (∀ st s', initialize_card W fuel s = some (st, s') → s'.csHigh = true) ∧
    (∀ buff sector count r s', read W fuel buff sector count s = some (r, s') →
      s'.csHigh = true) ∧
    (∀ buff sector count r s', write W fuel buff sector count s = some (r, s') →
      s'.csHigh = true) ∧
    (∀ cmd dp r s', ioctl W fuel cmd dp s = some (r, s') → s'.csHigh = true) ∧
    (∀ cs s', calls W fuel cs s = some s' → s'.csHigh = true) ∧
    (∀ pin x cs s', calls W fuel cs (begin pin x) = some s' → s'.csHigh = true) := by
  have key : ∀ b : State, leftIdle s b → b.csHigh = true := by
    intro b hab
    rcases hab.2.2 with h1 | h1
    · exact h1
    · rw [h1, hcs]
  refine ⟨call_csHigh W fuel Call.status s _ hcs rfl, ?_, ?_, ?_, ?_, ?_, ?_⟩
  · exact fun st s' h => key s' (initialize_card_leftIdle W fuel s st s' h)
  · exact fun buff sector count r s' h => key s' (read_leftIdle W fuel buff sector count s r s' h)
  · exact fun buff sector count r s' h => key s' (write_leftIdle W fuel buff sector count s r s' h)
  · exact fun cmd dp r s' h => key s' (ioctl_leftIdle W fuel cmd dp s r s' h)
  · exact fun cs s' h => calls_csHigh W fuel cs s s' hcs h
  · exact fun pin x cs s' h => calls_csHigh W fuel cs (begin pin x) s' rfl h

theorem cs_deasserted_witness :
    ready.csHigh = true ∧
    (stateAfter (write idleCard 5 zeros 0 1 ready)).csHigh = true ∧
    (stateOf (calls idleCard 5
      [Call.status, Call.ioctl CTRL_SYNC (0, 0), Call.write zeros 0 1] ready)).csHigh = true :=
  ⟨by decide,
   (cs_deasserted idleCard 5 ready (by decide)).2.2.2.1 zeros 0 1 RES_ERROR _
     (eq_some_stateAfter _ _ (by decide!)),
   (cs_deasserted idleCard 5 ready (by decide)).2.2.2.2.2.1 _ _
     (eq_some_stateOf _ (by decide!))⟩

/-! ## `send_cmd`: the response -/

/-- Past the reselect step, `send_cmd_tail` polls `k + 1` bytes, at most ten,
starting right after the packet (one byte later for STOP_TRANSMISSION), and
returns the last of them: the first with the high bit clear, or the tenth. -/
theorem send_cmd_tail_resp (W : World) (fuel cmd arg : Nat) (s s2 : State)
    (hsel : (cmd = CMD12 ∧ s2 = s) ∨
      (cmd ≠ CMD12 ∧ select W fuel (deselect W s) = some (1, s2))) :
    ∃ k s', k < 10 ∧
      send_cmd_tail W fuel cmd arg s
        = some (W.rx (s2.nbus + 6 + (if cmd = CMD12 then 1 else 0) + k), s') ∧
      s'.nbus = s2.nbus + 6 + (if cmd = CMD12 then 1 else 0) + (k + 1) ∧
      s'.trace = s2.trace ++ (cmd_packet cmd arg).map Ev.xfer
        ++ (if cmd = CMD12 then [Ev.xfer 0xFF] else []) ++ idles (k + 1) ∧
      (∀ j, j < k → W.rx (s2.nbus + 6 + (if cmd = CMD12 then 1 else 0) + j) &&& 0x80 ≠ 0) ∧
      (W.rx (s2.nbus + 6 + (if cmd = CMD12 then 1 else 0) + k) &&& 0x80 = 0 ∨ k = 9) := by
  have hlen : (cmd_packet cmd arg).length = 6 := rfl
  unfold send_cmd_tail
  rcases hsel with ⟨h12, rfl⟩ | ⟨h12, hs⟩
  · simp only [h12, ne_eq, not_true_eq_false, ↓reduceIte, one_ne_zero]
    obtain ⟨-, h2, h2n⟩ := xmit_list_spec W (cmd_packet CMD12 arg) s2
    obtain ⟨-, k, hk, h4, h5, h6, h7, h8⟩ :=
      recv_resp_spec 10 W (xmit_spi W 0xFF (xmit_list W (cmd_packet CMD12 arg) s2)).2 (by decide)
    have hn : (xmit_spi W 0xFF (xmit_list W (cmd_packet CMD12 arg) s2)).2.nbus
        = s2.nbus + 6 + 1 := by
      show (xmit_list W (cmd_packet CMD12 arg) s2).nbus + 1 = _
      rw [h2n]; rfl
    rw [hn] at h5 h6 h7 h8
    refine ⟨k, _, hk, ?_, h5, ?_, h7, ?_⟩
    · rw [← h6]
    · rw [h4]
      show (xmit_list W (cmd_packet CMD12 arg) s2).trace ++ [Ev.xfer 0xFF] ++ _ = _
      rw [h2]
    · rcases h8 with h8 | h8
      · exact Or.inl h8
      · exact Or.inr (by omega)
  · simp only [h12, ne_eq, not_false_eq_true, ↓reduceIte, hs, one_ne_zero, Nat.add_zero,
      List.append_nil]
    obtain ⟨-, h2, h2n⟩ := xmit_list_spec W (cmd_packet cmd arg) s2
    obtain ⟨-, k, hk, h4, h5, h6, h7, h8⟩ :=
      recv_resp_spec 10 W (xmit_list W (cmd_packet cmd arg) s2) (by decide)
    rw [h2n, hlen] at h5 h6 h7 h8
    refine ⟨k, _, hk, ?_, h5, ?_, h7, ?_⟩
    · rw [← h6]
    · rw [h4, h2]
    · rcases h8 with h8 | h8
      · exact Or.inl h8
      · exact Or.inr (by omega)

/-- C19.  Let `send_cmd` for the command index `c` reach the reselect step in
state `s1`, to send the frame with index `c'`: either `c` has no
application-command tag, `c'` is `c`, and the ready-wait that `send_cmd`
starts with has left `s1`; or `c` has the tag, `c'` is `c` without it, and the
APP_CMD exchange made first has returned a response of at most 1 and left
`s1`.  Then
(1) past the reselect step (for STOP_TRANSMISSION there is none; otherwise
`select` answered 1, leaving state `s2`), `send_cmd` returns after polling
`k + 1` response bytes, `k + 1` at most 10, that follow the six bytes of the
frame, one discarded byte later when the command is STOP_TRANSMISSION; the
first `k` polled bytes have the high bit set, and the byte returned is the
last one polled, which has its high bit clear unless it is the tenth;
(2) when the reselect fails (`select` answered 0) for a command other than
STOP_TRANSMISSION, `send_cmd` returns 0xFF with the line released, having put
nothing but idle events on the bus since `s1`: no byte of the frame. -/
theorem send_cmd_response (W : World) (fuel c c' a : Nat) (s s1 s2 : State)
    (hreach :
      (c &&& 0x80 = 0 ∧ c' = c ∧ ∃ r0, wait_ready W fuel 10 s = some (r0, s1)) ∨
      (c &&& 0x80 ≠ 0 ∧ c' = c &&& 0x7F ∧ ∃ r0 sA res,
        wait_ready W fuel 10 s = some (r0, sA) ∧
        send_cmd W fuel CMD55 0 sA = some (res, s1) ∧ res ≤ 1)) :
    ((c' = CMD12 ∧ s2 = s1) ∨ (c' ≠ CMD12 ∧ select W fuel (deselect W s1) = some (1, s2)) →
      ∃ k s', k < 10 ∧
        send_cmd W fuel c a s
          = some (W.rx (s2.nbus + 6 + (if c' = CMD12 then 1 else 0) + k), s') ∧
        s'.nbus = s2.nbus + 6 + (if c' = CMD12 then 1 else 0) + (k + 1) ∧
        s'.trace = s2.trace ++ (cmd_packet c' a).map Ev.xfer
          ++ (if c' = CMD12 then [Ev.xfer 0xFF] else []) ++ idles (k + 1) ∧
        (∀ j, j < k → W.rx (s2.nbus + 6 + (if c' = CMD12 then 1 else 0) + j) &&& 0x80 ≠ 0) ∧
        (W.rx (s2.nbus + 6 + (if c' = CMD12 then 1 else 0) + k) &&& 0x80 = 0 ∨ k = 9)) ∧
    (c' ≠ CMD12 → select W fuel (deselect W s1) = some (0, s2) →
      send_cmd W fuel c a s = some (0xFF, s2) ∧ s2.csHigh = true ∧
      ∃ ext, s2.trace = s1.trace ++ ext ∧ ext.all Ev.isIdle = true) := by
  have hsc : send_cmd W fuel c a s = send_cmd_tail W fuel c' a s1 := by
    rcases hreach with ⟨htag, hc', r0, hw⟩ | ⟨htag, hc', r0, sA, res, hw, h55, hres⟩
    · rw [hc', send_cmd_untagged W fuel c a s htag, hw]
    · rw [hc', send_cmd_tagged W fuel c a s htag, hw]
      simp only [h55, gt_iff_lt, Nat.not_lt.mpr hres, ↓reduceIte]
  refine ⟨fun hsel => ?_, fun h12 hs => ?_⟩
  · rw [hsc]
    exact send_cmd_tail_resp W fuel c' a s1 s2 hsel
  · obtain ⟨-, -, hcs, m, htr⟩ := select_spec W fuel _ 0 s2 hs
    refine ⟨?_, by simpa using hcs, ?_⟩
    · rw [hsc]
      simp only [send_cmd_tail, h12, ne_eq, not_false_eq_true, ↓reduceIte, hs]
    · refine ⟨[Ev.cs true, Ev.xfer 0xFF] ++ Ev.cs false :: idles (m + 2)
          ++ [Ev.cs true, Ev.xfer 0xFF], ?_, ?_⟩
      · rw [htr, deselect_trace]; simp
      · simp [Ev.isIdle, idles]

set_option maxHeartbeats 4000000 in
theorem send_cmd_response_witness :
    (∃ k s', k < 10 ∧
      send_cmd (answerOnce 13 1) 5 CMD0 0 s0
        = some ((answerOnce 13 1).rx ((stateAfter (select (answerOnce 13 1) 5 (deselect (answerOnce 13 1) (stateAfter (wait_ready (answerOnce 13 1) 5 10 s0))))).nbus + 6 + (if CMD0 = CMD12 then 1 else 0) + k), s') ∧
      s'.nbus = (stateAfter (select (answerOnce 13 1) 5 (deselect (answerOnce 13 1) (stateAfter (wait_ready (answerOnce 13 1) 5 10 s0))))).nbus + 6 + (if CMD0 = CMD12 then 1 else 0) + (k + 1) ∧
      s'.trace = (stateAfter (select (answerOnce 13 1) 5 (deselect (answerOnce 13 1) (stateAfter (wait_ready (answerOnce 13 1) 5 10 s0))))).trace ++ (cmd_packet CMD0 0).map Ev.xfer
        ++ (if CMD0 = CMD12 then [Ev.xfer 0xFF] else []) ++ idles (k + 1) ∧
      (∀ j, j < k → (answerOnce 13 1).rx ((stateAfter (select (answerOnce 13 1) 5 (deselect (answerOnce 13 1) (stateAfter (wait_ready (answerOnce 13 1) 5 10 s0))))).nbus + 6 + (if CMD0 = CMD12 then 1 else 0) + j)
        &&& 0x80 ≠ 0) ∧
      ((answerOnce 13 1).rx ((stateAfter (select (answerOnce 13 1) 5 (deselect (answerOnce 13 1) (stateAfter (wait_ready (answerOnce 13 1) 5 10 s0))))).nbus + 6 + (if CMD0 = CMD12 then 1 else 0) + k) &&& 0x80 = 0 ∨ k = 9)) ∧
    (send_cmd stuckCard 5 CMD17 0 ready = some (0xFF, (stateAfter (select stuckCard 5 (deselect stuckCard (stateAfter (wait_ready stuckCard 5 10 ready)))))) ∧
      (stateAfter (select stuckCard 5 (deselect stuckCard (stateAfter (wait_ready stuckCard 5 10 ready))))).csHigh = true ∧
      ∃ ext, (stateAfter (select stuckCard 5 (deselect stuckCard (stateAfter (wait_ready stuckCard 5 10 ready))))).trace = (stateAfter (wait_ready stuckCard 5 10 ready)).trace ++ ext ∧ ext.all Ev.isIdle = true) ∧
    (∃ k s', k < 10 ∧
      send_cmd (answerOnce 11 1) 5 ACMD41 0 s0
        = some ((answerOnce 11 1).rx ((stateAfter (select (answerOnce 11 1) 5 (deselect (answerOnce 11 1) (stateAfter (send_cmd (answerOnce 11 1) 5 CMD55 0 (stateAfter (wait_ready (answerOnce 11 1) 5 10 s0))))))).nbus + 6 + (if 41 = CMD12 then 1 else 0) + k), s') ∧
      s'.nbus = (stateAfter (select (answerOnce 11 1) 5 (deselect (answerOnce 11 1) (stateAfter (send_cmd (answerOnce 11 1) 5 CMD55 0 (stateAfter (wait_ready (answerOnce 11 1) 5 10 s0))))))).nbus + 6 + (if 41 = CMD12 then 1 else 0) + (k + 1) ∧
      s'.trace = (stateAfter (select (answerOnce 11 1) 5 (deselect (answerOnce 11 1) (stateAfter (send_cmd (answerOnce 11 1) 5 CMD55 0 (stateAfter (wait_ready (answerOnce 11 1) 5 10 s0))))))).trace ++ (cmd_packet 41 0).map Ev.xfer
        ++ (if 41 = CMD12 then [Ev.xfer 0xFF] else []) ++ idles (k + 1) ∧
      (∀ j, j < k → (answerOnce 11 1).rx ((stateAfter (select (answerOnce 11 1) 5 (deselect (answerOnce 11 1) (stateAfter (send_cmd (answerOnce 11 1) 5 CMD55 0 (stateAfter (wait_ready (answerOnce 11 1) 5 10 s0))))))).nbus + 6 + (if 41 = CMD12 then 1 else 0) + j)
        &&& 0x80 ≠ 0) ∧
      ((answerOnce 11 1).rx ((stateAfter (select (answerOnce 11 1) 5 (deselect (answerOnce 11 1) (stateAfter (send_cmd (answerOnce 11 1) 5 CMD55 0 (stateAfter (wait_ready (answerOnce 11 1) 5 10 s0))))))).nbus + 6 + (if 41 = CMD12 then 1 else 0) + k) &&& 0x80 = 0 ∨ k = 9)) :=
  ⟨(send_cmd_response (answerOnce 13 1) 5 CMD0 CMD0 0 s0 (stateAfter (wait_ready (answerOnce 13 1) 5 10 s0)) (stateAfter (select (answerOnce 13 1) 5 (deselect (answerOnce 13 1) (stateAfter (wait_ready (answerOnce 13 1) 5 10 s0)))))
      (Or.inl ⟨by decide, rfl, 1, eq_some_stateAfter _ _ (by decide!)⟩)).1
      (Or.inr ⟨by decide, eq_some_stateAfter _ _ (by decide!)⟩),
   (send_cmd_response stuckCard 5 CMD17 CMD17 0 ready (stateAfter (wait_ready stuckCard 5 10 ready)) (stateAfter (select stuckCard 5 (deselect stuckCard (stateAfter (wait_ready stuckCard 5 10 ready)))))
      (Or.inl ⟨by decide, rfl, 0, eq_some_stateAfter _ _ (by decide!)⟩)).2
      (by decide) (eq_some_stateAfter _ _ (by decide!)),
   (send_cmd_response (answerOnce 11 1) 5 ACMD41 41 0 s0 (stateAfter (send_cmd (answerOnce 11 1) 5 CMD55 0 (stateAfter (wait_ready (answerOnce 11 1) 5 10 s0)))) (stateAfter (select (answerOnce 11 1) 5 (deselect (answerOnce 11 1) (stateAfter (send_cmd (answerOnce 11 1) 5 CMD55 0 (stateAfter (wait_ready (answerOnce 11 1) 5 10 s0)))))))
      (Or.inr ⟨by decide, by decide, 1, (stateAfter (wait_ready (answerOnce 11 1) 5 10 s0)), 1, eq_some_stateAfter _ _ (by decide!),
        eq_some_stateAfter _ _ (by decide!), by decide⟩)).1
      (Or.inr ⟨by decide, eq_some_stateAfter _ _ (by decide!)⟩)⟩

/-! ## `read`: the address and the buffer offsets -/

theorem offset_mod (k : Nat) : 512 * (k % U32) % U32 = 512 * k % U32 := by
  simp only [U32]
  omega

/-- The result and the state of a run that returned, from the run itself. -/
theorem eq_some_of_isSome {α : Type} (o : Option (α × State)) (d : α)
    (h : o.isSome = true) : o = some ((o.map Prod.fst).getD d, stateAfter o) := by
  cases o with
  | none => simp at h
  | some p => rfl

/-- The run behind C20: a two-sector `read` from sector 3 of a byte-addressed
card sends READ_SINGLE_BLOCK twice with the address 1536 (`0x51 00 00 06 00`),
stores the first block at offset 0 and the second at offset 512, and returns
OK. -/
theorem read_two_sectors_run :
    (read twoReadCard 5 zeros 3 2 readyV1).map
        (fun r => (r.1.1, r.2.trace.drop readyV1.trace.length, r.1.2 0, r.1.2 512))
      = some (RES_OK,
          [Ev.xfer 0xFF, Ev.cs true, Ev.xfer 0xFF, Ev.cs false, Ev.xfer 0xFF, Ev.xfer 0xFF]
            ++ [Ev.xfer 0x51, Ev.xfer 0, Ev.xfer 0, Ev.xfer 6, Ev.xfer 0, Ev.xfer 1]
            ++ [Ev.xfer 0xFF, Ev.xfer 0xFF, Ev.burst (List.replicate 512 0xFF), Ev.xfer 0xFF]
            ++ [Ev.xfer 0xFF, Ev.cs true, Ev.xfer 0xFF, Ev.cs false, Ev.xfer 0xFF, Ev.xfer 0xFF]
            ++ [Ev.xfer 0x51, Ev.xfer 0, Ev.xfer 0, Ev.xfer 6, Ev.xfer 0, Ev.xfer 1]
            ++ [Ev.xfer 0xFF, Ev.xfer 0xFF, Ev.xfer 0xFF, Ev.burst (List.replicate 512 0xFF),
                Ev.xfer 0xFF]
            ++ [Ev.cs true, Ev.xfer 0xFF],
          0x5A, 0xA5) := by
  decide!

/-! ## `initialize` and the state it starts from -/

theorem xmit_spi_setDrv (W : World) (b x y : Nat) (s : State) :
    xmit_spi W b (setDrv x y s) = liftDrv x y (xmit_spi W b s) := rfl

theorem expired_setDrv (W : World) (t : TimeoutChecker) (x y : Nat) (s : State) :
    t.expired W (setDrv x y s) = liftDrv x y (t.expired W s) := rfl

theorem start_setDrv (W : World) (t : TimeoutChecker) (x y : Nat) (s : State) :
    t.start W (setDrv x y s) = liftDrv x y (t.start W s) := rfl

theorem new_setDrv (W : World) (d x y : Nat) (s : State) :
    TimeoutChecker.new W d (setDrv x y s) = liftDrv x y (TimeoutChecker.new W d s) := rfl

theorem deselect_setDrv (W : World) (x y : Nat) (s : State) :
    deselect W (setDrv x y s) = setDrv x y (deselect W s) := rfl

theorem wait_ready_loop_setDrv (W : World) (t : TimeoutChecker) (x y fuel : Nat) (s : State) :
    wait_ready_loop W t fuel (setDrv x y s)
      = (wait_ready_loop W t fuel s).map (liftDrv x y) := by
  induction fuel generalizing s with
  | zero => rfl
  | succ k ih =>
    simp only [wait_ready_loop, xmit_spi_setDrv, liftDrv, expired_setDrv]
    split
    · split
      · exact ih _
      · rfl
    · rfl

theorem wait_ready_setDrv (W : World) (fuel wt x y : Nat) (s : State) :
    wait_ready W fuel wt (setDrv x y s) = (wait_ready W fuel wt s).map (liftDrv x y) := by
  simp only [wait_ready, new_setDrv, liftDrv, wait_ready_loop_setDrv]
  cases wait_ready_loop W (TimeoutChecker.new W wt s).1 fuel (TimeoutChecker.new W wt s).2 <;> rfl

theorem select_setDrv (W : World) (fuel x y : Nat) (s : State) :
    select W fuel (setDrv x y s) = (select W fuel s).map (liftDrv x y) := by
  have h : (xmit_spi W 0xFF (assertCS (setDrv x y s))).2
      = setDrv x y (xmit_spi W 0xFF (assertCS s)).2 := rfl
  simp only [select, h, wait_ready_setDrv]
  cases wait_ready W fuel 100 (xmit_spi W 0xFF (assertCS s)).2 with
  | none => rfl
  | some p =>
    simp only [Option.map_some', liftDrv]
    split <;> rfl

theorem recv_resp_setDrv (n : Nat) (W : World) (x y : Nat) (s : State) :
    recv_resp n W (setDrv x y s) = liftDrv x y (recv_resp n W s) := by
  induction n generalizing s with
  | zero => rfl
  | succ k ih =>
    simp only [recv_resp, xmit_spi_setDrv, liftDrv]
    split
    · exact ih _
    · rfl

theorem xmit_list_setDrv (W : World) (bs : List Nat) (x y : Nat) (s : State) :
    xmit_list W bs (setDrv x y s) = setDrv x y (xmit_list W bs s) := by
  induction bs generalizing s with
  | nil => rfl
  | cons b bs ih => exact ih (xmit_spi W b s).2

theorem send_cmd_tail_setDrv (W : World) (fuel cmd arg x y : Nat) (s : State) :
    send_cmd_tail W fuel cmd arg (setDrv x y s)
      = (send_cmd_tail W fuel cmd arg s).map (liftDrv x y) := by
  unfold send_cmd_tail
  by_cases h12 : cmd = CMD12
  · simp only [h12, ne_eq, not_true_eq_false, ↓reduceIte, one_ne_zero, xmit_list_setDrv,
      xmit_spi_setDrv, liftDrv, recv_resp_setDrv, Option.map_some']
  · simp only [h12, ne_eq, not_false_eq_true, ↓reduceIte, deselect_setDrv, select_setDrv]
    cases select W fuel (deselect W s) with
    | none => rfl
    | some p =>
      simp only [Option.map_some', liftDrv]
      split
      · rfl
      · simp only [xmit_list_setDrv, recv_resp_setDrv, liftDrv, Option.map_some']

theorem send_cmd_rec_setDrv (W : World) (fuel d cmd arg x y : Nat) (s : State) :
    send_cmd_rec W fuel d cmd arg (setDrv x y s)
      = (send_cmd_rec W fuel d cmd arg s).map (liftDrv x y) := by
  induction d generalizing cmd arg s with
  | zero =>
    rw [send_cmd_rec, send_cmd_rec, wait_ready_setDrv]
    cases wait_ready W fuel 10 s with
    | none => rfl
    | some p =>
      simp only [Option.map_some', liftDrv]
      split
      · rfl
      · exact send_cmd_tail_setDrv W fuel cmd arg x y _
  | succ d ih =>
    rw [send_cmd_rec, send_cmd_rec, wait_ready_setDrv]
    cases wait_ready W fuel 10 s with
    | none => rfl
    | some p =>
      simp only [Option.map_some', liftDrv]
      split
      · rw [ih]
        cases send_cmd_rec W fuel d CMD55 0 p.2 with
        | none => rfl
        | some q =>
          simp only [Option.map_some', liftDrv]
          split
          · rfl
          · exact send_cmd_tail_setDrv W fuel _ arg x y _
      · exact send_cmd_tail_setDrv W fuel cmd arg x y _

theorem send_cmd_setDrv (W : World) (fuel cmd arg x y : Nat) (s : State) :
    send_cmd W fuel cmd arg (setDrv x y s) = (send_cmd W fuel cmd arg s).map (liftDrv x y) :=
  send_cmd_rec_setDrv W fuel 1 cmd arg x y s

theorem idle_clocks_setDrv (W : World) (n x y : Nat) (s : State) :
    idle_clocks W n (setDrv x y s) = setDrv x y (idle_clocks W n s) := by
  induction n generalizing s with
  | zero => rfl
  | succ k ih => exact ih (xmit_spi W 0xFF s).2

theorem settle_setDrv (W : World) (fuel n x y : Nat) (s : State) :
    settle W fuel n (setDrv x y s) = (settle W fuel n s).map (setDrv x y) := by
  induction n generalizing s with
  | zero => rfl
  | succ k ih =>
    have hd : delay 1 (setDrv x y s) = setDrv x y (delay 1 s) := rfl
    simp only [settle, hd, send_cmd_setDrv]
    cases send_cmd W fuel CMD0 0 (delay 1 s) with
    | none => rfl
    | some p => exact ih p.2

theorem op_cond_wait_setDrv (W : World) (fuel : Nat) (t : TimeoutChecker) (cmd arg k x y : Nat)
    (s : State) :
    op_cond_wait W fuel t cmd arg k (setDrv x y s)
      = (op_cond_wait W fuel t cmd arg k s).map (setDrv x y) := by
  induction k generalizing s with
  | zero => rfl
  | succ k ih =>
    simp only [op_cond_wait, expired_setDrv, liftDrv]
    split
    · rfl
    · rw [send_cmd_setDrv]
      cases send_cmd W fuel cmd arg (t.expired W s).2 with
      | none => rfl
      | some p =>
        simp only [Option.map_some', liftDrv]
        split
        · exact ih p.2
        · rfl

theorem recv_ocr_setDrv (W : World) (x y : Nat) (s : State) :
    recv_ocr W (setDrv x y s) = liftDrv x y (recv_ocr W s) := rfl

theorem init_sdv2_setDrv (W : World) (fuel : Nat) (t : TimeoutChecker) (x y : Nat) (s : State) :
    init_sdv2 W fuel t (setDrv x y s) = (init_sdv2 W fuel t s).map (liftDrv x y) := by
  simp only [init_sdv2, recv_ocr_setDrv, liftDrv]
  split
  · rw [op_cond_wait_setDrv]
    cases op_cond_wait W fuel t ACMD41 (1 <<< 30) fuel (recv_ocr W s).2 with
    | none => rfl
    | some s1 =>
      simp only [Option.map_some', expired_setDrv, liftDrv]
      by_cases hex : (t.expired W s1).1 = true
      · simp only [hex, Bool.not_true, Bool.false_eq_true, ↓reduceIte, false_and,
          Option.map_some', expired_setDrv, liftDrv]
      · simp only [hex, Bool.not_false, Bool.not_eq_true, Bool.not_eq_true', ↓reduceIte,
          true_and, send_cmd_setDrv]
        cases send_cmd W fuel CMD58 0 (t.expired W s1).2 with
        | none => rfl
        | some p =>
          simp only [Option.map_some', liftDrv]
          split
          · simp only [recv_ocr_setDrv, liftDrv, Option.map_some']
          · simp only [expired_setDrv, liftDrv, Option.map_some']
  · rfl

theorem init_sdv1_mmc_setDrv (W : World) (fuel : Nat) (t : TimeoutChecker) (x y : Nat)
    (s : State) :
    init_sdv1_mmc W fuel t (setDrv x y s) = (init_sdv1_mmc W fuel t s).map (liftDrv x y) := by
  have tailc : ∀ (ty cmd : Nat) (s0 : State),
      (match op_cond_wait W fuel t cmd 0 fuel (setDrv x y s0) with
        | none => none
        | some s =>
          if (!(t.expired W s).1) = true then some (0, (t.expired W s).2)
          else
            match send_cmd W fuel CMD16 512 (t.expired W s).2 with
            | none => none
            | some (r, s) => if r ≠ 0 then some (0, s) else some (ty, s))
      = Option.map (liftDrv x y)
        (match op_cond_wait W fuel t cmd 0 fuel s0 with
        | none => none
        | some s =>
          if (!(t.expired W s).1) = true then some (0, (t.expired W s).2)
          else
            match send_cmd W fuel CMD16 512 (t.expired W s).2 with
            | none => none
            | some (r, s) => if r ≠ 0 then some (0, s) else some (ty, s)) := by
    intro ty cmd s0
    rw [op_cond_wait_setDrv]
    cases op_cond_wait W fuel t cmd 0 fuel s0 with
    | none => rfl
    | some s1 =>
      simp only [Option.map_some', expired_setDrv, liftDrv]
      split
      · rfl
      · rw [send_cmd_setDrv]
        cases send_cmd W fuel CMD16 512 (t.expired W s1).2 with
        | none => rfl
        | some q =>
          simp only [Option.map_some', liftDrv]
          split <;> rfl
  simp only [init_sdv1_mmc, send_cmd_setDrv]
  cases send_cmd W fuel ACMD41 0 s with
  | none => rfl
  | some p =>
    simp only [Option.map_some', liftDrv]
    by_cases h1 : p.1 ≤ 1
    · simp only [h1, ↓reduceIte]
      exact tailc CT_SD1 ACMD41 p.2
    · simp only [h1, ↓reduceIte]
      exact tailc CT_MMC CMD1 p.2

theorem init_probe_setDrv (W : World) (fuel : Nat) (t : TimeoutChecker) (x y : Nat)
    (s : State) :
    init_probe W fuel t (setDrv x y s) = (init_probe W fuel t s).map (liftDrv x y) := by
  simp only [init_probe, send_cmd_setDrv]
  cases send_cmd W fuel CMD0 0 s with
  | none => rfl
  | some p =>
    simp only [Option.map_some', liftDrv]
    by_cases h1 : p.1 = 1
    · simp only [h1, ↓reduceIte, start_setDrv, liftDrv, send_cmd_setDrv]
      cases send_cmd W fuel CMD8 0x1AA (t.start W p.2).2 with
      | none => rfl
      | some q =>
        simp only [Option.map_some', liftDrv]
        by_cases h8 : q.1 = 1
        · simp only [h8, ↓reduceIte, init_sdv2_setDrv]
          cases init_sdv2 W fuel (t.start W p.2).1 q.2 with
          | none => rfl
          | some r => rfl
        · simp only [h8, ↓reduceIte, init_sdv1_mmc_setDrv]
          cases init_sdv1_mmc W fuel (t.start W p.2).1 q.2 with
          | none => rfl
          | some r => rfl
    · simp only [h1, ↓reduceIte]
      rfl

theorem cardPresent_setDrv (W : World) (x y : Nat) (s : State) :
    cardPresent W (setDrv x y s) = liftDrv x y (cardPresent W s) := by
  have h : (setDrv x y s)._cd_enabled = s._cd_enabled := rfl
  unfold cardPresent
  rw [h]
  cases s._cd_enabled <;> rfl

theorem or_absorb (a m : Nat) : (a &&& m) ||| m = m := by
  apply Nat.eq_of_testBit_eq
  intro i
  rw [Nat.testBit_or, Nat.testBit_and]
  cases a.testBit i <;> cases m.testBit i <;> rfl

theorem clearBits_noinit_or (a : Nat) :
    clearBits a STA_NOINIT ||| STA_PROTECT
      = clearBits a (STA_NOINIT ||| STA_PROTECT) ||| STA_PROTECT := by
  have h : (0xFF ^^^ STA_NOINIT) = (0xFF ^^^ (STA_NOINIT ||| STA_PROTECT)) ||| STA_PROTECT := by
    decide
  simp only [clearBits]
  rw [h, Nat.and_or_distrib_left, Nat.or_assoc, or_absorb]

theorem clearBits_noinit_protect (a : Nat) :
    clearBits (clearBits a STA_NOINIT) STA_PROTECT = clearBits a (STA_NOINIT ||| STA_PROTECT) := by
  have h : (0xFF ^^^ STA_NOINIT) &&& (0xFF ^^^ STA_PROTECT)
      = (0xFF ^^^ (STA_NOINIT ||| STA_PROTECT)) := by decide
  simp only [clearBits]
  rw [Nat.and_assoc, h]

theorem clearBits_or_protect (a : Nat) :
    clearBits (a ||| STA_PROTECT) (STA_NOINIT ||| STA_PROTECT)
      = clearBits a (STA_NOINIT ||| STA_PROTECT) := by
  have h : (0xFF ^^^ (STA_NOINIT ||| STA_PROTECT)) &&& STA_PROTECT = 0 := by decide
  simp only [clearBits]
  rw [Nat.and_comm, Nat.and_or_distrib_left, h, Nat.or_zero, Nat.and_comm]

theorem clearBits_idem (a m : Nat) : clearBits (clearBits a m) m = clearBits a m := by
  simp only [clearBits]
  rw [Nat.and_assoc, Nat.and_self]

/-- The status `init_finish` leaves, in terms of the status before: for a card
type found, the previous status with NOT_INITIALIZED cleared and
WRITE_PROTECTED set or cleared by the sensor reading; otherwise NOT_INITIALIZED
with WRITE_PROTECTED set or cleared the same way. -/
theorem init_finish_status (W : World) (ty : Nat) (s : State) :
    (init_finish W ty s).1 =
      if (writeProtected W (deselect W s)).1 = false then
        (if ty ≠ 0 then clearBits s._status STA_NOINIT else STA_NOINIT) ||| STA_PROTECT
      else clearBits (if ty ≠ 0 then clearBits s._status STA_NOINIT else STA_NOINIT)
        STA_PROTECT := by
  unfold init_finish writeProtected
  cases s
  by_cases hty : ty = 0
  · subst hty
    simp only [deselect, xmit_spi, deassertCS, digitalRead, activateHighSpeed,
      ne_eq, not_true_eq_false, ↓reduceIte]
    split <;> split <;> simp_all
  · simp only [deselect, xmit_spi, deassertCS, digitalRead, activateHighSpeed,
      ne_eq, hty, not_false_eq_true, ↓reduceIte]
    split <;> split <;> simp_all

theorem init_finish_setDrv (W : World) (ty x y : Nat) (s : State) :
    (init_finish W ty (setDrv x y s)).2
      = { (init_finish W ty s).2 with _status := (init_finish W ty (setDrv x y s)).1 } := by
  unfold init_finish writeProtected
  cases s
  simp only [setDrv, deselect, xmit_spi, deassertCS, digitalRead, activateHighSpeed]
  split <;> split <;> split <;> simp_all

theorem writeProtected_setDrv_fst (W : World) (x y : Nat) (s : State) :
    (writeProtected W (deselect W (setDrv x y s))).1 = (writeProtected W (deselect W s)).1 := by
  rw [writeProtected_fst, writeProtected_fst]
  rfl

theorem clearBits_noinit_both (a : Nat) :
    clearBits (clearBits a STA_NOINIT) (STA_NOINIT ||| STA_PROTECT)
      = clearBits a (STA_NOINIT ||| STA_PROTECT) := by
  have h : (0xFF ^^^ STA_NOINIT) &&& (0xFF ^^^ (STA_NOINIT ||| STA_PROTECT))
      = (0xFF ^^^ (STA_NOINIT ||| STA_PROTECT)) := by decide
  simp only [clearBits]
  rw [Nat.and_assoc, h]

/-- What `initialize` re-derives when a card is reported present.  Let it
return the status `st` and leave the state `s'` when started in state `s`.
Started in a state that differs from `s` in the stored status `x` and the card
type `y` only, against the same hardware, it returns too, with a status `st2`,
and leaves the same state `s'` except for the stored status, which is `st2`.
`st2` and `st` agree in NOT_INITIALIZED and in WRITE_PROTECTED; they are equal
when no card type was found, and when the two previous statuses agree outside
these two bits.  Started again in `s` with the status and the card type of
`s'`, `initialize` returns `st` and leaves `s'` again. -/
theorem initialize_rederives_present (W : World) (fuel : Nat) (s : State) (x y st : Nat) (s' : State)
    (hcd : (cardPresent W (activateLowSpeed (lock s))).1 = true)
    (h : initialize_card W fuel s = some (st, s')) :
    (∃ st2, initialize_card W fuel (setDrv x y s) = some (st2, { s' with _status := st2 }) ∧
      (st2 &&& STA_NOINIT = 0 ↔ st &&& STA_NOINIT = 0) ∧
      (st2 &&& STA_PROTECT = 0 ↔ st &&& STA_PROTECT = 0) ∧
      (st &&& STA_NOINIT ≠ 0 → st2 = st) ∧
      (clearBits x (STA_NOINIT ||| STA_PROTECT)
          = clearBits s._status (STA_NOINIT ||| STA_PROTECT) → st2 = st)) ∧
    s'._status = st ∧ s'._active_clock = s._high_speed_clock ∧
    initialize_card W fuel (setDrv st s'._cardType s) = some (st, s') := by
  have hcd2 : ∀ a b, (cardPresent W (activateLowSpeed (lock (setDrv a b s)))).1 = true := by
    intro a b
    have : activateLowSpeed (lock (setDrv a b s)) = setDrv a b (activateLowSpeed (lock s)) := rfl
    rw [this, cardPresent_setDrv]
    exact hcd
  have hentry : ∀ a b, initEntry W (setDrv a b s) = setDrv a b (initEntry W s) := by
    intro a b
    have : activateLowSpeed (lock (setDrv a b s)) = setDrv a b (activateLowSpeed (lock s)) := rfl
    unfold initEntry
    rw [this, cardPresent_setDrv]
    simp only [liftDrv, idle_clocks_setDrv, new_setDrv]
  have htimer : ∀ a b,
      (TimeoutChecker.new W 1000
        (idle_clocks W 10 (cardPresent W (activateLowSpeed (lock (setDrv a b s)))).2)).1
      = (TimeoutChecker.new W 1000
        (idle_clocks W 10 (cardPresent W (activateLowSpeed (lock s))).2)).1 := by
    intro a b
    have : activateLowSpeed (lock (setDrv a b s)) = setDrv a b (activateLowSpeed (lock s)) := rfl
    rw [this, cardPresent_setDrv]
    simp only [liftDrv, idle_clocks_setDrv, new_setDrv]
  rw [initialize_card_present W fuel s hcd] at h
  split at h
  · simp at h
  · rename_i s1 h1
    split at h
    · simp at h
    · rename_i ty s2 h2
      simp only [Option.some.injEq, Prod.mk.injEq] at h
      obtain ⟨hst, hs'⟩ := h
      have hb : busOnly (initEntry W s) s2 :=
        (settle_busOnly W fuel 200 _ s1 h1).btrans (init_probe_busOnly W fuel _ s1 ty s2 h2)
      have hs2 : s2._status = s._status := by
        rw [(busOnly_fields hb).1]
        unfold initEntry
        rw [(busOnly_fields (((ioOnly_idle_clocks W 10 _).itrans
          (ioOnly_new W 1000 _)).busOnly)).1, (cardPresent_keeps W _).1]
        rfl
      have hhs : s2._high_speed_clock = s._high_speed_clock := by
        rw [hb]
        unfold initEntry
        rw [((ioOnly_idle_clocks W 10 _).itrans (ioOnly_new W 1000 _))]
        show (cardPresent W (activateLowSpeed (lock s))).2._high_speed_clock = _
        unfold cardPresent
        split <;> rfl
      have run : ∀ a b, initialize_card W fuel (setDrv a b s)
          = some ((init_finish W ty (setDrv a b s2)).1,
              { unlock (init_finish W ty s2).2 with
                _status := (init_finish W ty (setDrv a b s2)).1 }) := by
        intro a b
        rw [initialize_card_present W fuel _ (hcd2 a b), hentry, settle_setDrv, h1, htimer]
        simp only [Option.map_some', init_probe_setDrv, h2, liftDrv, init_finish_setDrv]
        rfl
      obtain ⟨f1, f2, f3, f4, f5, -⟩ := init_finish_spec W ty s2
      obtain ⟨-, -, g3, g4, -, -⟩ := init_finish_spec W ty (setDrv x y s2)
      have e1 := init_finish_status W ty s2
      have eq_of : ∀ a b, (ty = 0 ∨ clearBits a (STA_NOINIT ||| STA_PROTECT)
            = clearBits s._status (STA_NOINIT ||| STA_PROTECT)) →
          (init_finish W ty (setDrv a b s2)).1 = (init_finish W ty s2).1 := by
        intro a b hab
        rw [init_finish_status, init_finish_status, writeProtected_setDrv_fst]
        have ha : (setDrv a b s2)._status = a := rfl
        rw [ha, hs2]
        rcases hab with h0 | hab
        · simp only [h0, ne_eq, not_true_eq_false, ↓reduceIte]
        · by_cases h0 : ty = 0
          · simp only [h0, ne_eq, not_true_eq_false, ↓reduceIte]
          · simp only [h0, ne_eq, not_false_eq_true, ↓reduceIte]
            rw [clearBits_noinit_or a, clearBits_noinit_or s._status,
              clearBits_noinit_protect a, clearBits_noinit_protect s._status, hab]
      rw [← hst, ← hs']
      refine ⟨⟨(init_finish W ty (setDrv x y s2)).1, run x y, ?_, ?_, ?_, ?_⟩, f2, ?_, ?_⟩
      · rw [g3, f3]
      · rw [writeProtected_setDrv_fst] at g4
        constructor
        · intro hz
          by_contra hn
          exact (g4.mpr (f4.mp hn)) hz
        · intro hz
          by_contra hn
          exact (f4.mpr (g4.mp hn)) hz
      · intro hn
        exact eq_of x y (Or.inl (by
          by_contra h0
          exact hn (f3.mpr h0)))
      · intro hx
        exact eq_of x y (Or.inr hx)
      · show (init_finish W ty s2).2._active_clock = _
        rw [f5, hhs]
      · rw [run]
        have hq : (init_finish W ty (setDrv (init_finish W ty s2).1
            (unlock (init_finish W ty s2).2)._cardType s2)).1 = (init_finish W ty s2).1 := by
          apply eq_of
          by_cases h0 : ty = 0
          · exact Or.inl h0
          · right
            rw [e1, hs2]
            simp only [h0, ne_eq, not_false_eq_true, ↓reduceIte]
            split
            · rw [clearBits_or_protect, clearBits_noinit_both]
            · rw [clearBits_noinit_protect, clearBits_idem]
        have hu : ∀ (u : State) (v : Nat), u._status = v →
            ({ u with _status := v } : State) = u := by
          intro u v huv
          subst huv
          rfl
        rw [hq, hu (unlock (init_finish W ty s2).2) _ f2]

/-- With the card-present sensor reporting no card, `initialize` returns
NO_MEDIA at once, for every driver state: nothing is put on the bus, and the
stored status and the card type are the ones at entry; the active clock rate
is the low-speed one set at line 394. -/
theorem initialize_no_card (W : World) (fuel : Nat) (s : State)
    (habs : (cardPresent W (activateLowSpeed (lock s))).1 = false) :
    initialize_card W fuel s
        = some (STA_NODISK, unlock (cardPresent W (activateLowSpeed (lock s))).2) ∧
      (unlock (cardPresent W (activateLowSpeed (lock s))).2)._status = s._status ∧
      (unlock (cardPresent W (activateLowSpeed (lock s))).2)._cardType = s._cardType ∧
      (unlock (cardPresent W (activateLowSpeed (lock s))).2).nbus = s.nbus ∧
      (unlock (cardPresent W (activateLowSpeed (lock s))).2).trace = s.trace ∧
      (unlock (cardPresent W (activateLowSpeed (lock s))).2)._active_clock
        = s._low_speed_clock := by
  obtain ⟨h1, h2, -, h4, -, -⟩ := cardPresent_keeps W (activateLowSpeed (lock s))
  refine ⟨?_, h1, h2, h4, cardPresent_trace W _, ?_⟩
  · unfold initialize_card
    simp only [habs, Bool.not_false, ↓reduceIte]
  · show (cardPresent W (activateLowSpeed (lock s))).2._active_clock = _
    unfold cardPresent
    split <;> rfl

/-- C18, as the code has it.  Take a driver state `s` and the state
`setDrv x y s` that differs from it in the stored status and the card type
only, run against the same hardware.
(1) With the card-present sensor reporting a card: whenever `initialize`
returns the status `st` and leaves the state `s'` from `s`, it returns from
`setDrv x y s` too, with a status `st2`, and leaves the same state `s'` except
for the stored status, which is `st2`: the same card type, the same active
clock rate (the high-speed rate) and the same bus traffic.  In both runs the
status returned is the status stored.  `st2` and `st` agree in NOT_INITIALIZED
and in WRITE_PROTECTED; they are equal when no card type was found
(NOT_INITIALIZED set), and when the two previous statuses agree outside these
two bits.  In particular, started again in `s` with the status and the card
type of `s'`, `initialize` returns `st` and leaves `s'` again.
(2) With the sensor reporting no card: from both states `initialize` returns
NO_MEDIA, puts nothing on the bus and stores nothing, so that each run keeps
the stored status and the card type it started with. -/
theorem initialize_rederives (W : World) (fuel : Nat) (s : State) (x y : Nat) :
    ((cardPresent W (activateLowSpeed (lock s))).1 = true →
      ∀ st s', initialize_card W fuel s = some (st, s') →
        (∃ st2, initialize_card W fuel (setDrv x y s)
            = some (st2, { s' with _status := st2 }) ∧
          (st2 &&& STA_NOINIT = 0 ↔ st &&& STA_NOINIT = 0) ∧
          (st2 &&& STA_PROTECT = 0 ↔ st &&& STA_PROTECT = 0) ∧
          (st &&& STA_NOINIT ≠ 0 → st2 = st) ∧
          (clearBits x (STA_NOINIT ||| STA_PROTECT)
              = clearBits s._status (STA_NOINIT ||| STA_PROTECT) → st2 = st)) ∧
        s'._status = st ∧ s'._active_clock = s._high_speed_clock ∧
        initialize_card W fuel (setDrv st s'._cardType s) = some (st, s')) ∧
    ((cardPresent W (activateLowSpeed (lock s))).1 = false →
      ∃ s', initialize_card W fuel s = some (STA_NODISK, s') ∧
        initialize_card W fuel (setDrv x y s) = some (STA_NODISK, setDrv x y s') ∧
        s'._status = s._status ∧ s'._cardType = s._cardType ∧
        s'.nbus = s.nbus ∧ s'.trace = s.trace) := by
  refine ⟨fun hcd st s' h => initialize_rederives_present W fuel s x y st s' hcd h,
    fun habs => ?_⟩
  obtain ⟨h0, h1, h2, h3, h4, -⟩ := initialize_no_card W fuel s habs
  have habs2 : (cardPresent W (activateLowSpeed (lock (setDrv x y s)))).1 = false := by
    have : activateLowSpeed (lock (setDrv x y s)) = setDrv x y (activateLowSpeed (lock s)) := rfl
    rw [this, cardPresent_setDrv]
    exact habs
  refine ⟨_, h0, ?_, h1, h2, h3, h4⟩
  rw [(initialize_no_card W fuel (setDrv x y s) habs2).1]
  have : activateLowSpeed (lock (setDrv x y s)) = setDrv x y (activateLowSpeed (lock s)) := rfl
  rw [this, cardPresent_setDrv]
  rfl

set_option maxHeartbeats 2000000 in
theorem initialize_rederives_witness :
    ((∃ st2, initialize_card sdhcCard 5 (setDrv STA_NOINIT CT_MMC s0)
        = some (st2, { (stateAfter (initialize_card sdhcCard 5 s0)) with _status := st2 }) ∧
      (st2 &&& STA_NOINIT = 0 ↔ 4 &&& STA_NOINIT = 0) ∧
      (st2 &&& STA_PROTECT = 0 ↔ 4 &&& STA_PROTECT = 0) ∧
      (4 &&& STA_NOINIT ≠ 0 → st2 = 4) ∧
      (clearBits STA_NOINIT (STA_NOINIT ||| STA_PROTECT)
          = clearBits s0._status (STA_NOINIT ||| STA_PROTECT) → st2 = 4)) ∧
    (stateAfter (initialize_card sdhcCard 5 s0))._status = 4 ∧
    (stateAfter (initialize_card sdhcCard 5 s0))._active_clock = s0._high_speed_clock ∧
    initialize_card sdhcCard 5 (setDrv 4 (stateAfter (initialize_card sdhcCard 5 s0))._cardType s0) = some (4, (stateAfter (initialize_card sdhcCard 5 s0)))) ∧
    (∃ s', initialize_card idleCard 5 (enableCardDetect 6 true s0) = some (STA_NODISK, s') ∧
      initialize_card idleCard 5 (setDrv 0 CT_SD2 (enableCardDetect 6 true s0)) = some (STA_NODISK, setDrv 0 CT_SD2 s') ∧
      s'._status = (enableCardDetect 6 true s0)._status ∧ s'._cardType = (enableCardDetect 6 true s0)._cardType ∧
      s'.nbus = (enableCardDetect 6 true s0).nbus ∧ s'.trace = (enableCardDetect 6 true s0).trace) :=
  ⟨(initialize_rederives sdhcCard 5 s0 STA_NOINIT CT_MMC).1 (by decide) 4 (stateAfter (initialize_card sdhcCard 5 s0))
      (eq_some_stateAfter _ _ (by decide!)),
   (initialize_rederives idleCard 5 (enableCardDetect 6 true s0) 0 CT_SD2).2 (by decide)⟩

/-- The runs that C18 as stated does not cover.  On the card `sdhcCard`, two
drivers that differ only in the stored status (NOT_INITIALIZED against
NO_MEDIA, as `status` stores it when it sees no card) get different results
from `initialize`: 4 and 6.  With the card-present sensor reporting no card,
`initialize` returns NO_MEDIA and leaves the stored status and the card type
of each driver as they were, at the low-speed clock rate. -/
theorem initialize_keeps_stale_status :
    (initialize_card sdhcCard 5 s0).map (fun r => (r.1, r.2._status)) = some (4, 4) ∧
    (initialize_card sdhcCard 5 (setDrv STA_NODISK 0 s0)).map (fun r => (r.1, r.2._status))
      = some (6, 6) ∧
    setDrv STA_NODISK 0 s0 = { s0 with _status := STA_NODISK } ∧
    (initialize_card idleCard 5 (enableCardDetect 6 true s0)).map
        (fun r => (r.1, r.2._status, r.2._cardType, r.2._active_clock))
      = some (STA_NODISK, STA_NOINIT, 0, 400000) ∧
    (initialize_card idleCard 5 (setDrv 0 CT_SD2 (enableCardDetect 6 true s0))).map
        (fun r => (r.1, r.2._status, r.2._cardType, r.2._active_clock))
      = some (STA_NODISK, 0, CT_SD2, 400000) := by
  refine ⟨by decide!, by decide!, by decide, by decide!, by decide!⟩

/-! ## `send_cmd`: the application-command exchange -/

/-- C5, as the code has it.  For a command index with the application-command
tag (bit 7) and every argument, let the ready-wait that `send_cmd` starts with
leave state `s1` and the ready-wait that opens the APP_CMD exchange leave
state `sA`.
(1) When the reselect step of the APP_CMD exchange succeeds (`select` answers
1, leaving state `s2`): everything shifted out up to `s2` is idle events; the
APP_CMD exchange then shifts out the complete frame `0x40 | 55`, argument 0,
trailer 0x01, followed by `k + 1` response polls, at most 10, and returns the
last byte polled.  If that response is greater than 1, `send_cmd` returns it
in the state the exchange left: nothing is shifted out after the polls, so no
frame for the wrapped command.  If it is at most 1 and the wrapped command
gets past its own reselect step (none for index 12; otherwise `select` answers
1, leaving `s4`), `send_cmd` returns after shifting out, behind idle events
only, the frame of the wrapped command with the tag removed.
(2) When the reselect step of the APP_CMD exchange fails (`select` answers
0), `send_cmd` returns 0xFF and all it has shifted out is idle events: no
APP_CMD frame and no frame for the wrapped command. -/
theorem send_cmd_app_first (W : World) (fuel cmd arg : Nat) (s s1 sA : State) (r0 r1 : Nat)
    (htag : cmd &&& 0x80 ≠ 0)
    (hw : wait_ready W fuel 10 s = some (r0, s1))
    (hwA : wait_ready W fuel 10 s1 = some (r1, sA)) :
    (∀ s2, select W fuel (deselect W sA) = some (1, s2) →
      ∃ pre k s3, pre.all Ev.isIdle = true ∧ s2.trace = s.trace ++ pre ∧ k < 10 ∧
        send_cmd W fuel CMD55 0 s1 = some (W.rx (s2.nbus + 6 + k), s3) ∧
        s3.trace = s2.trace ++ [Ev.xfer 0x77, Ev.xfer 0, Ev.xfer 0, Ev.xfer 0, Ev.xfer 0, Ev.xfer 0x01] ++ idles (k + 1) ∧
        (1 < W.rx (s2.nbus + 6 + k) →
          send_cmd W fuel cmd arg s = some (W.rx (s2.nbus + 6 + k), s3)) ∧
        (W.rx (s2.nbus + 6 + k) ≤ 1 →
          ∀ s4, ((cmd &&& 0x7F = CMD12 ∧ s4 = s3) ∨
              (cmd &&& 0x7F ≠ CMD12 ∧ select W fuel (deselect W s3) = some (1, s4))) →
            ∃ mid j r s', mid.all Ev.isIdle = true ∧ s4.trace = s3.trace ++ mid ∧
              send_cmd W fuel cmd arg s = some (r, s') ∧
              s'.trace = s4.trace ++ (cmd_packet (cmd &&& 0x7F) arg).map Ev.xfer
                ++ (if cmd &&& 0x7F = CMD12 then [Ev.xfer 0xFF] else []) ++ idles (j + 1))) ∧
    (∀ s2, select W fuel (deselect W sA) = some (0, s2) →
      send_cmd W fuel cmd arg s = some (0xFF, s2) ∧
      ∃ pre, pre.all Ev.isIdle = true ∧ s2.trace = s.trace ++ pre) := by
  obtain ⟨-, -, n, htr1, -⟩ := wait_ready_spec W fuel 10 s r0 s1 hw
  obtain ⟨-, -, m, htrA, -⟩ := wait_ready_spec W fuel 10 s1 r1 sA hwA
  have h55 : send_cmd W fuel CMD55 0 s1 = send_cmd_tail W fuel CMD55 0 sA := by
    rw [send_cmd_untagged W fuel CMD55 0 s1 (by decide), hwA]
  have hout : send_cmd W fuel cmd arg s =
      match send_cmd W fuel CMD55 0 s1 with
      | none => none
      | some (res, s2) =>
        if res > 1 then some (res, s2) else send_cmd_tail W fuel (cmd &&& 0x7F) arg s2 := by
    have h := send_cmd_tagged W fuel cmd arg s htag
    rw [hw] at h
    exact h
  have hpk : (cmd_packet CMD55 0).map Ev.xfer = [Ev.xfer 0x77, Ev.xfer 0, Ev.xfer 0, Ev.xfer 0, Ev.xfer 0, Ev.xfer 0x01] := by
    decide
  refine ⟨fun s2 hsel => ?_, fun s2 hsel => ?_⟩
  · obtain ⟨-, -, -, p, hsel_tr⟩ := select_spec W fuel _ 1 s2 hsel
    obtain ⟨k, s3, hk, hres, -, htr3, -, -⟩ :=
      send_cmd_tail_resp W fuel CMD55 0 sA s2 (Or.inr ⟨by decide, hsel⟩)
    have h12 : CMD55 ≠ CMD12 := by decide
    simp only [h12, ↓reduceIte, Nat.add_zero, List.append_nil, hpk] at hres htr3
    refine ⟨idles (n + 1) ++ idles (m + 1) ++ [Ev.cs true, Ev.xfer 0xFF]
        ++ Ev.cs false :: idles (p + 2), k, s3, ?_, ?_, hk, ?_, htr3, ?_, ?_⟩
    · simp [Ev.isIdle, idles]
    · rw [hsel_tr, deselect_trace, htrA, htr1]; simp
    · rw [h55, hres]
    · intro hgt
      rw [hout, h55, hres]
      simp only [gt_iff_lt, hgt, ↓reduceIte]
    · intro hle s4 hsel4
      have hout2 : send_cmd W fuel cmd arg s = send_cmd_tail W fuel (cmd &&& 0x7F) arg s3 := by
        rw [hout, h55, hres]
        simp only [gt_iff_lt, Nat.not_lt.mpr hle, ↓reduceIte]
      obtain ⟨j, s', -, hres4, -, htr4, -, -⟩ :=
        send_cmd_tail_resp W fuel (cmd &&& 0x7F) arg s3 s4 hsel4
      rcases hsel4 with ⟨-, rfl⟩ | ⟨-, hs4⟩
      · exact ⟨[], j, _, s', rfl, by simp, by rw [hout2, hres4], htr4⟩
      · obtain ⟨-, -, -, q, hq⟩ := select_spec W fuel _ 1 s4 hs4
        refine ⟨[Ev.cs true, Ev.xfer 0xFF] ++ Ev.cs false :: idles (q + 2), j, _, s', ?_, ?_,
          by rw [hout2, hres4], htr4⟩
        · simp [Ev.isIdle, idles]
        · rw [hq, deselect_trace]; simp
  · obtain ⟨-, -, -, p, hsel_tr⟩ := select_spec W fuel _ 0 s2 hsel
    have hff : send_cmd W fuel CMD55 0 s1 = some (0xFF, s2) := by
      rw [h55]
      simp only [send_cmd_tail, ne_eq, show CMD55 ≠ CMD12 by decide, not_false_eq_true,
        ↓reduceIte, hsel]
    refine ⟨?_, idles (n + 1) ++ idles (m + 1) ++ [Ev.cs true, Ev.xfer 0xFF]
        ++ Ev.cs false :: idles (p + 2) ++ [Ev.cs true, Ev.xfer 0xFF], ?_, ?_⟩
    · rw [hout, hff]
      simp
    · simp [Ev.isIdle, idles]
    · rw [hsel_tr, deselect_trace, htrA, htr1]; simp

set_option maxHeartbeats 4000000 in
theorem send_cmd_app_first_witness :
    (∃ pre k s3, pre.all Ev.isIdle = true ∧ (stateAfter (select (answerOnce 11 5) 5 (deselect (answerOnce 11 5) (stateAfter (wait_ready (answerOnce 11 5) 5 10 (stateAfter (wait_ready (answerOnce 11 5) 5 10 s0))))))).trace = s0.trace ++ pre ∧ k < 10 ∧
      send_cmd (answerOnce 11 5) 5 CMD55 0 (stateAfter (wait_ready (answerOnce 11 5) 5 10 s0)) = some ((answerOnce 11 5).rx ((stateAfter (select (answerOnce 11 5) 5 (deselect (answerOnce 11 5) (stateAfter (wait_ready (answerOnce 11 5) 5 10 (stateAfter (wait_ready (answerOnce 11 5) 5 10 s0))))))).nbus + 6 + k), s3) ∧
      s3.trace = (stateAfter (select (answerOnce 11 5) 5 (deselect (answerOnce 11 5) (stateAfter (wait_ready (answerOnce 11 5) 5 10 (stateAfter (wait_ready (answerOnce 11 5) 5 10 s0))))))).trace ++ [Ev.xfer 0x77, Ev.xfer 0, Ev.xfer 0, Ev.xfer 0, Ev.xfer 0, Ev.xfer 0x01] ++ idles (k + 1) ∧
      (1 < (answerOnce 11 5).rx ((stateAfter (select (answerOnce 11 5) 5 (deselect (answerOnce 11 5) (stateAfter (wait_ready (answerOnce 11 5) 5 10 (stateAfter (wait_ready (answerOnce 11 5) 5 10 s0))))))).nbus + 6 + k) →
        send_cmd (answerOnce 11 5) 5 ACMD41 0 s0 = some ((answerOnce 11 5).rx ((stateAfter (select (answerOnce 11 5) 5 (deselect (answerOnce 11 5) (stateAfter (wait_ready (answerOnce 11 5) 5 10 (stateAfter (wait_ready (answerOnce 11 5) 5 10 s0))))))).nbus + 6 + k), s3)) ∧
      ((answerOnce 11 5).rx ((stateAfter (select (answerOnce 11 5) 5 (deselect (answerOnce 11 5) (stateAfter (wait_ready (answerOnce 11 5) 5 10 (stateAfter (wait_ready (answerOnce 11 5) 5 10 s0))))))).nbus + 6 + k) ≤ 1 →
        ∀ s4, ((ACMD41 &&& 0x7F = CMD12 ∧ s4 = s3) ∨
            (ACMD41 &&& 0x7F ≠ CMD12 ∧ select (answerOnce 11 5) 5 (deselect (answerOnce 11 5) s3) = some (1, s4))) →
          ∃ mid j r s', mid.all Ev.isIdle = true ∧ s4.trace = s3.trace ++ mid ∧
            send_cmd (answerOnce 11 5) 5 ACMD41 0 s0 = some (r, s') ∧
            s'.trace = s4.trace ++ (cmd_packet (ACMD41 &&& 0x7F) 0).map Ev.xfer
              ++ (if ACMD41 &&& 0x7F = CMD12 then [Ev.xfer 0xFF] else []) ++ idles (j + 1))) ∧
    (send_cmd stuckCard 5 ACMD41 0 ready = some (0xFF, (stateAfter (select stuckCard 5 (deselect stuckCard (stateAfter (wait_ready stuckCard 5 10 (stateAfter (wait_ready stuckCard 5 10 ready)))))))) ∧
      ∃ pre, pre.all Ev.isIdle = true ∧ (stateAfter (select stuckCard 5 (deselect stuckCard (stateAfter (wait_ready stuckCard 5 10 (stateAfter (wait_ready stuckCard 5 10 ready))))))).trace = ready.trace ++ pre) :=
  ⟨(send_cmd_app_first (answerOnce 11 5) 5 ACMD41 0 s0 (stateAfter (wait_ready (answerOnce 11 5) 5 10 s0)) (stateAfter (wait_ready (answerOnce 11 5) 5 10 (stateAfter (wait_ready (answerOnce 11 5) 5 10 s0)))) 1 1 (by decide)
      (eq_some_stateAfter _ _ (by decide!)) (eq_some_stateAfter _ _ (by decide!))).1 (stateAfter (select (answerOnce 11 5) 5 (deselect (answerOnce 11 5) (stateAfter (wait_ready (answerOnce 11 5) 5 10 (stateAfter (wait_ready (answerOnce 11 5) 5 10 s0)))))))
      (eq_some_stateAfter _ _ (by decide!)),
   (send_cmd_app_first stuckCard 5 ACMD41 0 ready (stateAfter (wait_ready stuckCard 5 10 ready)) (stateAfter (wait_ready stuckCard 5 10 (stateAfter (wait_ready stuckCard 5 10 ready)))) 0 0 (by decide)
      (eq_some_stateAfter _ _ (by decide!)) (eq_some_stateAfter _ _ (by decide!))).2 (stateAfter (select stuckCard 5 (deselect stuckCard (stateAfter (wait_ready stuckCard 5 10 (stateAfter (wait_ready stuckCard 5 10 ready)))))))
      (eq_some_stateAfter _ _ (by decide!))⟩

/-- C5 as stated fails on a card that stays busy.  On `stuckCard`, which holds
the data line low, `send_cmd(ACMD41, 0)` returns 0xFF and the ten events it
put on the bus are idle bytes and chip-select changes: the reselect step of
the APP_CMD exchange failed, and no APP_CMD frame was shifted out.  On a card
that answers APP_CMD with 1 and on one that answers 5, the frame
`77 00 00 00 00 01` is the first thing shifted out that is not idle; after
the response 1 the frame of command 41 follows, after the response 5 nothing
does. -/
theorem send_cmd_app_no_frame :
    (send_cmd stuckCard 5 ACMD41 0 ready).map
        (fun r => (r.1, r.2.trace.drop ready.trace.length))
      = some (0xFF,
          [Ev.xfer 0xFF, Ev.xfer 0xFF, Ev.cs true, Ev.xfer 0xFF, Ev.cs false, Ev.xfer 0xFF,
           Ev.xfer 0xFF, Ev.xfer 0xFF, Ev.cs true, Ev.xfer 0xFF]) ∧
    (send_cmd (answerOnce 11 1) 5 ACMD41 0 s0).map
        (fun r => (r.1, r.2.trace.drop s0.trace.length))
      = some (0xFF,
          [Ev.xfer 0xFF, Ev.xfer 0xFF, Ev.cs true, Ev.xfer 0xFF, Ev.cs false, Ev.xfer 0xFF,
           Ev.xfer 0xFF]
            ++ [Ev.xfer 0x77, Ev.xfer 0, Ev.xfer 0, Ev.xfer 0, Ev.xfer 0, Ev.xfer 0x01]
            ++ [Ev.xfer 0xFF, Ev.cs true, Ev.xfer 0xFF, Ev.cs false, Ev.xfer 0xFF, Ev.xfer 0xFF]
            ++ [Ev.xfer 0x69, Ev.xfer 0, Ev.xfer 0, Ev.xfer 0, Ev.xfer 0, Ev.xfer 0x01]
            ++ idles 10) ∧
    (send_cmd (answerOnce 11 5) 5 ACMD41 0 s0).map
        (fun r => (r.1, r.2.trace.drop s0.trace.length))
      = some (5,
          [Ev.xfer 0xFF, Ev.xfer 0xFF, Ev.cs true, Ev.xfer 0xFF, Ev.cs false, Ev.xfer 0xFF,
           Ev.xfer 0xFF]
            ++ [Ev.xfer 0x77, Ev.xfer 0, Ev.xfer 0, Ev.xfer 0, Ev.xfer 0, Ev.xfer 0x01]
            ++ [Ev.xfer 0xFF]) := by
  refine ⟨by decide!, by decide!, by decide!⟩

/-! ## Bus positions -/

theorem busLen_append (a b : List Ev) : busLen (a ++ b) = busLen a + busLen b := by
  induction a with
  | nil => simp [busLen]
  | cons e es ih =>
    cases e <;> simp only [List.cons_append, busLen, List.append_eq, ih] <;> omega

theorem busLen_idles (n : Nat) : busLen (idles n) = n := by
  induction n with
  | zero => rfl
  | succ k ih => rw [idles_succ, busLen, ih]; omega

theorem busLen_xfers (bs : List Nat) : busLen (bs.map Ev.xfer) = bs.length := by
  induction bs with
  | nil => rfl
  | cons b bs ih => simp only [List.map_cons, busLen, ih, List.length_cons]; omega

theorem blocksOf_append (W : World) (a b : List Ev) (pos : Nat) :
    blocksOf W pos (a ++ b) = blocksOf W pos a ++ blocksOf W (pos + busLen a) b := by
  induction a generalizing pos with
  | nil => simp [blocksOf, busLen]
  | cons e es ih =>
    cases e with
    | xfer v =>
      simp only [List.cons_append, blocksOf, busLen, List.append_eq, ih]
      rw [show pos + 1 + busLen es = pos + (1 + busLen es) by omega]
    | burst l =>
      simp only [List.cons_append, blocksOf, busLen, List.append_eq, ih]
      rw [show pos + l.length + busLen es = pos + (l.length + busLen es) by omega]
    | cs v => simp only [List.cons_append, blocksOf, busLen, List.append_eq, ih]
    | delay v => simp only [List.cons_append, blocksOf, busLen, List.append_eq, ih]

theorem blocksOf_no_burst (W : World) (a : List Ev) (pos : Nat)
    (h : ∀ e ∈ a, e.isBurst = false) : blocksOf W pos a = [] := by
  induction a generalizing pos with
  | nil => rfl
  | cons e es ih =>
    have h1 := h e (List.mem_cons_self e es)
    have h2 : ∀ e' ∈ es, e'.isBurst = false := fun e' he' => h e' (List.mem_cons_of_mem e he')
    cases e with
    | xfer v => simp only [blocksOf, ih _ h2]
    | burst l => simp [Ev.isBurst] at h1
    | cs v => simp only [blocksOf, ih _ h2]
    | delay v => simp only [blocksOf, ih _ h2]

theorem Adv.arefl (s : State) : Adv s s := ⟨[], by simp, by simp [busLen]⟩

theorem Adv.atrans {a b c : State} (h1 : Adv a b) (h2 : Adv b c) : Adv a c := by
  obtain ⟨e1, t1, n1⟩ := h1
  obtain ⟨e2, t2, n2⟩ := h2
  exact ⟨e1 ++ e2, by rw [t2, t1, List.append_assoc], by rw [n2, n1, busLen_append]; omega⟩

/-- The extension of an `Adv` step is the one the traces show. -/
theorem Adv.nbus_of_trace {a b : State} (h : Adv a b) (ext : List Ev)
    (ht : b.trace = a.trace ++ ext) : b.nbus = a.nbus + busLen ext := by
  obtain ⟨e, t, n⟩ := h
  rw [t] at ht
  rw [n, List.append_cancel_left ht]

theorem Adv_xmit_spi (W : World) (b : Nat) (s : State) : Adv s (xmit_spi W b s).2 :=
  ⟨[Ev.xfer b], rfl, rfl⟩

theorem Adv_expired (W : World) (t : TimeoutChecker) (s : State) : Adv s (t.expired W s).2 :=
  ⟨[], by simp [TimeoutChecker.expired, millis], by simp [TimeoutChecker.expired, millis, busLen]⟩

theorem Adv_new (W : World) (d : Nat) (s : State) : Adv s (TimeoutChecker.new W d s).2 :=
  ⟨[], by simp [TimeoutChecker.new, TimeoutChecker.start, millis],
    by simp [TimeoutChecker.new, TimeoutChecker.start, millis, busLen]⟩

theorem Adv_deselect (W : World) (s : State) : Adv s (deselect W s) :=
  ⟨[Ev.cs true, Ev.xfer 0xFF], by rw [deselect_trace], by rw [deselect_nbus]; rfl⟩

theorem Adv_wait_ready (W : World) (fuel wt : Nat) (s : State) (r : Nat) (s' : State)
    (h : wait_ready W fuel wt s = some (r, s')) : Adv s s' := by
  obtain ⟨-, -, n, h1, h2⟩ := wait_ready_spec W fuel wt s r s' h
  exact ⟨idles (n + 1), h1, by rw [h2, busLen_idles]⟩

theorem Adv_select (W : World) (fuel : Nat) (s : State) (r : Nat) (s' : State)
    (h : select W fuel s = some (r, s')) : Adv s s' := by
  unfold select at h
  dsimp only at h
  split at h
  · simp at h
  · rename_i r1 s1 hw
    have h0 : Adv s (xmit_spi W 0xFF (assertCS s)).2 :=
      ⟨[Ev.cs false, Ev.xfer 0xFF], by simp [xmit_spi, assertCS], by simp [xmit_spi, assertCS, busLen]⟩
    have h1 := h0.atrans (Adv_wait_ready W fuel 100 _ r1 s1 hw)
    split at h
    · simp only [Option.some.injEq, Prod.mk.injEq] at h
      rw [← h.2]; exact h1
    · simp only [Option.some.injEq, Prod.mk.injEq] at h
      rw [← h.2]; exact h1.atrans (Adv_deselect W s1)

theorem Adv_recv_resp (n : Nat) (W : World) (s : State) : Adv s (recv_resp n W s).2 := by
  induction n generalizing s with
  | zero => exact Adv_xmit_spi W 0xFF s
  | succ k ih =>
    simp only [recv_resp]
    split
    · exact (Adv_xmit_spi W 0xFF s).atrans (ih _)
    · exact Adv_xmit_spi W 0xFF s

theorem Adv_xmit_list (W : World) (bs : List Nat) (s : State) : Adv s (xmit_list W bs s) := by
  obtain ⟨-, h2, h3⟩ := xmit_list_spec W bs s
  exact ⟨bs.map Ev.xfer, h2, by rw [h3, busLen_xfers]⟩

theorem Adv_send_cmd_tail (W : World) (fuel cmd arg : Nat) (s : State) (r : Nat) (s' : State)
    (h : send_cmd_tail W fuel cmd arg s = some (r, s')) : Adv s s' := by
  unfold send_cmd_tail at h
  dsimp only at h
  split at h
  · simp at h
  · rename_i ok s1 hsel
    have h1 : Adv s s1 := by
      split at hsel
      · exact (Adv_deselect W s).atrans (Adv_select W fuel _ ok s1 hsel)
      · simp only [Option.some.injEq, Prod.mk.injEq] at hsel
        rw [← hsel.2]; exact Adv.arefl s
    split at h
    · simp only [Option.some.injEq, Prod.mk.injEq] at h
      rw [← h.2]; exact h1
    · simp only [Option.some.injEq] at h
      have h2 := Adv_xmit_list W (cmd_packet cmd arg) s1
      have h3 : Adv (xmit_list W (cmd_packet cmd arg) s1)
          (if cmd = CMD12 then (xmit_spi W 0xFF (xmit_list W (cmd_packet cmd arg) s1)).2
           else xmit_list W (cmd_packet cmd arg) s1) := by
        split
        · exact Adv_xmit_spi W 0xFF _
        · exact Adv.arefl _
      have h4 := Adv_recv_resp 10 W (if cmd = CMD12 then
        (xmit_spi W 0xFF (xmit_list W (cmd_packet cmd arg) s1)).2
        else xmit_list W (cmd_packet cmd arg) s1)
      rw [h] at h4
      exact ((h1.atrans h2).atrans h3).atrans h4

theorem Adv_send_cmd (W : World) (fuel cmd arg : Nat) (s : State) (r : Nat) (s' : State)
    (hc : cmd &&& 0x80 = 0) (h : send_cmd W fuel cmd arg s = some (r, s')) : Adv s s' := by
  rw [send_cmd_untagged W fuel cmd arg s hc] at h
  split at h
  · simp at h
  · rename_i r0 s1 hw
    exact (Adv_wait_ready W fuel 10 s r0 s1 hw).atrans (Adv_send_cmd_tail W fuel cmd arg s1 r s' h)

/-! ## `read`: the blocks received and where they are stored -/

/-- What `rcvr_datablock` leaves, with bus positions: after `m + 1` token
polls either nothing is stored, or the token was 0xFE and the data stored is
the `btr` bytes shifted in right after it. -/
theorem rcvr_datablock_exact (W : World) (fuel btr : Nat) (s : State) (ok : Nat)
    (data : List Nat) (s' : State)
    (h : rcvr_datablock W fuel btr s = some ((ok, data), s')) :
    ∃ m, (ok = 0 ∧ s'.trace = s.trace ++ idles (m + 1) ∧ s'.nbus = s.nbus + (m + 1)) ∨
      (ok = 1 ∧ data = (List.range btr).map (fun i => W.rx (s.nbus + (m + 1) + i)) ∧
        s'.trace = s.trace ++ idles (m + 1) ++ [Ev.burst (List.replicate btr 0xFF), Ev.xfer 0xFF] ∧
        s'.nbus = s.nbus + (m + 1) + btr + 1) := by
  unfold rcvr_datablock at h
  dsimp only at h
  split at h
  · simp at h
  · rename_i tok s1 ht
    obtain ⟨-, m, h1, h2⟩ := rcvr_token_spec W _ fuel _ tok s1 ht
    have hn : (TimeoutChecker.new W 200 s).2.nbus = s.nbus := rfl
    have htr : (TimeoutChecker.new W 200 s).2.trace = s.trace := rfl
    rw [hn] at h2
    rw [htr] at h1
    refine ⟨m, ?_⟩
    split at h
    · simp only [Option.some.injEq, Prod.mk.injEq] at h
      obtain ⟨⟨rfl, -⟩, rfl⟩ := h
      exact Or.inl ⟨rfl, h1, h2⟩
    · simp only [rcvr_spi_multi, xmit_spi, Option.some.injEq, Prod.mk.injEq] at h
      obtain ⟨⟨rfl, rfl⟩, rfl⟩ := h
      refine Or.inr ⟨rfl, ?_, ?_, ?_⟩
      · rw [h2]
      · simp only [h1, List.append_assoc, List.cons_append, List.nil_append]
      · simp only [h2]

theorem busLen_block (m btr : Nat) :
    busLen (idles (m + 1) ++ [Ev.burst (List.replicate btr 0xFF), Ev.xfer 0xFF])
      = m + 1 + btr + 1 := by
  have h : busLen [Ev.burst (List.replicate btr 0xFF), Ev.xfer 0xFF]
      = (List.replicate btr 0xFF).length + (1 + 0) := rfl
  rw [busLen_append, busLen_idles, h, List.length_replicate]
  omega

theorem blocksOf_block (W : World) (pos m btr : Nat) :
    blocksOf W pos (idles (m + 1) ++ [Ev.burst (List.replicate btr 0xFF), Ev.xfer 0xFF])
      = [(List.range btr).map (fun i => W.rx (pos + (m + 1) + i))] := by
  have hidl : ∀ e ∈ idles (m + 1), e.isBurst = false := by
    intro e he
    rw [idles, List.mem_replicate] at he
    rw [he.2]; rfl
  have h : blocksOf W (pos + (m + 1)) [Ev.burst (List.replicate btr 0xFF), Ev.xfer 0xFF]
      = [(List.range (List.replicate btr 0xFF).length).map
          (fun i => W.rx (pos + (m + 1) + i))] := rfl
  rw [blocksOf_append, blocksOf_no_burst W _ _ hidl, busLen_idles, h, List.length_replicate]
  rfl

/-- The sector loop of `read`: when it exits no sector is left; every round
put a `ReadAttempt` for the same address on the bus; the blocks clocked in
during the bursts were stored one after the other from block number `k0`
on. -/
theorem read_loop_blocks (W : World) (fuel addr : Nat) (k : Nat) (buff : Nat → Nat)
    (count k0 : Nat) (s : State) (b : Nat → Nat) (c : Nat) (s' : State)
    (h : read_loop W fuel addr k buff count (k0 % U32) s = some ((b, c), s')) :
    c = 0 ∧
    ∃ segs : List (List Ev), s'.trace = s.trace ++ segs.flatten ∧
      s'.nbus = s.nbus + busLen segs.flatten ∧
      (∀ seg ∈ segs, ReadAttempt addr seg) ∧
      (blocksOf W s.nbus segs.flatten).length = count ∧
      (∀ d ∈ blocksOf W s.nbus segs.flatten, d.length = 512) ∧
      b = storeBlocks buff k0 (blocksOf W s.nbus segs.flatten) := by
  have hpkt : ∀ e ∈ (cmd_packet CMD17 addr).map Ev.xfer, e.isBurst = false := by
    intro e he
    obtain ⟨v, -, rfl⟩ := List.mem_map.mp he
    rfl
  have hidl : ∀ n, ∀ e ∈ idles n, e.isBurst = false := by
    intro n e he
    rw [idles, List.mem_replicate] at he
    rw [he.2]; rfl
  have hpre : ∀ pre : List Ev, pre.all Ev.isIdle = true → ∀ e ∈ pre, e.isBurst = false :=
    fun pre hp e he => isBurst_of_isIdle e (List.all_eq_true.mp hp e he)
  induction k generalizing buff count k0 s with
  | zero => simp [read_loop] at h
  | succ k ih =>
    rw [read_loop] at h
    split at h
    · rename_i hcnt
      split at h
      · simp at h
      · rename_i r1 s1 hc
        obtain ⟨-, pre, hp, hcase⟩ :=
          send_cmd_untagged_spec W fuel CMD17 addr s r1 s1 (by decide) hc
        have hadv := Adv_send_cmd W fuel CMD17 addr s r1 s1 (by decide) hc
        -- a failed round: the rest of the loop, shifted by the round
        have failed : ∀ seg : List Ev, ReadAttempt addr seg → (∀ e ∈ seg, e.isBurst = false) →
            ∀ s2 : State, s2.trace = s.trace ++ seg → s2.nbus = s.nbus + busLen seg →
            read_loop W fuel addr k buff count (k0 % U32) s2 = some ((b, c), s') →
            c = 0 ∧
            ∃ segs : List (List Ev), s'.trace = s.trace ++ segs.flatten ∧
              s'.nbus = s.nbus + busLen segs.flatten ∧
              (∀ seg ∈ segs, ReadAttempt addr seg) ∧
              (blocksOf W s.nbus segs.flatten).length = count ∧
              (∀ d ∈ blocksOf W s.nbus segs.flatten, d.length = 512) ∧
              b = storeBlocks buff k0 (blocksOf W s.nbus segs.flatten) := by
          intro seg hseg hnb s2 ht2 hn2 hrest
          obtain ⟨hc0, segs, hs, hn, hsegs, hlen, hd, hb⟩ := ih _ _ _ _ hrest
          have hbl : blocksOf W s.nbus (seg :: segs).flatten = blocksOf W s2.nbus segs.flatten := by
            rw [List.flatten_cons, blocksOf_append, blocksOf_no_burst W seg _ hnb, hn2]
            rfl
          refine ⟨hc0, seg :: segs, ?_, ?_, ?_, ?_, ?_, ?_⟩
          · rw [hs, ht2, List.flatten_cons, List.append_assoc]
          · rw [hn, hn2, List.flatten_cons, busLen_append]; omega
          · intro x hx
            rcases List.mem_cons.mp hx with hq | hx
            · rw [hq]; exact hseg
            · exact hsegs x hx
          · rw [hbl]; exact hlen
          · rw [hbl]; exact hd
          · rw [hbl]; exact hb
        split at h
        · rename_i hr
          have htr1 : ∃ n, s1.trace
              = s.trace ++ (pre ++ (cmd_packet CMD17 addr).map Ev.xfer ++ idles (n + 1)) := by
            rcases hcase with ⟨-, hff, -⟩ | ⟨n, htr, -⟩
            · rw [hr] at hff; exact absurd hff (by decide)
            · exact ⟨n, by rw [htr]; simp only [List.append_assoc]⟩
          obtain ⟨n, htr1⟩ := htr1
          have hn1 := hadv.nbus_of_trace _ htr1
          have hnb1 : ∀ e ∈ pre ++ (cmd_packet CMD17 addr).map Ev.xfer ++ idles (n + 1),
              e.isBurst = false := by
            intro e he
            rcases List.mem_append.mp he with he | he
            · rcases List.mem_append.mp he with he | he
              · exact hpre pre hp e he
              · exact hpkt e he
            · exact hidl _ e he
          split at h
          · simp at h
          · rename_i ok data s2 hd
            obtain ⟨m, hd2⟩ := rcvr_datablock_exact W fuel 512 s1 ok data s2 hd
            split at h
            · rename_i hok
              rcases hd2 with ⟨h0, -⟩ | ⟨-, hdata, htr2, hn2⟩
              · exact absurd h0 hok
              · have hk : (k0 % U32 + 1) % U32 = (k0 + 1) % U32 := by
                  simp only [U32]; omega
                rw [hk, offset_mod] at h
                obtain ⟨hc0, segs, hs, hn, hsegs, hlen, hdl, hb⟩ := ih _ _ _ _ h
                have hidles : idles (n + 1) ++ idles (m + 1) = idles (n + m + 1 + 1) := by
                  rw [idles_add]; congr 1; omega
                have hseg_eq : (pre ++ (cmd_packet CMD17 addr).map Ev.xfer ++ idles (n + 1))
                    ++ (idles (m + 1) ++ [Ev.burst (List.replicate 512 0xFF), Ev.xfer 0xFF])
                    = pre ++ (cmd_packet CMD17 addr).map Ev.xfer ++ idles (n + m + 1 + 1)
                      ++ [Ev.burst (List.replicate 512 0xFF), Ev.xfer 0xFF] := by
                  simp only [List.append_assoc, ← hidles]
                have hatt : ReadAttempt addr
                    (pre ++ (cmd_packet CMD17 addr).map Ev.xfer ++ idles (n + m + 1 + 1)
                      ++ [Ev.burst (List.replicate 512 0xFF), Ev.xfer 0xFF]) :=
                  ⟨pre, hp, Or.inr ⟨n + m + 1, Or.inr rfl⟩⟩
                rw [← hseg_eq] at hatt
                generalize pre ++ (cmd_packet CMD17 addr).map Ev.xfer ++ idles (n + 1) = A
                  at htr1 hn1 hnb1 hatt
                have hpos : s.nbus + (busLen A + (m + 1 + 512 + 1)) = s2.nbus := by
                  rw [hn2, hn1]; omega
                have hbl : blocksOf W s.nbus
                    ((A ++ (idles (m + 1) ++ [Ev.burst (List.replicate 512 0xFF), Ev.xfer 0xFF]))
                      :: segs).flatten
                    = data :: blocksOf W s2.nbus segs.flatten := by
                  rw [List.flatten_cons, blocksOf_append W (A ++ _), blocksOf_append W A,
                    blocksOf_no_burst W A _ hnb1, blocksOf_block, busLen_append A, busLen_block,
                    hpos, ← hn1, hdata]
                  rfl
                refine ⟨hc0,
                  (A ++ (idles (m + 1) ++ [Ev.burst (List.replicate 512 0xFF), Ev.xfer 0xFF]))
                    :: segs, ?_, ?_, ?_, ?_, ?_, ?_⟩
                · rw [hs, htr2, htr1, List.flatten_cons]
                  simp only [List.append_assoc]
                · rw [hn, List.flatten_cons, busLen_append _ segs.flatten, busLen_append A,
                    busLen_block, ← hpos]
                  omega
                · intro x hx
                  rcases List.mem_cons.mp hx with hq | hx
                  · rw [hq]; exact hatt
                  · exact hsegs x hx
                · rw [hbl, List.length_cons, hlen]; omega
                · rw [hbl]
                  intro d hd'
                  rcases List.mem_cons.mp hd' with hq | hd'
                  · rw [hq, hdata]; simp
                  · exact hdl d hd'
                · rw [hbl, hb]; rfl
            · rename_i hok
              rcases hd2 with ⟨-, htr2, hn2⟩ | ⟨h1, -⟩
              · have hidles : idles (n + 1) ++ idles (m + 1) = idles (n + m + 1 + 1) := by
                  rw [idles_add]; congr 1; omega
                refine failed (pre ++ (cmd_packet CMD17 addr).map Ev.xfer ++ idles (n + m + 1 + 1))
                  ⟨pre, hp, Or.inr ⟨n + m + 1, Or.inl rfl⟩⟩ ?_ s2 ?_ ?_ h
                · intro e he
                  rcases List.mem_append.mp he with he | he
                  · rcases List.mem_append.mp he with he | he
                    · exact hpre pre hp e he
                    · exact hpkt e he
                  · exact hidl _ e he
                · rw [htr2, htr1, ← hidles]; simp only [List.append_assoc]
                · rw [hn2, hn1, ← hidles, ← List.append_assoc,
                    busLen_append _ (idles (m + 1)), busLen_idles]
                  omega
              · rw [h1] at hok
                exact absurd (by decide) hok
        · rcases hcase with ⟨-, -, -, htr⟩ | ⟨n, htr, -⟩
          · exact failed pre ⟨pre, hp, Or.inl rfl⟩ (hpre pre hp) s1 htr
              (hadv.nbus_of_trace _ htr) h
          · have htr' : s1.trace
                = s.trace ++ (pre ++ (cmd_packet CMD17 addr).map Ev.xfer ++ idles (n + 1)) := by
              rw [htr]; simp only [List.append_assoc]
            refine failed (pre ++ (cmd_packet CMD17 addr).map Ev.xfer ++ idles (n + 1))
              ⟨pre, hp, Or.inr ⟨n, Or.inl rfl⟩⟩ ?_ s1 htr' (hadv.nbus_of_trace _ htr') h
            intro e he
            rcases List.mem_append.mp he with he | he
            · rcases List.mem_append.mp he with he | he
              · exact hpre pre hp e he
              · exact hpkt e he
            · exact hidl _ e he
    · rename_i hcnt
      simp only [Option.some.injEq, Prod.mk.injEq] at h
      obtain ⟨⟨rfl, rfl⟩, rfl⟩ := h
      have hc0 : count = 0 := not_not.mp hcnt
      exact ⟨hc0, [], by simp, by simp [busLen], by simp, by rw [hc0]; rfl,
        by simp [blocksOf], rfl⟩

theorem store_outside (buff : Nat → Nat) (off : Nat) (d : List Nat) (a : Nat)
    (ha : a < off ∨ off + d.length ≤ a) : store buff off d a = buff a := by
  unfold store
  rw [if_neg (by omega)]

theorem store_inside (buff : Nat → Nat) (off : Nat) (d : List Nat) (i : Nat)
    (hi : i < d.length) : store buff off d (off + i) = d.getD i 0 := by
  unfold store
  rw [if_pos (by omega), Nat.add_sub_cancel_left]

/-- Blocks stored by `storeBlocks` leave every address outside their range as
it was. -/
theorem storeBlocks_outside (blocks : List (List Nat)) (buff : Nat → Nat) (k0 a : Nat)
    (hlen : ∀ d ∈ blocks, d.length = 512) (hk : k0 + blocks.length ≤ 2 ^ 23)
    (ha : a < 512 * k0 ∨ 512 * (k0 + blocks.length) ≤ a) :
    storeBlocks buff k0 blocks a = buff a := by
  induction blocks generalizing buff k0 with
  | nil => rfl
  | cons d ds ih =>
    have hd : d.length = 512 := hlen d (List.mem_cons_self d ds)
    have hds : ∀ x ∈ ds, x.length = 512 := fun x hx => hlen x (List.mem_cons_of_mem d hx)
    simp only [List.length_cons] at hk ha
    have hoff : 512 * k0 % U32 = 512 * k0 := by simp only [U32]; omega
    rw [storeBlocks, hoff, ih _ (k0 + 1) hds (by omega) (by omega),
      store_outside _ _ _ _ (by omega)]

/-- Below 2^23 blocks, `storeBlocks` puts byte `i` of block number `j` at
address `512 * (k0 + j) + i`. -/
theorem storeBlocks_get (blocks : List (List Nat)) (buff : Nat → Nat) (k0 j i : Nat)
    (hlen : ∀ d ∈ blocks, d.length = 512) (hk : k0 + blocks.length ≤ 2 ^ 23)
    (hj : j < blocks.length) (hi : i < 512) :
    storeBlocks buff k0 blocks (512 * (k0 + j) + i) = (blocks.getD j []).getD i 0 := by
  induction blocks generalizing buff k0 j with
  | nil => simp at hj
  | cons d ds ih =>
    have hd : d.length = 512 := hlen d (List.mem_cons_self d ds)
    have hds : ∀ x ∈ ds, x.length = 512 := fun x hx => hlen x (List.mem_cons_of_mem d hx)
    simp only [List.length_cons] at hk hj
    have hoff : 512 * k0 % U32 = 512 * k0 := by simp only [U32]; omega
    rw [storeBlocks, hoff]
    cases j with
    | zero =>
      rw [storeBlocks_outside ds _ (k0 + 1) _ hds (by omega) (by omega)]
      simp only [Nat.add_zero, List.getD_cons_zero]
      exact store_inside buff (512 * k0) d i (by omega)
    | succ j =>
      have h := ih (store buff (512 * k0) d) (k0 + 1) j hds (by omega) (by omega)
      rw [show 512 * (k0 + (j + 1)) + i = 512 * (k0 + 1 + j) + i by omega, h]
      simp only [List.getD_cons_succ]

/-- C20.  For a `read` of `count` sectors from sector `sector` on a driver
that passes the readiness test (card present, NOT_INITIALIZED clear), whenever
the call returns:
(1) the result is OK, never ERROR;
(2) what it put on the bus is a sequence of rounds followed by the final
deselect, and every round that sent a command sent the READ_SINGLE_BLOCK
packet with the one address `cardAddr s sector` (the sector number for a
block-addressed card, `sector * 512 mod 2^32` otherwise);
(3) the bursts of these rounds clocked in exactly `count` blocks of 512 bytes,
block number `j` being the bytes the card shifted in during burst number `j`,
and the buffer returned is the buffer given with block number `j` stored at
offset `512 * j mod 2^32`, one block after the other;
(4) for `count` up to 2^23 that offset is `512 * j`: byte `i` of block `j` is
at address `512 * j + i` of the buffer returned, and every address from
`512 * count` on holds what it held before. -/
theorem read_same_address (W : World) (fuel : Nat) (buff : Nat → Nat) (sector count : Nat)
    (s : State) (p : Nat × (Nat → Nat)) (s' : State)
    (hcd : (cardPresent W (lock s)).1 = true) (hst : s._status &&& STA_NOINIT = 0)
    (h : read W fuel buff sector count s = some (p, s')) :
    p.1 = RES_OK ∧
    ∃ segs : List (List Ev),
      s'.trace = s.trace ++ segs.flatten ++ [Ev.cs true, Ev.xfer 0xFF] ∧
      (∀ seg ∈ segs, ReadAttempt (cardAddr s sector) seg) ∧
      (blocksOf W s.nbus segs.flatten).length = count ∧
      (∀ d ∈ blocksOf W s.nbus segs.flatten, d.length = 512) ∧
      p.2 = storeBlocks buff 0 (blocksOf W s.nbus segs.flatten) ∧
      (count ≤ 2 ^ 23 →
        (∀ j i, j < count → i < 512 →
          p.2 (512 * j + i) = ((blocksOf W s.nbus segs.flatten).getD j []).getD i 0) ∧
        (∀ a, 512 * count ≤ a → p.2 a = buff a)) := by
  have hnb : (cardPresent W (lock s)).2.nbus = s.nbus := by
    rw [(cardPresent_keeps W (lock s)).2.2.2.1]; rfl
  rw [read_gates W fuel buff sector count s hcd hst] at h
  split at h
  · simp at h
  · rename_i b c s1 hl
    simp only [Option.some.injEq, Prod.mk.injEq] at h
    obtain ⟨rfl, rfl⟩ := h
    obtain ⟨hc0, segs, hs, -, hseg, hlen, hd, hb⟩ :=
      read_loop_blocks W fuel (cardAddr s sector) fuel buff count 0 _ b c s1 hl
    rw [hnb] at hlen hd hb
    refine ⟨by rw [hc0]; rfl, segs, ?_, hseg, hlen, hd, hb, fun hcount => ⟨?_, ?_⟩⟩
    · show (deselect W s1).trace = _
      rw [deselect_trace, hs, (cardPresent_fields W s).2.2]
    · intro j i hj hi
      show b (512 * j + i) = _
      rw [hb]
      have := storeBlocks_get (blocksOf W s.nbus segs.flatten) buff 0 j i hd
        (by rw [hlen]; omega) (by rw [hlen]; exact hj) hi
      rw [Nat.zero_add] at this
      exact this
    · intro a ha
      show b a = _
      rw [hb]
      exact storeBlocks_outside _ buff 0 a hd (by rw [hlen]; omega)
        (Or.inr (by rw [hlen]; omega))

set_option maxHeartbeats 2000000 in
theorem read_same_address_witness :
    (((read twoReadCard 5 zeros 3 2 readyV1).map Prod.fst).getD (0, zeros)).1 = RES_OK ∧
    ∃ segs : List (List Ev),
      (stateAfter (read twoReadCard 5 zeros 3 2 readyV1)).trace
        = readyV1.trace ++ segs.flatten ++ [Ev.cs true, Ev.xfer 0xFF] ∧
      (∀ seg ∈ segs, ReadAttempt (cardAddr readyV1 3) seg) ∧
      (blocksOf twoReadCard readyV1.nbus segs.flatten).length = 2 ∧
      (∀ d ∈ blocksOf twoReadCard readyV1.nbus segs.flatten, d.length = 512) ∧
      (((read twoReadCard 5 zeros 3 2 readyV1).map Prod.fst).getD (0, zeros)).2
        = storeBlocks zeros 0 (blocksOf twoReadCard readyV1.nbus segs.flatten) ∧
      (2 ≤ 2 ^ 23 →
        (∀ j i, j < 2 → i < 512 →
          (((read twoReadCard 5 zeros 3 2 readyV1).map Prod.fst).getD (0, zeros)).2
              (512 * j + i)
            = ((blocksOf twoReadCard readyV1.nbus segs.flatten).getD j []).getD i 0) ∧
        (∀ a, 512 * 2 ≤ a →
          (((read twoReadCard 5 zeros 3 2 readyV1).map Prod.fst).getD (0, zeros)).2 a
            = zeros a)) :=
  read_same_address twoReadCard 5 zeros 3 2 readyV1
    (((read twoReadCard 5 zeros 3 2 readyV1).map Prod.fst).getD (0, zeros))
    (stateAfter (read twoReadCard 5 zeros 3 2 readyV1)) (by decide) (by decide)
    (eq_some_of_isSome (read twoReadCard 5 zeros 3 2 readyV1) (0, zeros) (by decide!))

/-! ## `write`: the stop-transmission block and the card's readiness -/

/-- The loop of `wait_ready`, poll by poll: every byte but the last is not
0xFF with the timer not expired at the check after it; the last is 0xFF, or
is not and the timer has expired at the check after it. -/
theorem wait_ready_loop_exact (W : World) (t : TimeoutChecker) (fuel : Nat) (s : State)
    (d : Nat) (s' : State) (h : wait_ready_loop W t fuel s = some (d, s')) :
    ∃ k, (∀ j, j < k → W.rx (s.nbus + j) ≠ 0xFF ∧
        t.expiredAt (W.millis (s.nclk + j) % U32) = false) ∧
      d = W.rx (s.nbus + k) ∧
      s'.trace = s.trace ++ idles (k + 1) ∧ s'.nbus = s.nbus + (k + 1) ∧
      ((d = 0xFF ∧ s'.nclk = s.nclk + k) ∨
       (d ≠ 0xFF ∧ t.expiredAt (W.millis (s.nclk + k) % U32) = true ∧
         s'.nclk = s.nclk + k + 1)) := by
  induction fuel generalizing s with
  | zero => simp [wait_ready_loop] at h
  | succ f ih =>
    simp only [wait_ready_loop] at h
    split at h
    · rename_i hd
      split at h
      · rename_i hex
        obtain ⟨k, hk, hdk, htr, hnb, hend⟩ := ih _ h
        have e1 : (t.expired W (xmit_spi W 0xFF s).2).2.nbus = s.nbus + 1 := rfl
        have e2 : (t.expired W (xmit_spi W 0xFF s).2).2.nclk = s.nclk + 1 := rfl
        have e3 : (t.expired W (xmit_spi W 0xFF s).2).2.trace = s.trace ++ [Ev.xfer 0xFF] := rfl
        have e4 : (t.expired W (xmit_spi W 0xFF s).2).1
            = t.expiredAt (W.millis s.nclk % U32) := rfl
        simp only [e1, e2, e3] at hk hdk htr hnb hend
        refine ⟨k + 1, ?_, ?_, ?_, ?_, ?_⟩
        · intro j hj
          cases j with
          | zero =>
            refine ⟨hd, ?_⟩
            rw [e4] at hex
            simpa using hex
          | succ j =>
            have := hk j (by omega)
            rw [show s.nbus + (j + 1) = s.nbus + 1 + j by omega,
              show s.nclk + (j + 1) = s.nclk + 1 + j by omega]
            exact this
        · rw [hdk, show s.nbus + (k + 1) = s.nbus + 1 + k by omega]
        · rw [htr, List.append_assoc]
          congr 1
        · rw [hnb]; omega
        · rw [show s.nclk + (k + 1) = s.nclk + 1 + k by omega]
          exact hend
      · rename_i hex
        simp only [Option.some.injEq, Prod.mk.injEq] at h
        obtain ⟨rfl, rfl⟩ := h
        have e4 : (t.expired W (xmit_spi W 0xFF s).2).1
            = t.expiredAt (W.millis s.nclk % U32) := rfl
        refine ⟨0, fun j hj => absurd hj (by omega), rfl, rfl, rfl, Or.inr ⟨hd, ?_, rfl⟩⟩
        rw [e4] at hex
        simpa using hex
    · rename_i hd
      simp only [Option.some.injEq, Prod.mk.injEq] at h
      obtain ⟨rfl, rfl⟩ := h
      exact ⟨0, fun j hj => absurd hj (by omega), rfl, rfl, rfl,
        Or.inl ⟨not_not.mp hd, rfl⟩⟩

/-- `wait_ready(wt)` answers 1 exactly when its `ReadyWait` ends ready. -/
theorem wait_ready_exact (W : World) (fuel wt : Nat) (s : State) (r : Nat) (s' : State)
    (h : wait_ready W fuel wt s = some (r, s')) :
    ∃ k, s'.trace = s.trace ++ idles (k + 1) ∧ s'.nbus = s.nbus + (k + 1) ∧
      ((r = 1 ∧ ReadyWait W wt s.nbus s.nclk k true ∧ s'.nclk = s.nclk + 1 + k) ∨
       (r = 0 ∧ ReadyWait W wt s.nbus s.nclk k false ∧ s'.nclk = s.nclk + 1 + k + 1)) := by
  unfold wait_ready at h
  dsimp only at h
  split at h
  · simp at h
  · rename_i d s1 hl
    obtain ⟨k, hk, hdk, htr, hnb, hend⟩ := wait_ready_loop_exact W _ fuel _ d s1 hl
    have e0 : (TimeoutChecker.new W wt s).1 = timerAt W wt s.nclk := rfl
    have e1 : (TimeoutChecker.new W wt s).2.nbus = s.nbus := rfl
    have e2 : (TimeoutChecker.new W wt s).2.nclk = s.nclk + 1 := rfl
    have e3 : (TimeoutChecker.new W wt s).2.trace = s.trace := rfl
    simp only [e0, e1, e2, e3] at hk hdk htr hnb hend
    simp only [Option.some.injEq, Prod.mk.injEq] at h
    obtain ⟨rfl, rfl⟩ := h
    refine ⟨k, htr, hnb, ?_⟩
    rcases hend with ⟨hd, hc⟩ | ⟨hd, hex, hc⟩
    · left
      refine ⟨by rw [if_pos hd], ⟨hk, ?_⟩, hc⟩
      simp only [↓reduceIte]
      rw [← hdk]; exact hd
    · right
      refine ⟨by rw [if_neg hd], ⟨hk, ?_⟩, hc⟩
      simp only [Bool.false_eq_true, ↓reduceIte]
      rw [← hdk]; exact ⟨hd, hex⟩

/-- What `xmit_datablock` does, tied to the card: its 100 ms ready-wait ends
not ready and nothing more is sent (result 0), or it ends ready and the lone
token follows for STOP_TRAN (result 1), or token, data burst, two CRC bytes
and the response poll, with result 1 exactly when the response is
"accepted". -/
theorem xmit_datablock_exact (W : World) (fuel : Nat) (buff : Nat → Nat) (off token : Nat)
    (s : State) (ok : Nat) (s' : State)
    (h : xmit_datablock W fuel buff off token s = some (ok, s')) :
    ∃ k,
      (ReadyWait W 100 s.nbus s.nclk k false ∧ ok = 0 ∧
        s'.trace = s.trace ++ idles (k + 1) ∧ s'.nbus = s.nbus + (k + 1) ∧
        s'.nclk = s.nclk + 1 + k + 1) ∨
      (ReadyWait W 100 s.nbus s.nclk k true ∧ s'.nclk = s.nclk + 1 + k ∧
        ((token = 0xFD ∧ ok = 1 ∧ s'.trace = s.trace ++ idles (k + 1) ++ [Ev.xfer 0xFD] ∧
            s'.nbus = s.nbus + (k + 1) + 1) ∨
         (token ≠ 0xFD ∧ s'.trace = s.trace ++ idles (k + 1) ++ blockEvents buff off token ∧
            s'.nbus = respPos s.nbus k + 1 ∧
            ((ok = 1 ∧ accepted (W.rx (respPos s.nbus k)) = true) ∨
             (ok = 0 ∧ accepted (W.rx (respPos s.nbus k)) = false))))) := by
  unfold xmit_datablock at h
  split at h
  · simp at h
  · rename_i r s1 hw
    obtain ⟨k, h2, h3, hcase⟩ := wait_ready_exact W fuel 100 s r s1 hw
    refine ⟨k, ?_⟩
    rcases hcase with ⟨rfl, hrw, hclk⟩ | ⟨rfl, hrw, hclk⟩
    · right
      simp only [one_ne_zero, ↓reduceIte] at h
      split at h
      · rename_i htok
        split at h
        · simp only [Option.some.injEq, Prod.mk.injEq] at h
          obtain ⟨rfl, rfl⟩ := h
          refine ⟨hrw, ?_, Or.inr ⟨htok, ?_, ?_, Or.inr ⟨rfl, ?_⟩⟩⟩
          · simp [xmit_spi, xmit_spi_multi, hclk]
          · simp [xmit_spi, xmit_spi_multi, h2, blockEvents]
          · simp [xmit_spi, xmit_spi_multi, h3, respPos]
          · rename_i hr
            simpa [xmit_spi, xmit_spi_multi, h3, respPos, Nat.add_assoc, accepted] using hr
        · simp only [Option.some.injEq, Prod.mk.injEq] at h
          obtain ⟨rfl, rfl⟩ := h
          refine ⟨hrw, ?_, Or.inr ⟨htok, ?_, ?_, Or.inl ⟨rfl, ?_⟩⟩⟩
          · simp [xmit_spi, xmit_spi_multi, hclk]
          · simp [xmit_spi, xmit_spi_multi, h2, blockEvents]
          · simp [xmit_spi, xmit_spi_multi, h3, respPos]
          · rename_i hr
            simpa [xmit_spi, xmit_spi_multi, h3, respPos, Nat.add_assoc, accepted] using hr
      · rename_i htok
        simp only [ne_eq, Decidable.not_not] at htok
        simp only [Option.some.injEq, Prod.mk.injEq] at h
        obtain ⟨rfl, rfl⟩ := h
        refine ⟨hrw, ?_, Or.inl ⟨htok, rfl, ?_, ?_⟩⟩
        · simp [xmit_spi, hclk]
        · simp [xmit_spi, h2, htok]
        · simp [xmit_spi, h3]
    · left
      simp only [↓reduceIte, Option.some.injEq, Prod.mk.injEq] at h
      obtain ⟨rfl, rfl⟩ := h
      exact ⟨hrw, rfl, h2, h3, hclk⟩

/-- The block loop of `write` sends a `BlockSeq`. -/
theorem write_loop_exact (W : World) (fuel : Nat) (buff : Nat → Nat) (k off count : Nat)
    (s : State) (left : Nat) (s' : State)
    (h : write_loop W fuel buff k off count s = some (left, s')) :
    ∃ run, s'.trace = s.trace ++ run ∧
      BlockSeq W buff s.nbus s.nclk off count run left s'.nbus s'.nclk := by
  induction k generalizing off count s with
  | zero => simp [write_loop] at h
  | succ k ih =>
    simp only [write_loop] at h
    split at h
    · simp at h
    · rename_i ok s1 hx
      obtain ⟨j, hc⟩ := xmit_datablock_exact W fuel buff off 0xFC s ok s1 hx
      rcases hc with ⟨hrw, rfl, h2, h3, h4⟩ | ⟨hrw, h4, ⟨htok, -⟩ | ⟨-, h2, h3, hc⟩⟩
      · simp only [↓reduceIte, Option.some.injEq, Prod.mk.injEq] at h
        obtain ⟨rfl, rfl⟩ := h
        exact ⟨_, h2, BlockSeq.notReady _ _ _ _ j _ _ _ hrw rfl h3 h4⟩
      · exact absurd htok (by decide)
      · rcases hc with ⟨rfl, hacc⟩ | ⟨rfl, hrej⟩
        · simp only [one_ne_zero, ↓reduceIte] at h
          split at h
          · rename_i hn
            obtain ⟨run, h5, h6⟩ := ih _ _ _ h
            refine ⟨_, ?_, BlockSeq.more _ _ _ _ j _ _ _ _ _ run left _ _ hrw rfl hacc h3 h4
              rfl rfl hn h6⟩
            rw [h5, h2]; simp
          · rename_i hn
            simp only [ne_eq, Decidable.not_not] at hn
            simp only [Option.some.injEq, Prod.mk.injEq] at h
            obtain ⟨rfl, rfl⟩ := h
            rw [hn]
            exact ⟨_, by rw [h2, List.append_assoc],
              BlockSeq.last _ _ _ _ j _ _ _ hrw rfl hacc hn h3 h4⟩
        · simp only [↓reduceIte, Option.some.injEq, Prod.mk.injEq] at h
          obtain ⟨rfl, rfl⟩ := h
          exact ⟨_, by rw [h2, List.append_assoc],
            BlockSeq.rejected _ _ _ _ j _ _ _ hrw rfl hrej h3 h4⟩

/-- A `BlockSeq` holds no stop token. -/
theorem BlockSeq.no_stop_token {W : World} {buff : Nat → Nat} {pos clk off n : Nat}
    {run : List Ev} {left pos' clk' : Nat}
    (h : BlockSeq W buff pos clk off n run left pos' clk') : Ev.xfer 0xFD ∉ run := by
  induction h with
  | notReady pos clk off n k tr pos' clk' hw htr hpos hclk => subst htr; simp [idles]
  | rejected pos clk off n k tr pos' clk' hw htr h hpos hclk =>
    subst htr; simp [idles, blockEvents]
  | last pos clk off n k tr pos' clk' hw htr h hn hpos hclk =>
    subst htr; simp [idles, blockEvents]
  | more pos clk off n k pos1 clk1 off1 n1 tr run left pos' clk' hw htr h hpos hclk hoff hn1
      hn rest ih =>
    subst htr; simp [idles, blockEvents, ih]

/-- The card and the clock decide how a ready-wait goes: two descriptions of
the same wait agree on the number of polls and on the outcome. -/
theorem ReadyWait.same_polls {W : World} {wt pos clk k k' : Nat} {r r' : Bool}
    (h : ReadyWait W wt pos clk k r) (h' : ReadyWait W wt pos clk k' r') :
    k = k' ∧ r = r' := by
  have key : ∀ (a b : Nat) (x y : Bool), ReadyWait W wt pos clk a x →
      ReadyWait W wt pos clk b y → ¬ a < b := by
    intro a b x y ha hb hlt
    obtain ⟨hb1, hb2⟩ := hb.1 a hlt
    have ha2 := ha.2
    cases x with
    | true =>
      simp only [↓reduceIte] at ha2
      exact hb1 ha2
    | false =>
      simp only [Bool.false_eq_true, ↓reduceIte] at ha2
      rw [ha2.2] at hb2
      exact absurd hb2 (by decide)
  have hk : k = k' := by
    have h1 := key k k' r r' h h'
    have h2 := key k' k r' r h' h
    omega
  subst hk
  refine ⟨rfl, ?_⟩
  have a := h.2
  have b := h'.2
  cases r <;> cases r' <;> simp_all

/-- C8, as the code has it.  For a `write` of more than one sector that
passes the presence, write-protect and initialisation gates, let
WRITE_MULTIPLE_BLOCK return the response `r` in state `sC`.
(1) If `r` is not 0, no data block and no stop token is sent: the call
deselects and returns ERROR.
(2) If `r` is 0 then, whatever the card does, what follows the command on the
bus is a `BlockSeq`, that is the data blocks, each sent exactly when the card
reported ready within its 100 ms wait, with a block that fails (card not
ready, or data response not "accepted") being the last one; it holds no stop
token.  Then comes the ready-wait of the one stop-transmission block, which
starts where the data blocks ended.  If the card reports ready in that wait,
the token 0xFD is sent, once, and the result is OK exactly when every block
was accepted; if it does not, no token is sent and the result is ERROR.  The
deselect follows.  The number of 0xFD tokens on the bus after the command is
1 in the first case and 0 in the second. -/
theorem write_multi_stop (W : World) (fuel : Nat) (buff : Nat → Nat) (sector count : Nat)
    (s sP sC : State) (r : Nat)
    (hcount : 1 < count)
    (hcd : (cardPresent W (lock s)).1 = true)
    (hwp : (writeProtected W (cardPresent W (lock s)).2).1 = false)
    (hst : s._status &&& STA_NOINIT = 0) (hpr : s._status &&& STA_PROTECT = 0)
    (hpre : (if (writeEntry W s)._cardType &&& CT_SDC ≠ 0
              then (send_cmd W fuel ACMD23 count (writeEntry W s)).map Prod.snd
              else some (writeEntry W s)) = some sP)
    (h25 : send_cmd W fuel CMD25 (cardAddr (writeEntry W s) sector) sP = some (r, sC)) :
    (r ≠ 0 → write W fuel buff sector count s = some (RES_ERROR, unlock (deselect W sC)) ∧
      (unlock (deselect W sC)).trace = sC.trace ++ [Ev.cs true, Ev.xfer 0xFF]) ∧
    (r = 0 → ∀ res s', write W fuel buff sector count s = some (res, s') →
      ∃ run left pos clk k ready,
        BlockSeq W buff sC.nbus sC.nclk 0 count run left pos clk ∧ Ev.xfer 0xFD ∉ run ∧
        ReadyWait W 100 pos clk k ready ∧
        (ready = true →
          s'.trace = sC.trace ++ run ++ idles (k + 1) ++ [Ev.xfer 0xFD]
            ++ [Ev.cs true, Ev.xfer 0xFF] ∧ (res = RES_OK ↔ left = 0)) ∧
        (ready = false →
          s'.trace = sC.trace ++ run ++ idles (k + 1) ++ [Ev.cs true, Ev.xfer 0xFF] ∧
          res = RES_ERROR) ∧
        (s'.trace.drop sC.trace.length).count (Ev.xfer 0xFD) = if ready then 1 else 0) := by
  have hne : count ≠ 1 := by omega
  have hwb : write_blocks W fuel buff (cardAddr (writeEntry W s) sector) count (writeEntry W s)
      = if r = 0 then
          match write_loop W fuel buff fuel 0 count sC with
          | none => none
          | some (c, s1) =>
            match xmit_datablock W fuel buff 0 0xFD s1 with
            | none => none
            | some (ok, s2) => some (if ok = 0 then 1 else c, s2)
        else some (count, sC) := by
    unfold write_blocks
    rw [if_neg hne]
    simp only [hpre, h25]
    try rfl
  have hidle_count : ∀ n, (idles n).count (Ev.xfer 0xFD) = 0 := by
    intro n
    rw [List.count_eq_zero]
    intro hm
    rw [idles, List.mem_replicate] at hm
    exact absurd hm.2 (by decide)
  rw [write_gates W fuel buff sector count s hcd hwp hst hpr, hwb]
  constructor
  · intro hr
    rw [if_neg hr]
    have : count ≠ 0 := by omega
    refine ⟨by simp [this], ?_⟩
    show (deselect W sC).trace = _
    rw [deselect_trace]
  · intro hr res s' h
    rw [if_pos hr] at h
    split at h
    · simp at h
    · rename_i c s2 hb
      split at hb
      · simp at hb
      · rename_i left s1 hl
        obtain ⟨run, htr, hrun⟩ := write_loop_exact W fuel buff fuel 0 count sC left s1 hl
        have hno := hrun.no_stop_token
        split at hb
        · simp at hb
        · rename_i ok s3 hx
          simp only [Option.some.injEq, Prod.mk.injEq] at hb
          obtain ⟨rfl, rfl⟩ := hb
          simp only [Option.some.injEq, Prod.mk.injEq] at h
          obtain ⟨rfl, rfl⟩ := h
          obtain ⟨k, hc⟩ := xmit_datablock_exact W fuel buff 0 0xFD s1 ok s3 hx
          rcases hc with ⟨hrw, rfl, h2, -, -⟩ | ⟨hrw, -, ⟨-, rfl, h2, -⟩ | ⟨hcontra, -⟩⟩
          · have ht : (unlock (deselect W s3)).trace
                = sC.trace ++ run ++ idles (k + 1) ++ [Ev.cs true, Ev.xfer 0xFF] := by
              show (deselect W s3).trace = _
              rw [deselect_trace, h2, htr]
            refine ⟨run, left, s1.nbus, s1.nclk, k, false, hrun, hno, hrw,
              fun hf => absurd hf (by decide), fun _ => ⟨ht, by simp⟩, ?_⟩
            rw [ht]
            simp only [List.append_assoc, List.drop_left, List.count_append,
              List.count_eq_zero.mpr hno, hidle_count]
            decide
          · have ht : (unlock (deselect W s3)).trace
                = sC.trace ++ run ++ idles (k + 1) ++ [Ev.xfer 0xFD]
                  ++ [Ev.cs true, Ev.xfer 0xFF] := by
              show (deselect W s3).trace = _
              rw [deselect_trace, h2, htr]
            refine ⟨run, left, s1.nbus, s1.nclk, k, true, hrun, hno, hrw,
              fun _ => ⟨ht, ?_⟩, fun hf => absurd hf (by decide), ?_⟩
            · by_cases hl0 : left = 0 <;> simp [hl0]
            · rw [ht]
              simp only [List.append_assoc, List.drop_left, List.count_append,
                List.count_eq_zero.mpr hno, hidle_count]
              decide
          · exact absurd rfl hcontra

/-- The card and the clock decide the whole block run: two descriptions of the
run from the same start agree on the events, on the blocks left and on where
the run ends. -/
theorem BlockSeq.same_run {W : World} {buff : Nat → Nat} {pos clk off n : Nat}
    {run run2 : List Ev} {left left2 p p2 c c2 : Nat}
    (h : BlockSeq W buff pos clk off n run left p c)
    (h2 : BlockSeq W buff pos clk off n run2 left2 p2 c2) :
    run = run2 ∧ left = left2 ∧ p = p2 ∧ c = c2 := by
  induction h generalizing run2 left2 p2 c2 with
  | notReady pos clk off n k tr pos' clk' hw htr hpos hclk =>
    cases h2 with
    | notReady _ _ _ _ k2 _ _ _ hw2 htr2 hpos2 hclk2 =>
      obtain ⟨rfl, -⟩ := hw.same_polls hw2
      subst htr htr2 hpos hpos2 hclk hclk2
      exact ⟨rfl, rfl, rfl, rfl⟩
    | rejected _ _ _ _ k2 _ _ _ hw2 => exact absurd (hw.same_polls hw2).2 (by decide)
    | last _ _ _ _ k2 _ _ _ hw2 => exact absurd (hw.same_polls hw2).2 (by decide)
    | more _ _ _ _ k2 _ _ _ _ _ _ _ _ _ hw2 => exact absurd (hw.same_polls hw2).2 (by decide)
  | rejected pos clk off n k tr pos' clk' hw htr ha hpos hclk =>
    cases h2 with
    | notReady _ _ _ _ k2 _ _ _ hw2 => exact absurd (hw.same_polls hw2).2 (by decide)
    | rejected _ _ _ _ k2 _ _ _ hw2 htr2 ha2 hpos2 hclk2 =>
      obtain ⟨rfl, -⟩ := hw.same_polls hw2
      subst htr htr2 hpos hpos2 hclk hclk2
      exact ⟨rfl, rfl, rfl, rfl⟩
    | last _ _ _ _ k2 _ _ _ hw2 htr2 ha2 =>
      obtain ⟨rfl, -⟩ := hw.same_polls hw2
      rw [ha] at ha2
      exact absurd ha2 (by decide)
    | more _ _ _ _ k2 _ _ _ _ _ _ _ _ _ hw2 htr2 ha2 =>
      obtain ⟨rfl, -⟩ := hw.same_polls hw2
      rw [ha] at ha2
      exact absurd ha2 (by decide)
  | last pos clk off n k tr pos' clk' hw htr ha hn hpos hclk =>
    cases h2 with
    | notReady _ _ _ _ k2 _ _ _ hw2 => exact absurd (hw.same_polls hw2).2 (by decide)
    | rejected _ _ _ _ k2 _ _ _ hw2 htr2 ha2 =>
      obtain ⟨rfl, -⟩ := hw.same_polls hw2
      rw [ha] at ha2
      exact absurd ha2 (by decide)
    | last _ _ _ _ k2 _ _ _ hw2 htr2 ha2 hn2 hpos2 hclk2 =>
      obtain ⟨rfl, -⟩ := hw.same_polls hw2
      subst htr htr2 hpos hpos2 hclk hclk2
      exact ⟨rfl, rfl, rfl, rfl⟩
    | more _ _ _ _ k2 _ _ _ n1 _ _ _ _ _ hw2 htr2 ha2 hpos2 hclk2 hoff2 hn12 hn2 =>
      rw [hn12] at hn2
      exact absurd hn hn2
  | more pos clk off n k pos1 clk1 off1 n1 tr run left pos' clk' hw htr ha hpos hclk hoff hn1 hn
      rest ih =>
    cases h2 with
    | notReady _ _ _ _ k2 _ _ _ hw2 => exact absurd (hw.same_polls hw2).2 (by decide)
    | rejected _ _ _ _ k2 _ _ _ hw2 htr2 ha2 =>
      obtain ⟨rfl, -⟩ := hw.same_polls hw2
      rw [ha] at ha2
      exact absurd ha2 (by decide)
    | last _ _ _ _ k2 _ _ _ hw2 htr2 ha2 hn2 =>
      rw [hn1] at hn
      exact absurd hn2 hn
    | more _ _ _ _ k2 q1 d1 o1 m1 _ r2 _ _ _ hw2 htr2 ha2 hpos2 hclk2 hoff2 hn12 hn2 rest2 =>
      obtain ⟨rfl, -⟩ := hw.same_polls hw2
      have e1 : q1 = pos1 := hpos2.trans hpos.symm
      have e2 : d1 = clk1 := hclk2.trans hclk.symm
      have e3 : o1 = off1 := hoff2.trans hoff.symm
      have e4 : m1 = n1 := hn12.trans hn1.symm
      subst e1 e2 e3 e4
      obtain ⟨e5, e6, e7, e8⟩ := ih rest2
      rw [htr, htr2, e5]
      exact ⟨rfl, e6, e7, e8⟩

set_option maxHeartbeats 2000000 in
theorem write_multi_stop_witness :
    ∃ run left pos clk k ready',
      BlockSeq twoBlockCard zeros twoBlockC.nbus twoBlockC.nclk 0 2 run left pos clk ∧
      Ev.xfer 0xFD ∉ run ∧
      ReadyWait twoBlockCard 100 pos clk k ready' ∧
      (ready' = true →
        (stateAfter (write twoBlockCard 5 zeros 0 2 ready)).trace =
            twoBlockC.trace ++ run ++ idles (k + 1) ++ [Ev.xfer 0xFD]
              ++ [Ev.cs true, Ev.xfer 0xFF] ∧ (RES_OK = RES_OK ↔ left = 0)) ∧
      (ready' = false →
        (stateAfter (write twoBlockCard 5 zeros 0 2 ready)).trace =
            twoBlockC.trace ++ run ++ idles (k + 1) ++ [Ev.cs true, Ev.xfer 0xFF] ∧
          RES_OK = RES_ERROR) ∧
      ((stateAfter (write twoBlockCard 5 zeros 0 2 ready)).trace.drop
          twoBlockC.trace.length).count (Ev.xfer 0xFD) = if ready' then 1 else 0 :=
  (write_multi_stop twoBlockCard 5 zeros 0 2 ready twoBlockP twoBlockC 0 (by decide)
    (by decide) (by decide) (by decide) (by decide)
    (by decide!)
    (eq_some_stateAfter _ _ (by decide!))).2 rfl RES_OK
    (stateAfter (write twoBlockCard 5 zeros 0 2 ready)) (eq_some_stateAfter _ _ (by decide!))

end FatFsSD
